import Mathlib

/-!
# Pixie firmware game panels: snake and Tetris

A shallow embedding of the simulation core of `src/main/panel-tetris.c` and
`src/main/panel-snake.c`, with the properties of the two engines proved
about it.

Conventions of the embedding

* C `int` values are `Int` (or `Nat` where the code never goes below zero);
  `uint32_t` values are `Nat` below `2^32`, with the reduction written out
  where a subtraction or a conversion can wrap.
* Arrays are read and written by index.  The Tetris board is a function from
  row and column to the cell value.  The snake body is a zero-initialised
  memory of slots (the state is `memset` to zero by `init`), addressed by
  slot index.
* `rand()` is an explicit input: every handler receives the values that
  `rand()` yields while it runs.
* `ticks()` is an explicit input `now` of each handler.
* Calls into the scene graph (`ffx_scene...`) and `printf` have no effect on
  the game state and are left out; `panel_pop()` is reported as a flag.
-/

/-- The buttons that are down in a key event (`event.props.keys.down`); a
field is true when the bit of that key (`KeyCancel`, `KeyOk`, `KeyNorth`,
`KeySouth`) is set in the mask. -/
structure Keys where
  cancel : Bool
  ok : Bool
  north : Bool
  south : Bool
deriving DecidableEq, Repr

/-- No button down. -/
def Keys.none : Keys := ⟨false, false, false, false⟩

/-- The difference `a - b` of two `uint32_t` values. -/
def sub32 (a b : Nat) : Nat := (((a : Int) - (b : Int)) % 4294967296).toNat

/-- Run `f 0`, `f 1`, ..., `f (n-1)` in this order on a state: the C loop
`for (int i = 0; i < n; i++)` without `break`. -/
def forRange {σ : Type} (n : Nat) (f : Nat → σ → σ) (s : σ) : σ :=
  (List.range n).foldl (fun acc i => f i acc) s

namespace Tetris

def BOARD_WIDTH : Nat := 20

def BOARD_HEIGHT : Nat := 10

def PIECE_COUNT : Nat := 7

/-- The member `uint8_t grid[BOARD_HEIGHT][BOARD_WIDTH]`: `g.cell y x` is the
C expression `grid[y][x]`. -/
structure Grid where
  cell : Nat → Nat → Nat

/-- The assignment `grid[y][x] = v`. -/
def setCell (g : Grid) (y x v : Nat) : Grid :=
  ⟨fun y' x' => if y' = y ∧ x' = x then v else g.cell y' x'⟩

/-- The scan `fullLine = true; for (x ...) if (!grid[y][x]) { fullLine =
false; break; }` of `clearLines`. -/
def fullLine (g : Grid) (y : Nat) : Bool :=
  (List.range BOARD_WIDTH).all (fun x => g.cell y x != 0)

/-- The inner loop `for (x ...) grid[moveY][x] = grid[moveY - 1][x]`. -/
def copyRowDown (g : Grid) (moveY : Nat) : Grid :=
  forRange BOARD_WIDTH (fun x acc => setCell acc moveY x (acc.cell (moveY - 1) x)) g

/-- The loop `for (int moveY = y; moveY > 0; moveY--)` around
`copyRowDown`. -/
def moveDown : Nat → Grid → Grid
  | 0, g => g
  | m + 1, g => moveDown m (copyRowDown g (m + 1))

/-- The loop `for (x ...) grid[0][x] = 0`. -/
def clearTop (g : Grid) : Grid :=
  forRange BOARD_WIDTH (fun x acc => setCell acc 0 x 0) g

/-- The body of `if (fullLine)` in `clearLines`, as far as the grid goes. -/
def removeLine (g : Grid) (y : Nat) : Grid :=
  clearTop (moveDown y g)

/-- The loop `for (int y = BOARD_HEIGHT - 1; y >= 0; y--)` of `clearLines`,
started at row `y` with `linesCleared = c`.  The first argument bounds the
number of rows the loop may still examine: every examination of a row uses
one unit, the exit test `y >= 0` uses none.  `none` means the bound was
reached before the loop left. -/
def clearLinesLoop : Nat → Grid → Int → Nat → Option (Grid × Nat)
  | 0, g, y, c => if y < 0 then some (g, c) else none
  | fuel + 1, g, y, c =>
    if y < 0 then some (g, c)
    else if fullLine g y.toNat then
      -- `linesCleared++; y++;` and then the `y--` of the loop header
      clearLinesLoop fuel (removeLine g y.toNat) (y + 1 - 1) (c + 1)
    else clearLinesLoop fuel g (y - 1) c

/-- The function `clearLines`: the grid after the call and the returned
count.  Twenty row examinations are allowed; by `clearLines_rows` no
grid needs more. -/
def clearLines (g : Grid) : Option (Grid × Nat) :=
  clearLinesLoop (2 * BOARD_HEIGHT) g ((BOARD_HEIGHT : Int) - 1) 0

/-- Row `y` of the grid as the list of its `BOARD_WIDTH` cells. -/
def rowOf (g : Grid) (y : Nat) : List Nat :=
  (List.range BOARD_WIDTH).map (g.cell y)

/-- The grid as the list of its rows, top (row 0) first. -/
def toRows (g : Grid) : List (List Nat) :=
  (List.range BOARD_HEIGHT).map (rowOf g)

/-- A row is full when none of its cells is zero. -/
def isFullRow (r : List Nat) : Bool := r.all (fun c => c != 0)

/-- The all-zero row. -/
def zeroRow : List Nat := List.replicate BOARD_WIDTH 0

/-- The table `pieces[PIECE_COUNT][4][4][4]`: kind, rotation, row, column. -/
def pieces : List (List (List (List Nat))) :=
  [ -- I piece
    [ [[0,0,0,0], [1,1,1,1], [0,0,0,0], [0,0,0,0]],
      [[0,0,1,0], [0,0,1,0], [0,0,1,0], [0,0,1,0]],
      [[0,0,0,0], [0,0,0,0], [1,1,1,1], [0,0,0,0]],
      [[0,1,0,0], [0,1,0,0], [0,1,0,0], [0,1,0,0]] ],
    -- O piece
    [ [[0,0,0,0], [0,1,1,0], [0,1,1,0], [0,0,0,0]],
      [[0,0,0,0], [0,1,1,0], [0,1,1,0], [0,0,0,0]],
      [[0,0,0,0], [0,1,1,0], [0,1,1,0], [0,0,0,0]],
      [[0,0,0,0], [0,1,1,0], [0,1,1,0], [0,0,0,0]] ],
    -- T piece
    [ [[0,0,0,0], [0,1,0,0], [1,1,1,0], [0,0,0,0]],
      [[0,0,0,0], [0,1,0,0], [0,1,1,0], [0,1,0,0]],
      [[0,0,0,0], [0,0,0,0], [1,1,1,0], [0,1,0,0]],
      [[0,0,0,0], [0,1,0,0], [1,1,0,0], [0,1,0,0]] ],
    -- S piece
    [ [[0,0,0,0], [0,1,1,0], [1,1,0,0], [0,0,0,0]],
      [[0,0,0,0], [0,1,0,0], [0,1,1,0], [0,0,1,0]],
      [[0,0,0,0], [0,0,0,0], [0,1,1,0], [1,1,0,0]],
      [[0,0,0,0], [1,0,0,0], [1,1,0,0], [0,1,0,0]] ],
    -- Z piece
    [ [[0,0,0,0], [1,1,0,0], [0,1,1,0], [0,0,0,0]],
      [[0,0,0,0], [0,0,1,0], [0,1,1,0], [0,1,0,0]],
      [[0,0,0,0], [0,0,0,0], [1,1,0,0], [0,1,1,0]],
      [[0,0,0,0], [0,1,0,0], [1,1,0,0], [1,0,0,0]] ],
    -- J piece
    [ [[0,0,0,0], [1,0,0,0], [1,1,1,0], [0,0,0,0]],
      [[0,0,0,0], [0,1,1,0], [0,1,0,0], [0,1,0,0]],
      [[0,0,0,0], [0,0,0,0], [1,1,1,0], [0,0,1,0]],
      [[0,0,0,0], [0,1,0,0], [0,1,0,0], [1,1,0,0]] ],
    -- L piece
    [ [[0,0,0,0], [0,0,1,0], [1,1,1,0], [0,0,0,0]],
      [[0,0,0,0], [0,1,0,0], [0,1,0,0], [0,1,1,0]],
      [[0,0,0,0], [0,0,0,0], [1,1,1,0], [1,0,0,0]],
      [[0,0,0,0], [1,1,0,0], [0,1,0,0], [0,1,0,0]] ] ]

/-- The C expression `pieces[kind][rotation][py][px]`. -/
def pieceCell (kind rotation py px : Nat) : Nat :=
  (((pieces.getD kind []).getD rotation []).getD py []).getD px 0

/-- The game fields of `struct TetrisState`, and `okHoldStart`, the
`static` variable of `keyChanged`.  The scene nodes and the text buffers
are left out. -/
structure TetrisState where
  grid : Grid
  currentPiece : Nat
  pieceX : Int
  pieceY : Int
  pieceRotation : Nat
  score : Int
  lines : Int
  level : Int
  gameOver : Bool
  paused : Bool
  lastDrop : Nat
  dropSpeed : Nat
  currentKeys : Keys
  southHoldStart : Nat
  gameStartTime : Nat
  okHoldStart : Nat

/-- The function `checkCollision`: the two loops over the 4x4 mask return
true at the first occupied cell that is out of bounds or on a placed
block. -/
def checkCollision (s : TetrisState) (x y : Int) (rotation : Nat) : Bool :=
  (List.range 4).any (fun py =>
    (List.range 4).any (fun px =>
      if pieceCell s.currentPiece rotation py px ≠ 0 then
        let nx : Int := x + px
        let ny : Int := y + py
        if nx < 0 ∨ nx ≥ BOARD_WIDTH ∨ ny < 0 ∨ ny ≥ BOARD_HEIGHT then true
        else if nx ≥ 0 ∧ nx < BOARD_WIDTH ∧ ny ≥ 0 ∧ ny < BOARD_HEIGHT
            ∧ s.grid.cell ny.toNat nx.toNat ≠ 0 then true
        else false
      else false))

/-- The function `placePiece`; the value stored is `currentPiece + 1` as a
`uint8_t`. -/
def placePiece (s : TetrisState) : TetrisState :=
  forRange 4 (fun py s1 =>
    forRange 4 (fun px s2 =>
      if pieceCell s2.currentPiece s2.pieceRotation py px ≠ 0 then
        let nx : Int := s2.pieceX + px
        let ny : Int := s2.pieceY + py
        if nx ≥ 0 ∧ nx < BOARD_WIDTH ∧ ny ≥ 0 ∧ ny < BOARD_HEIGHT then
          { s2 with grid := setCell s2.grid ny.toNat nx.toNat ((s2.currentPiece + 1) % 256) }
        else s2
      else s2) s1) s

/-- The function `spawnPiece`; `r` is the value of `rand()`. -/
def spawnPiece (r : Nat) (s : TetrisState) : TetrisState :=
  let s1 := { s with
    currentPiece := r % PIECE_COUNT
    pieceX := 0
    pieceY := (BOARD_HEIGHT : Int) / 2 - 2
    pieceRotation := 0 }
  if checkCollision s1 s1.pieceX s1.pieceY s1.pieceRotation then
    { s1 with gameOver := true }
  else s1

/-- The statements `dropSpeed = 1000 - (level - 1) * 50; if (dropSpeed <
100) dropSpeed = 100;` of `render`: the `int` value is converted to
`uint32_t` by the assignment, and the comparison is made on the converted
value. -/
def levelDropSpeed (level : Int) : Nat :=
  let dropSpeed : Nat := ((1000 - (level - 1) * 50) % 4294967296).toNat
  if dropSpeed < 100 then 100 else dropSpeed

/-- The block `if (linesCleared > 0) { ... }` of `render`; the division of
`int` values rounds toward zero. -/
def scoreLines (s : TetrisState) (linesCleared : Nat) : TetrisState :=
  if linesCleared > 0 then
    let s1 := { s with lines := s.lines + linesCleared }
    let s2 := { s1 with score := s1.score + (linesCleared : Int) * 100 * s1.level }
    let s3 := { s2 with level := Int.tdiv s2.lines 10 + 1 }
    { s3 with dropSpeed := levelDropSpeed s3.level }
  else s

/-- The part of `keyChanged` that handles the Ok button (hold to exit, short
press to pause).  The flag is true when `panel_pop()` was called and the
handler returned. -/
def okButton (s : TetrisState) (down : Keys) (now : Nat) : TetrisState × Bool :=
  if down.ok then
    if s.okHoldStart = 0 then ({ s with okHoldStart := now }, false) else (s, false)
  else if s.okHoldStart > 0 then
    let holdDuration := sub32 now s.okHoldStart
    if holdDuration > 1000 then (s, true)
    else
      let s1 := if !s.gameOver then { s with paused := !s.paused } else s
      ({ s1 with okHoldStart := 0 }, false)
  else (s, false)

/-- The reset block of `keyChanged` (Cancel while the game is over). -/
def resetGame (r : Nat) (s : TetrisState) : TetrisState :=
  spawnPiece r { s with
    grid := ⟨fun _ _ => 0⟩
    score := 0
    lines := 0
    level := 1
    gameOver := false
    paused := false
    dropSpeed := 1000 }

/-- The rotate block of `keyChanged` (Cancel). -/
def rotatePiece (down : Keys) (s : TetrisState) : TetrisState :=
  if down.cancel then
    let newRotation := (s.pieceRotation + 1) % 4
    if !checkCollision s s.pieceX s.pieceY newRotation then
      { s with pieceRotation := newRotation }
    else s
  else s

/-- The move-up block of `keyChanged` (North). -/
def moveUp (down : Keys) (s : TetrisState) : TetrisState :=
  if down.north then
    if !checkCollision s s.pieceX (s.pieceY - 1) s.pieceRotation then
      { s with pieceY := s.pieceY - 1 }
    else s
  else s

/-- The move-down block of `keyChanged` (South). -/
def moveDownKey (down : Keys) (s : TetrisState) : TetrisState :=
  if down.south then
    if !checkCollision s s.pieceX (s.pieceY + 1) s.pieceRotation then
      { s with pieceY := s.pieceY + 1 }
    else s
  else s

/-- The part of `keyChanged` after the Ok button: reset while the game is
over, nothing while paused, otherwise rotate, move up, move down. -/
def gameKeys (down : Keys) (r : Nat) (s : TetrisState) : TetrisState :=
  if s.gameOver then
    if down.cancel then resetGame r s else s
  else if s.paused then s
  else moveDownKey down (moveUp down (rotatePiece down s))

/-- The handler `keyChanged`; `now` is the value of `ticks()` and `r` the
value of `rand()` used if the game is reset.  The flag of the result is true
when the handler called `panel_pop()`. -/
def keyChanged (s : TetrisState) (down : Keys) (now r : Nat) : TetrisState × Bool :=
  let s0 := { s with currentKeys := down }
  if s0.gameStartTime = 0 then
    ({ s0 with gameStartTime := now, okHoldStart := 0 }, false)
  else if sub32 now s0.gameStartTime < 500 then (s0, false)
  else if (okButton s0 down now).2 then ((okButton s0 down now).1, true)
  else (gameKeys down r (okButton s0 down now).1, false)

/-- The handler `render` without the drawing; `now` is the value of
`ticks()` and `r` the value of `rand()` used if a piece is spawned.  The
flag of the result is true when the handler called `panel_pop()`; `none`
stands for a call of `clearLines` that has not returned. -/
def render (s : TetrisState) (now r : Nat) : Option (TetrisState × Bool) :=
  if s.southHoldStart > 0 ∧ sub32 now s.southHoldStart > 1000 then some (s, true)
  else if s.paused ∨ s.gameOver then some (s, false)
  else if sub32 now s.lastDrop > s.dropSpeed then
    if !checkCollision s (s.pieceX + 1) s.pieceY s.pieceRotation then
      some ({ s with pieceX := s.pieceX + 1, lastDrop := now }, false)
    else
      let s1 := placePiece s
      match clearLines s1.grid with
      | none => none
      | some (g, linesCleared) =>
        let s2 := scoreLines { s1 with grid := g } linesCleared
        some ({ spawnPiece r s2 with lastDrop := now }, false)
  else some (s, false)

/-- The function `init` as far as the game state goes; `now` is the value
of `ticks()`, `r` the value of `rand()`, and `hold` the value that the
`static` variable `okHoldStart` has when the panel is entered. -/
def init (now r hold : Nat) : TetrisState :=
  spawnPiece r
    { grid := ⟨fun _ _ => 0⟩
      currentPiece := 0
      pieceX := 0
      pieceY := 0
      pieceRotation := 0
      score := 0
      lines := 0
      level := 1
      gameOver := false
      paused := false
      lastDrop := now
      dropSpeed := 1000
      currentKeys := Keys.none
      southHoldStart := 0
      gameStartTime := 0
      okHoldStart := hold }

/-- The states of the Tetris panel that `init` followed by key events and
render ticks can produce; a handler that pops the panel ends the run. -/
inductive Reachable : TetrisState → Prop
  | init (now r hold : Nat) : Reachable (init now r hold)
  | key (s s' : TetrisState) (down : Keys) (now r : Nat) :
      Reachable s → keyChanged s down now r = (s', false) → Reachable s'
  | tick (s s' : TetrisState) (now r : Nat) :
      Reachable s → render s now r = some (s', false) → Reachable s'

/-- The number of full rows among the rows of a list. -/
def fullCount (rows : List (List Nat)) : Nat := rows.countP isFullRow

/-- The rows that are not full, in their order. -/
def keptRows (rows : List (List Nat)) : List (List Nat) :=
  rows.filter (fun r => !isFullRow r)

/-- A grid whose first column is empty and whose other cells are filled. -/
def firstColumnEmpty : Grid := ⟨fun _ x => if x = 0 then 0 else 3⟩

/-- The active piece, at its current pose, touches neither the border nor a
placed block, unless the game is over. -/
def PieceFree (s : TetrisState) : Prop :=
  s.gameOver = false → checkCollision s s.pieceX s.pieceY s.pieceRotation = false

/-- The state after `init` when `rand()` yields 2: a T piece on the empty
board. -/
def startWithT : TetrisState := init 1000 2 0

/-- A state at level 21 with 209 lines cleared, in which the falling I piece
rests against the right edge and completes row 4. -/
def beforeLevel22 : TetrisState :=
  { grid := ⟨fun y x => if y = 4 ∧ x < 16 then 1 else 0⟩
    currentPiece := 0
    pieceX := 16
    pieceY := 3
    pieceRotation := 0
    score := 0
    lines := 209
    level := 21
    gameOver := false
    paused := false
    lastDrop := 1000
    dropSpeed := 100
    currentKeys := Keys.none
    southHoldStart := 0
    gameStartTime := 1
    okHoldStart := 0 }

/-- A state with an all-empty board and no game in progress yet, as `init`
has it before it calls `spawnPiece`. -/
def emptyBoard : TetrisState :=
  { grid := ⟨fun _ _ => 0⟩
    currentPiece := 0
    pieceX := 0
    pieceY := 0
    pieceRotation := 0
    score := 0
    lines := 0
    level := 1
    gameOver := false
    paused := false
    lastDrop := 1000
    dropSpeed := 1000
    currentKeys := Keys.none
    southHoldStart := 0
    gameStartTime := 0
    okHoldStart := 0 }

/-- Only the Cancel button down. -/
def cancelDown : Keys := ⟨true, false, false, false⟩

/-- The state after `init` with a T piece, past a first key event at clock
value 1100. -/
def tetrisReady : TetrisState :=
  { startWithT with gameStartTime := 1100 }

/-- The state with the pose that `spawnPiece` assigns, before its collision
test. -/
def spawnPose (r : Nat) (s : TetrisState) : TetrisState :=
  { s with currentPiece := r % 7, pieceX := 0, pieceY := 3, pieceRotation := 0 }

/-- One round of the inner loop of `placePiece`, for the mask cell `(px,
py)`. -/
def placeCell (py px : Nat) (s2 : TetrisState) : TetrisState :=
  if pieceCell s2.currentPiece s2.pieceRotation py px ≠ 0 then
    let nx : Int := s2.pieceX + px
    let ny : Int := s2.pieceY + py
    if nx ≥ 0 ∧ nx < BOARD_WIDTH ∧ ny ≥ 0 ∧ ny < BOARD_HEIGHT then
      { s2 with grid := setCell s2.grid ny.toNat nx.toNat ((s2.currentPiece + 1) % 256) }
    else s2
  else s2

/-- The mask cell `(px, py)` of the current pose is occupied and lies on the
board cell in row `y`, column `x`. -/
def Hits (s : TetrisState) (py px y x : Nat) : Prop :=
  pieceCell s.currentPiece s.pieceRotation py px ≠ 0
    ∧ s.pieceX + (px : Int) = (x : Int) ∧ s.pieceY + (py : Int) = (y : Int)
    ∧ x < 20 ∧ y < 10

/-- The board cell in row `y`, column `x` is in bounds and covered by an
occupied mask cell of the current pose. -/
def Covered (s : TetrisState) (y x : Nat) : Prop :=
  ∃ py px, py < 4 ∧ px < 4 ∧ Hits s py px y x

/-- The states that the Tetris panel can be in at a given time: `entry` is
the time at which the screen was entered (`init` ran), the second argument
the time of the latest handler call; times are in milliseconds and a handler
sees the time as `ticks()`, reduced to 32 bits.  A handler that pops the
panel ends the run. -/
inductive ReachableAt (entry : Nat) : Nat → TetrisState → Prop
  | init (r hold : Nat) : ReachableAt entry entry (init (entry % 4294967296) r hold)
  | key (t t' : Nat) (s s' : TetrisState) (down : Keys) (r : Nat) :
      ReachableAt entry t s → t ≤ t' →
      keyChanged s down (t' % 4294967296) r = (s', false) → ReachableAt entry t' s'
  | tick (t t' : Nat) (s s' : TetrisState) (r : Nat) :
      ReachableAt entry t s → t ≤ t' →
      render s (t' % 4294967296) r = some (s', false) → ReachableAt entry t' s'

/-- The startup time is unset, or it is the clock value of a moment between
the screen entry and the latest handler call. -/
def StartedAfter (entry t : Nat) (s : TetrisState) : Prop :=
  s.gameStartTime = 0 ∨ ∃ τ, entry ≤ τ ∧ τ ≤ t ∧ s.gameStartTime = τ % 4294967296

/-- The state `tetrisReady` with a press of Ok recorded at clock value
4000. -/
def tetrisHolding : TetrisState :=
  { tetrisReady with okHoldStart := 4000 }

/-- The state `tetrisReady` with the game paused. -/
def tetrisPaused : TetrisState :=
  { tetrisReady with paused := true }

/-- The game is not paused and over at once. -/
def NotPausedAndOver (s : TetrisState) : Prop :=
  ¬ (s.paused = true ∧ s.gameOver = true)

/-- The occupied cells `(py, px)` of the 4x4 mask `pieces[kind][rotation]`. -/
def occupiedCells (kind rotation : Nat) : Finset (Nat × Nat) :=
  ((Finset.range 4) ×ˢ (Finset.range 4)).filter
    (fun m => pieceCell kind rotation m.1 m.2 ≠ 0)

/-- The grid cells `(y, x)` of the board that are empty before `placePiece`
and non-zero after it. -/
def turnedCells (s : TetrisState) : Finset (Nat × Nat) :=
  ((Finset.range BOARD_HEIGHT) ×ˢ (Finset.range BOARD_WIDTH)).filter
    (fun c => s.grid.cell c.1 c.2 = 0 ∧ (placePiece s).grid.cell c.1 c.2 ≠ 0)

/-- The board cell `(y, x)` under the mask cell `(py, px)` of the current
pose. -/
def boardCell (s : TetrisState) (m : Nat × Nat) : Nat × Nat :=
  ((s.pieceY + (m.1 : Int)).toNat, (s.pieceX + (m.2 : Int)).toNat)

end Tetris

namespace Snake

def GRID_WIDTH : Nat := 20

def GRID_HEIGHT : Nat := 16

def MAX_SNAKE_LENGTH : Nat := 50

/-- The type `enum Direction`. -/
inductive Direction where
  | DIR_UP
  | DIR_RIGHT
  | DIR_DOWN
  | DIR_LEFT
deriving DecidableEq, Repr

open Direction

/-- The type `struct Point`. -/
structure Point where
  x : Int
  y : Int
deriving DecidableEq, Repr

/-- The member `Point snake[MAX_SNAKE_LENGTH]` as the list of its slots.  The
state is cleared by `memset` in `init`, so every slot starts as `(0, 0)`.
The code indexes the array with values up to `snakeLength` and never
compares them with `MAX_SNAKE_LENGTH`; to follow it the model keeps every
index addressable: a slot past the end of the list reads as zero and the
list grows when such a slot is written.  The list is the C array for the
indices below `MAX_SNAKE_LENGTH`.  At the indices from `MAX_SNAKE_LENGTH` on
the C program accesses the members that follow the array in `struct
SnakeState` (`snake[50]` is the storage of `snakeLength` and `direction`),
which the list does not hold: model and program agree on every run whose
states have `snakeLength <= MAX_SNAKE_LENGTH` (`ReachableWithin`).  The
advance that first takes `snakeLength` to 51 writes no slot past
`snake[49]`; its call of `spawnFood` reads `snake[50]`, which holds `(51,
direction)` in the program, a value that is no grid cell, and `(0, 0)` in
the list. -/
abbrev Body := List Point

/-- The C expression `snake[i]` read, for `i < MAX_SNAKE_LENGTH`; at a larger
index it reads the list model described at `Body`, not the members that
follow the array. -/
def readSlot (m : Body) (i : Nat) : Point := m.getD i ⟨0, 0⟩

/-- The assignment `snake[i] = p`, for `i < MAX_SNAKE_LENGTH`; at a larger
index the list grows, where the C program overwrites the members that follow
the array. -/
def writeSlot : Body → Nat → Point → Body
  | [], 0, p => [p]
  | [], i + 1, p => ⟨0, 0⟩ :: writeSlot [] i p
  | _ :: t, 0, p => p :: t
  | h :: t, i + 1, p => h :: writeSlot t i p

/-- The game fields of `struct SnakeState`, and `okHoldStart`, the `static`
variable of `keyChanged`.  The scene nodes and the text buffer are left
out. -/
structure SnakeState where
  snake : Body
  snakeLength : Nat
  direction : Direction
  nextDirection : Direction
  foodPos : Point
  score : Int
  gameOver : Bool
  paused : Bool
  lastMove : Nat
  currentKeys : Keys
  southHoldStart : Nat
  gameStartTime : Nat
  okHoldStart : Nat
deriving DecidableEq, Repr

/-- The inner loop of `spawnFood`: whether some `snake[i]`, `i <
snakeLength`, is the food position. -/
def onSnake (s : SnakeState) : Bool :=
  (List.range s.snakeLength).any (fun i =>
    (readSlot s.snake i).x = s.foodPos.x ∧ (readSlot s.snake i).y = s.foodPos.y)

/-- The function `spawnFood`.  The list holds the values that the successive
calls of `rand()` yield, two for each round of the `do ... while` loop;
`none` means that the loop has used all of them without leaving. -/
def spawnFood : SnakeState → List (Nat × Nat) → Option SnakeState
  | _, [] => none
  | s, (rx, ry) :: rest =>
    let s1 := { s with foodPos := ⟨((rx % GRID_WIDTH : Nat) : Int), ((ry % GRID_HEIGHT : Nat) : Int)⟩ }
    if onSnake s1 then spawnFood s1 rest else some s1

/-- The function `checkCollision`. -/
def checkCollision (s : SnakeState) : Bool :=
  let head := readSlot s.snake 0
  if head.x < 0 ∨ head.x ≥ GRID_WIDTH ∨ head.y < 0 ∨ head.y ≥ GRID_HEIGHT then true
  else
    (List.range' 1 (s.snakeLength - 1)).any (fun i =>
      (readSlot s.snake i).x = head.x ∧ (readSlot s.snake i).y = head.y)

/-- The loop `for (i = ...; i > 0; i--) snake[i] = snake[i-1]` of
`moveSnake`, started at index `i`. -/
def shiftBody : Nat → Body → Body
  | 0, m => m
  | i + 1, m => shiftBody i (writeSlot m (i + 1) (readSlot m i))

/-- The `switch (state->direction)` of `moveSnake` that moves the head. -/
def moveHead (d : Direction) (m : Body) : Body :=
  let head := readSlot m 0
  match d with
  | DIR_UP => writeSlot m 0 { head with y := head.y - 1 }
  | DIR_DOWN => writeSlot m 0 { head with y := head.y + 1 }
  | DIR_LEFT => writeSlot m 0 { head with x := head.x - 1 }
  | DIR_RIGHT => writeSlot m 0 { head with x := head.x + 1 }

/-- The function `moveSnake` (the `advance` of the specification) without
the drawing.  The list holds the values of `rand()` for `spawnFood`; `none`
means that `spawnFood` has not returned. -/
def moveSnake (s : SnakeState) (rands : List (Nat × Nat)) : Option SnakeState :=
  if s.gameOver ∨ s.paused then some s
  else
    let s1 := { s with direction := s.nextDirection }
    let s2 := { s1 with snake := shiftBody (s1.snakeLength - 1) s1.snake }
    let s3 := { s2 with snake := moveHead s2.direction s2.snake }
    if checkCollision s3 then some { s3 with gameOver := true }
    else if (readSlot s3.snake 0).x = s3.foodPos.x ∧ (readSlot s3.snake 0).y = s3.foodPos.y then
      spawnFood { s3 with score := s3.score + 10, snakeLength := s3.snakeLength + 1 } rands
    else some s3

/-- The part of `keyChanged` that handles the Ok button (hold to exit, short
press to pause).  The flag is true when `panel_pop()` was called and the
handler returned. -/
def okButton (s : SnakeState) (down : Keys) (now : Nat) : SnakeState × Bool :=
  if down.ok then
    if s.okHoldStart = 0 then ({ s with okHoldStart := now }, false) else (s, false)
  else if s.okHoldStart > 0 then
    let holdDuration := sub32 now s.okHoldStart
    if holdDuration > 1000 then (s, true)
    else
      let s1 := if !s.gameOver then { s with paused := !s.paused } else s
      ({ s1 with okHoldStart := 0 }, false)
  else (s, false)

/-- The assignments that `init` and the reset block of `keyChanged` share:
the three-segment body on the right side, heading left. -/
def startBody (s : SnakeState) : SnakeState :=
  let m0 := writeSlot s.snake 0 ⟨(GRID_WIDTH : Int) - 3, (GRID_HEIGHT : Int) / 2⟩
  let m1 := writeSlot m0 1 ⟨(GRID_WIDTH : Int) - 2, (GRID_HEIGHT : Int) / 2⟩
  let m2 := writeSlot m1 2 ⟨(GRID_WIDTH : Int) - 1, (GRID_HEIGHT : Int) / 2⟩
  { s with
    snakeLength := 3
    snake := m2
    direction := DIR_LEFT
    nextDirection := DIR_LEFT
    score := 0
    gameOver := false
    paused := false }

/-- The reset block of `keyChanged` (Cancel while the game is over). -/
def resetGame (s : SnakeState) (rands : List (Nat × Nat)) : Option SnakeState :=
  spawnFood (startBody s) rands

/-- The turn block of `keyChanged` for North (clockwise). -/
def turnNorth (down : Keys) (s : SnakeState) : SnakeState :=
  if down.north then
    match s.direction with
    | DIR_UP => { s with nextDirection := DIR_RIGHT }
    | DIR_RIGHT => { s with nextDirection := DIR_DOWN }
    | DIR_DOWN => { s with nextDirection := DIR_LEFT }
    | DIR_LEFT => { s with nextDirection := DIR_UP }
  else s

/-- The turn block of `keyChanged` for South (counter-clockwise). -/
def turnSouth (down : Keys) (s : SnakeState) : SnakeState :=
  if down.south then
    match s.direction with
    | DIR_UP => { s with nextDirection := DIR_LEFT }
    | DIR_LEFT => { s with nextDirection := DIR_DOWN }
    | DIR_DOWN => { s with nextDirection := DIR_RIGHT }
    | DIR_RIGHT => { s with nextDirection := DIR_UP }
  else s

/-- The turn block of `keyChanged` for Cancel (clockwise, with the test
against the reverse of the current direction). -/
def turnCancel (down : Keys) (s : SnakeState) : SnakeState :=
  if down.cancel then
    match s.direction with
    | DIR_UP => if s.direction ≠ DIR_DOWN then { s with nextDirection := DIR_RIGHT } else s
    | DIR_RIGHT => if s.direction ≠ DIR_LEFT then { s with nextDirection := DIR_DOWN } else s
    | DIR_DOWN => if s.direction ≠ DIR_UP then { s with nextDirection := DIR_LEFT } else s
    | DIR_LEFT => if s.direction ≠ DIR_RIGHT then { s with nextDirection := DIR_UP } else s
  else s

/-- The part of `keyChanged` after the Ok button: reset while the game is
over, nothing while paused, otherwise the three turn blocks. -/
def gameKeys (down : Keys) (rands : List (Nat × Nat)) (s : SnakeState) : Option SnakeState :=
  if s.gameOver then
    if down.cancel then resetGame s rands else some s
  else if s.paused then some s
  else some (turnCancel down (turnSouth down (turnNorth down s)))

/-- The handler `keyChanged`; `now` is the value of `ticks()` and `rands`
the values of `rand()` used if the game is reset.  The flag of the result is
true when the handler called `panel_pop()`; `none` means that `spawnFood`
has not returned. -/
def keyChanged (s : SnakeState) (down : Keys) (now : Nat) (rands : List (Nat × Nat)) :
    Option (SnakeState × Bool) :=
  let s0 := { s with currentKeys := down }
  if s0.gameStartTime = 0 then
    some ({ s0 with gameStartTime := now, okHoldStart := 0 }, false)
  else if sub32 now s0.gameStartTime < 500 then some (s0, false)
  else if (okButton s0 down now).2 then some ((okButton s0 down now).1, true)
  else (gameKeys down rands (okButton s0 down now).1).map (fun t => (t, false))

/-- The handler `render` without the drawing; `now` is the value of
`ticks()`.  The flag of the result is true when the handler called
`panel_pop()`. -/
def render (s : SnakeState) (now : Nat) (rands : List (Nat × Nat)) :
    Option (SnakeState × Bool) :=
  if s.southHoldStart > 0 ∧ sub32 now s.southHoldStart > 1000 then some (s, true)
  else if sub32 now s.lastMove > 150 then
    (moveSnake s rands).map (fun t => ({ t with lastMove := now }, false))
  else some (s, false)

/-- The function `init` as far as the game state goes; `now` is the value
of `ticks()`, `rands` the values of `rand()`, and `hold` the value that the
`static` variable `okHoldStart` has when the panel is entered. -/
def init (now : Nat) (rands : List (Nat × Nat)) (hold : Nat) : Option SnakeState :=
  spawnFood
    { startBody
        { snake := List.replicate MAX_SNAKE_LENGTH ⟨0, 0⟩
          snakeLength := 0
          direction := DIR_UP
          nextDirection := DIR_UP
          foodPos := ⟨0, 0⟩
          score := 0
          gameOver := false
          paused := false
          lastMove := 0
          currentKeys := Keys.none
          southHoldStart := 0
          gameStartTime := 0
          okHoldStart := hold } with
      lastMove := now
      currentKeys := Keys.none
      southHoldStart := 0
      gameStartTime := 0 }
    rands

/-- An input of the snake panel: a key event or a render tick, with the
clock value and the values of `rand()` that the handler sees. -/
inductive Event where
  | key (down : Keys) (now : Nat) (rands : List (Nat × Nat))
  | tick (now : Nat) (rands : List (Nat × Nat))

/-- One handler call. -/
def step (s : SnakeState) : Event → Option (SnakeState × Bool)
  | Event.key down now rands => keyChanged s down now rands
  | Event.tick now rands => render s now rands

/-- A run of handler calls none of which pops the panel. -/
def run : SnakeState → List Event → Option SnakeState
  | s, [] => some s
  | s, e :: es =>
    match step s e with
    | some (s', false) => run s' es
    | _ => none

/-- The states of the snake panel that `init` followed by key events and
render ticks can produce; a handler that pops the panel ends the run.  Once
a run has taken `snakeLength` past `MAX_SNAKE_LENGTH` and advanced again,
its states are those of the list model of `Body`; `ReachableWithin` is the
part on which the model is the program. -/
inductive Reachable : SnakeState → Prop
  | init (now : Nat) (rands : List (Nat × Nat)) (hold : Nat) (s : SnakeState) :
      init now rands hold = some s → Reachable s
  | step (s s' : SnakeState) (e : Event) :
      Reachable s → step s e = some (s', false) → Reachable s'

/-- A run of handler calls none of which pops the panel and each of which
leaves `snakeLength` within `MAX_SNAKE_LENGTH`. -/
def runWithin : SnakeState → List Event → Option SnakeState
  | s, [] => some s
  | s, e :: es =>
    match step s e with
    | some (s', false) =>
      if s'.snakeLength ≤ MAX_SNAKE_LENGTH then runWithin s' es else none
    | _ => none

/-- The states that `init` followed by key events and render ticks can
produce while the body stays within the capacity of `snake[]`: every state
of the run has `snakeLength <= MAX_SNAKE_LENGTH`, so no handler call of the
run has indexed the array outside its 50 slots. -/
inductive ReachableWithin : SnakeState → Prop
  | init (now : Nat) (rands : List (Nat × Nat)) (hold : Nat) (s : SnakeState) :
      init now rands hold = some s → ReachableWithin s
  | step (s s' : SnakeState) (e : Event) :
      ReachableWithin s → step s e = some (s', false) →
      s'.snakeLength ≤ MAX_SNAKE_LENGTH → ReachableWithin s'

/-- The body as the list of its positions `snake[0 .. snakeLength-1]`. -/
def body (s : SnakeState) : List Point :=
  (List.range s.snakeLength).map (readSlot s.snake)

/-- The cell that `spawnFood` forms from two values of `rand()`. -/
def cellOf (c : Nat × Nat) : Point :=
  ⟨((c.1 % GRID_WIDTH : Nat) : Int), ((c.2 % GRID_HEIGHT : Nat) : Int)⟩

/-- A point moved by one cell in a direction (Up: y-1, Down: y+1, Left:
x-1, Right: x+1). -/
def stepPoint (d : Direction) (p : Point) : Point :=
  match d with
  | DIR_UP => ⟨p.x, p.y - 1⟩
  | DIR_DOWN => ⟨p.x, p.y + 1⟩
  | DIR_LEFT => ⟨p.x - 1, p.y⟩
  | DIR_RIGHT => ⟨p.x + 1, p.y⟩

/-- The body array after the shift and the head move of `moveSnake`. -/
def movedBody (s : SnakeState) : Body :=
  moveHead s.nextDirection (shiftBody (s.snakeLength - 1) s.snake)

/-- A point inside the 20x16 grid. -/
def inGrid (p : Point) : Prop :=
  0 ≤ p.x ∧ p.x < 20 ∧ 0 ≤ p.y ∧ p.y < 16

instance inGridDecidable (p : Point) : Decidable (inGrid p) := by
  unfold inGrid
  infer_instance

/-- The food lies in the grid and on no body segment. -/
def FoodFree (s : SnakeState) : Prop :=
  inGrid s.foodPos ∧ ∀ i, i < s.snakeLength → readSlot s.snake i ≠ s.foodPos

/-- `init` at clock value `now` followed by a run of handler calls. -/
def runInit (now : Nat) (rands : List (Nat × Nat)) (es : List Event) : Option SnakeState :=
  (init now rands 0).bind (fun s => run s es)

/-- Only the North button down. -/
def northDown : Keys := ⟨false, false, true, false⟩

/-- Only the South button down. -/
def southDown : Keys := ⟨false, false, false, true⟩

/-- Render ticks at the clock values `t0`, `t0 + 200`, ...; the k-th tick
gets the k-th list as the values of `rand()`. -/
def ticksFrom (t0 : Nat) (rands : List (List (Nat × Nat))) : List Event :=
  rands.enum.map (fun kr => Event.tick (t0 + 200 * kr.1) kr.2)

/-- One draw of `rand()` values per tick: the cells `(x, y)` for the given
values of `x`. -/
def rowCells (y : Nat) (xs : List Nat) : List (List (Nat × Nat)) :=
  xs.map (fun x => [(x, y)])

/-- A game in which the food, first placed at `(0, 0)`, is reached in the top
left corner: 17 ticks to the left along row 8, a clockwise turn (North), 8
ticks up along column 0.  The first key event only starts the 500 ms startup
window. -/
def cornerMeal : List Event :=
  [Event.key Keys.none 1100 []] ++ ticksFrom 1200 (List.replicate 17 []) ++
  [Event.key northDown 4500 []] ++ ticksFrom 4600 (List.replicate 7 [] ++ [[(5, 5)]])

/-- A game in which every tick moves the head onto the food and `rand()`
puts the next food on the cell ahead: 17 cells to the left along row 8, up
to row 7, 19 cells to the right, up to row 6, 10 cells to the left; 48 food
items in all, the first placed at `(16, 8)` by `init`. -/
def longMeal : List Event :=
  [Event.key Keys.none 1100 []] ++
  ticksFrom 1200 (rowCells 8 (List.range 16).reverse ++ [[(0, 7)]]) ++
  [Event.key northDown 4500 []] ++
  ticksFrom 4600 [[(1, 7)]] ++
  [Event.key Keys.none 4700 [], Event.key northDown 4750 []] ++
  ticksFrom 4800 (rowCells 7 (List.range' 2 18) ++ [[(19, 6)]]) ++
  [Event.key southDown 8500 []] ++
  ticksFrom 8600 [[(18, 6)]] ++
  [Event.key Keys.none 8700 [], Event.key southDown 8750 []] ++
  ticksFrom 8800 (rowCells 6 (List.range' 9 9).reverse ++ [[(5, 5)]])

/-- The state that `init` leaves at clock value 1000 when `rand()` yields 5
and 5: body `[(17,8), (18,8), (19,8)]`, heading left, food at `(5, 5)`. -/
def snakeStart : SnakeState :=
  { snake := [⟨17, 8⟩, ⟨18, 8⟩, ⟨19, 8⟩] ++ List.replicate 47 ⟨0, 0⟩
    snakeLength := 3
    direction := DIR_LEFT
    nextDirection := DIR_LEFT
    foodPos := ⟨5, 5⟩
    score := 0
    gameOver := false
    paused := false
    lastMove := 1000
    currentKeys := Keys.none
    southHoldStart := 0
    gameStartTime := 0
    okHoldStart := 0 }

/-- The score is ten times the number of segments gained over the three of
the start. -/
def ScoreTracksLength (s : SnakeState) : Prop :=
  3 ≤ s.snakeLength ∧ s.score = 10 * ((s.snakeLength : Int) - 3)

/-- The start state with the food one cell ahead of the head. -/
def snakeBeforeFood : SnakeState :=
  { snakeStart with foodPos := ⟨16, 8⟩ }

/-- The direction 90 degrees clockwise: Up, Right, Down, Left, Up. -/
def clockwise : Direction → Direction
  | DIR_UP => DIR_RIGHT
  | DIR_RIGHT => DIR_DOWN
  | DIR_DOWN => DIR_LEFT
  | DIR_LEFT => DIR_UP

/-- The direction 90 degrees counter-clockwise: Up, Left, Down, Right, Up. -/
def counterClockwise : Direction → Direction
  | DIR_UP => DIR_LEFT
  | DIR_LEFT => DIR_DOWN
  | DIR_DOWN => DIR_RIGHT
  | DIR_RIGHT => DIR_UP

/-- The start state after a first key event at clock value 1100, which has
opened the startup window. -/
def snakeReady : SnakeState :=
  { snakeStart with gameStartTime := 1100 }

/-- The state `snakeReady` with a press of Ok recorded at clock value
4000. -/
def snakeHolding : SnakeState :=
  { snakeReady with okHoldStart := 4000 }

/-- The states that the snake panel can be in at a given time: `entry` is
the time at which the screen was entered (`init` ran), the second argument
the time of the latest handler call; times are in milliseconds and a handler
sees the time as `ticks()`, reduced to 32 bits.  A handler that pops the
panel ends the run. -/
inductive ReachableAt (entry : Nat) : Nat → SnakeState → Prop
  | init (rands : List (Nat × Nat)) (hold : Nat) (s : SnakeState) :
      init (entry % 4294967296) rands hold = some s → ReachableAt entry entry s
  | key (t t' : Nat) (s s' : SnakeState) (down : Keys) (rands : List (Nat × Nat)) :
      ReachableAt entry t s → t ≤ t' →
      keyChanged s down (t' % 4294967296) rands = some (s', false) → ReachableAt entry t' s'
  | tick (t t' : Nat) (s s' : SnakeState) (rands : List (Nat × Nat)) :
      ReachableAt entry t s → t ≤ t' →
      render s (t' % 4294967296) rands = some (s', false) → ReachableAt entry t' s'

/-- The startup time is unset, or it is the clock value of a moment between
the screen entry and the latest handler call. -/
def StartedAfter (entry t : Nat) (s : SnakeState) : Prop :=
  s.gameStartTime = 0 ∨ ∃ τ, entry ≤ τ ∧ τ ≤ t ∧ s.gameStartTime = τ % 4294967296

/-- The state `snakeReady` with the game paused. -/
def snakePaused : SnakeState :=
  { snakeReady with paused := true }

/-- The game is not paused and over at once. -/
def NotPausedAndOver (s : SnakeState) : Prop :=
  ¬ (s.paused = true ∧ s.gameOver = true)

/-- The reverse of a direction. -/
def opposite : Direction → Direction
  | DIR_UP => DIR_DOWN
  | DIR_DOWN => DIR_UP
  | DIR_LEFT => DIR_RIGHT
  | DIR_RIGHT => DIR_LEFT

/-- The pending direction is not the reverse of the committed one. -/
def NoReverse (s : SnakeState) : Prop :=
  s.nextDirection ≠ opposite s.direction

/-- Only the Ok button down. -/
def okDown : Keys := ⟨false, true, false, false⟩

/-- A first key event at clock value 1100, which opens the startup window,
and a press of Ok at clock value 4000. -/
def pressOk : List Event :=
  [Event.key Keys.none 1100 [], Event.key okDown 4000 []]

/-- A first key event at clock value 1100, which opens the startup window,
and a press of North at clock value 2000. -/
def turnOnce : List Event :=
  [Event.key Keys.none 1100 [], Event.key northDown 2000 []]

/-- The state `snakeReady` after the press of North: heading left with a
clockwise turn to Up pending. -/
def snakeTurned : SnakeState :=
  { snakeReady with currentKeys := northDown, nextDirection := DIR_UP }

end Snake

/-! # Properties -/

theorem forRange_succ {σ : Type} (n : Nat) (f : Nat → σ → σ) (s : σ) :
    forRange (n + 1) f s = f n (forRange n f s) := by
  simp [forRange, List.range_succ, List.foldl_append]

theorem forRange_zero {σ : Type} (f : Nat → σ → σ) (s : σ) :
    forRange 0 f s = s := by
  simp [forRange]

namespace Tetris

theorem setCell_cell (g : Grid) (y x v y' x' : Nat) :
    (setCell g y x v).cell y' x' = if y' = y ∧ x' = x then v else g.cell y' x' :=
  rfl

theorem copyRow_upto (g : Grid) (m n : Nat) :
    ∀ y x, (forRange n (fun x acc => setCell acc m x (acc.cell (m - 1) x)) g).cell y x
      = if y = m ∧ x < n then g.cell (m - 1) x else g.cell y x := by
  induction n with
  | zero => intro y x; simp [forRange_zero]
  | succ n ih =>
    intro y x
    rw [forRange_succ, setCell_cell, ih, ih]
    split_ifs <;> first | rfl | (exfalso; omega) | (congr 1; omega)

theorem copyRowDown_apply (g : Grid) (m : Nat) (y x : Nat) :
    (copyRowDown g m).cell y x
      = if y = m ∧ x < BOARD_WIDTH then g.cell (m - 1) x else g.cell y x :=
  copyRow_upto g m BOARD_WIDTH y x

theorem moveDown_apply (n : Nat) : ∀ (g : Grid) (y x : Nat),
    (moveDown n g).cell y x
      = if 1 ≤ y ∧ y ≤ n ∧ x < BOARD_WIDTH then g.cell (y - 1) x else g.cell y x := by
  induction n with
  | zero =>
    intro g y x
    simp only [moveDown]
    split_ifs <;> first | rfl | (exfalso; omega)
  | succ n ih =>
    intro g y x
    rw [moveDown, ih]
    rw [copyRowDown_apply g (n + 1), copyRowDown_apply g (n + 1)]
    split_ifs <;> first | rfl | (exfalso; omega) | (congr 1; omega)

theorem clearTop_upto (g : Grid) (n : Nat) :
    ∀ y x, (forRange n (fun x acc => setCell acc 0 x 0) g).cell y x
      = if y = 0 ∧ x < n then 0 else g.cell y x := by
  induction n with
  | zero => intro y x; simp [forRange_zero]
  | succ n ih =>
    intro y x
    rw [forRange_succ, setCell_cell, ih]
    split_ifs <;> first | rfl | (exfalso; omega)

theorem removeLine_apply (g : Grid) (n y x : Nat) :
    (removeLine g n).cell y x
      = if x < BOARD_WIDTH then
          (if y = 0 then 0 else if y ≤ n then g.cell (y - 1) x else g.cell y x)
        else g.cell y x := by
  unfold removeLine clearTop
  rw [clearTop_upto, moveDown_apply]
  split_ifs <;> first | rfl | (exfalso; omega)

theorem fullLine_eq (g : Grid) (y : Nat) :
    fullLine g y = isFullRow (rowOf g y) := by
  simp [fullLine, isFullRow, rowOf, List.all_map, Function.comp_def]

theorem toRows_length (g : Grid) : (toRows g).length = BOARD_HEIGHT := by
  simp [toRows]

theorem toRows_getElem (g : Grid) (i : Nat) (h : i < (toRows g).length) :
    (toRows g)[i] = rowOf g i := by
  simp [toRows]

theorem zeroRow_not_full : isFullRow zeroRow = false := by
  decide

theorem rowOf_removeLine_zero (g : Grid) (n : Nat) :
    rowOf (removeLine g n) 0 = zeroRow := by
  apply List.ext_getElem
  · simp [rowOf, zeroRow]
  · intro i h1 h2
    have hi : i < BOARD_WIDTH := by simpa [rowOf] using h1
    simp [rowOf, zeroRow, removeLine_apply, hi]

theorem rowOf_removeLine_le (g : Grid) (n y : Nat) (h0 : 0 < y) (hy : y ≤ n) :
    rowOf (removeLine g n) y = rowOf g (y - 1) := by
  apply List.ext_getElem
  · simp [rowOf]
  · intro i h1 h2
    have hi : i < BOARD_WIDTH := by simpa [rowOf] using h1
    have hne : y ≠ 0 := by omega
    simp [rowOf, removeLine_apply, hi, hne, hy]

theorem rowOf_removeLine_gt (g : Grid) (n y : Nat) (hy : n < y) :
    rowOf (removeLine g n) y = rowOf g y := by
  apply List.ext_getElem
  · simp [rowOf]
  · intro i h1 h2
    have hi : i < BOARD_WIDTH := by simpa [rowOf] using h1
    have hne : y ≠ 0 := by omega
    have hnle : ¬ y ≤ n := by omega
    simp [rowOf, removeLine_apply, hi, hne, hnle]

/-- Removing line `n` puts a zero row on top of the other rows. -/
theorem toRows_removeLine (g : Grid) (n : Nat) (hn : n < BOARD_HEIGHT) :
    toRows (removeLine g n)
      = zeroRow :: ((toRows g).take n ++ (toRows g).drop (n + 1)) := by
  have hlen := toRows_length g
  apply List.ext_getElem
  · simp [toRows_length]
    omega
  · intro i h1 h2
    rw [toRows_getElem]
    have hi : i < BOARD_HEIGHT := by simpa [toRows_length] using h1
    rcases Nat.eq_zero_or_pos i with h0 | hpos
    · subst h0
      simp [rowOf_removeLine_zero]
    · obtain ⟨j, rfl⟩ : ∃ j, i = j + 1 := ⟨i - 1, by omega⟩
      simp only [List.getElem_cons_succ]
      by_cases hj : j < n
      · rw [rowOf_removeLine_le g n (j + 1) (by omega) (by omega)]
        rw [List.getElem_append_left (by simp; omega)]
        simp [toRows_getElem]
      · rw [rowOf_removeLine_gt g n (j + 1) (by omega)]
        rw [List.getElem_append_right (by simp; omega)]
        simp [toRows_getElem]
        congr 1
        have : min n (toRows g).length = n := by omega
        omega

theorem take_succ_rows (g : Grid) (m : Nat) (hm : m < BOARD_HEIGHT) :
    (toRows g).take (m + 1) = (toRows g).take m ++ [rowOf g m] := by
  have hlen : m < (toRows g).length := by simpa [toRows_length] using hm
  rw [List.take_succ, List.getElem?_eq_getElem hlen, toRows_getElem]
  rfl

theorem drop_rows (g : Grid) (m : Nat) (hm : m < BOARD_HEIGHT) :
    (toRows g).drop m = rowOf g m :: (toRows g).drop (m + 1) := by
  have hlen : m < (toRows g).length := by simpa [toRows_length] using hm
  rw [List.drop_eq_getElem_cons hlen, toRows_getElem]

/-- The loop of `clearLines`, started with `n` rows still to examine (rows
`0 .. n-1`) and enough examinations allowed, leaves: it returns the count
raised by the number of full rows among these, and moves their non-full rows
down under as many zero rows. -/
theorem clearLinesLoop_spec : ∀ (fuel : Nat) (g : Grid) (n c : Nat),
    n ≤ BOARD_HEIGHT → n + fullCount ((toRows g).take n) ≤ fuel →
    ∃ g', clearLinesLoop fuel g ((n : Int) - 1) c
        = some (g', c + fullCount ((toRows g).take n))
      ∧ toRows g' = List.replicate (fullCount ((toRows g).take n)) zeroRow
          ++ keptRows ((toRows g).take n) ++ (toRows g).drop n := by
  intro fuel
  induction fuel with
  | zero =>
    intro g n c _ hf
    have hn : n = 0 := by omega
    subst hn
    exact ⟨g, by simp [clearLinesLoop, fullCount], by simp [fullCount, keptRows]⟩
  | succ fuel ih =>
    intro g n c hn hf
    rcases Nat.eq_zero_or_pos n with h0 | hpos
    · subst h0
      exact ⟨g, by simp [clearLinesLoop, fullCount], by simp [fullCount, keptRows]⟩
    · obtain ⟨m, rfl⟩ : ∃ m, n = m + 1 := ⟨n - 1, by omega⟩
      have hm : m < BOARD_HEIGHT := by omega
      have hy : ¬ (((m + 1 : Nat) : Int) - 1 < 0) := by omega
      have hto : (((m + 1 : Nat) : Int) - 1).toNat = m := by omega
      have htake := take_succ_rows g m hm
      have hdrop := drop_rows g m hm
      rw [clearLinesLoop, if_neg hy, hto]
      by_cases hfull : fullLine g m = true
      · rw [if_pos hfull]
        have hfr : isFullRow (rowOf g m) = true := by rw [← fullLine_eq]; exact hfull
        have hrows := toRows_removeLine g m hm
        have hlenT : ((toRows g).take m).length = m := by
          simp [toRows_length]; omega
        have htake2 : (toRows (removeLine g m)).take (m + 1)
            = zeroRow :: (toRows g).take m := by
          rw [hrows, List.take_succ_cons, List.take_append_of_le_length (by omega)]
          rw [List.take_of_length_le (by omega)]
        have hdrop2 : (toRows (removeLine g m)).drop (m + 1)
            = (toRows g).drop (m + 1) := by
          rw [hrows, List.drop_succ_cons, List.drop_append_of_le_length (by omega)]
          rw [List.drop_of_length_le (by omega)]
          rfl
        have hcount : fullCount ((toRows g).take (m + 1))
            = fullCount ((toRows g).take m) + 1 := by
          rw [htake]; simp [fullCount, List.countP_append, hfr]
        have hcount2 : fullCount ((toRows (removeLine g m)).take (m + 1))
            = fullCount ((toRows g).take m) := by
          rw [htake2]; simp [fullCount, List.countP_cons, zeroRow_not_full]
        have hfuel : m + 1 + fullCount ((toRows (removeLine g m)).take (m + 1)) ≤ fuel := by
          rw [hcount2]; rw [hcount] at hf; omega
        obtain ⟨g', hrun, hres⟩ := ih (removeLine g m) (m + 1) (c + 1) hn hfuel
        refine ⟨g', ?_, ?_⟩
        · have e : ((m + 1 : Nat) : Int) - 1 + 1 - 1 = ((m + 1 : Nat) : Int) - 1 := by omega
          rw [e, hrun, hcount2, hcount]
          congr 2
          omega
        · rw [hres, hcount2, hcount, htake2, hdrop2, htake]
          simp [keptRows, List.filter_append, hfr, zeroRow_not_full,
            List.replicate_succ', List.append_assoc]
      · rw [if_neg hfull]
        have hfr : isFullRow (rowOf g m) = false := by
          rw [← fullLine_eq]; simpa using hfull
        have hcount : fullCount ((toRows g).take (m + 1))
            = fullCount ((toRows g).take m) := by
          rw [htake]; simp [fullCount, List.countP_append, hfr]
        have hfuel : m + fullCount ((toRows g).take m) ≤ fuel := by
          rw [hcount] at hf; omega
        obtain ⟨g', hrun, hres⟩ := ih g m c (by omega) hfuel
        refine ⟨g', ?_, ?_⟩
        · have e : ((m + 1 : Nat) : Int) - 1 - 1 = (m : Int) - 1 := by omega
          rw [e, hrun, hcount]
        · rw [hres, hcount, htake, hdrop]
          simp [keptRows, List.filter_append, hfr, List.append_assoc]

theorem fullCount_le_length (rows : List (List Nat)) :
    fullCount rows ≤ rows.length :=
  List.countP_le_length isFullRow

/-- With no full row among those still to examine, the loop of `clearLines`
leaves the grid and the count as they are. -/
theorem clearLinesLoop_no_full : ∀ (fuel : Nat) (g : Grid) (n c : Nat),
    n ≤ fuel → (∀ y, y < n → fullLine g y = false) →
    clearLinesLoop fuel g ((n : Int) - 1) c = some (g, c) := by
  intro fuel
  induction fuel with
  | zero =>
    intro g n c hn _
    have : n = 0 := by omega
    subst this
    simp [clearLinesLoop]
  | succ fuel ih =>
    intro g n c hn h
    rcases Nat.eq_zero_or_pos n with h0 | hpos
    · subst h0
      simp [clearLinesLoop]
    · obtain ⟨m, rfl⟩ : ∃ m, n = m + 1 := ⟨n - 1, by omega⟩
      have hy : ¬ (((m + 1 : Nat) : Int) - 1 < 0) := by omega
      have hto : (((m + 1 : Nat) : Int) - 1).toNat = m := by omega
      have e : ((m + 1 : Nat) : Int) - 1 - 1 = (m : Int) - 1 := by omega
      rw [clearLinesLoop, if_neg hy, hto, h m (by omega)]
      simp only [Bool.false_eq_true, if_false]
      rw [e]
      exact ih g m c (by omega) (fun y hy' => h y (by omega))

theorem fullLine_false_of_zero (g : Grid) (y x : Nat) (hx : x < BOARD_WIDTH)
    (h : g.cell y x = 0) : fullLine g y = false := by
  rw [Bool.eq_false_iff]
  intro hf
  have := (List.all_eq_true.mp hf) x (List.mem_range.mpr hx)
  simp [h] at this

/-- The result of `clearLines` in terms of the rows of the grid. -/
theorem clearLines_rows (g : Grid) :
    ∃ g', clearLines g = some (g', ((toRows g).filter isFullRow).length)
      ∧ toRows g' = List.replicate ((toRows g).filter isFullRow).length
            (List.replicate 20 0)
          ++ (toRows g).filter (fun r => !isFullRow r) := by
  have hlen := toRows_length g
  have hk := fullCount_le_length (toRows g)
  have htake : (toRows g).take BOARD_HEIGHT = toRows g :=
    List.take_of_length_le (by omega)
  have hdrop : (toRows g).drop BOARD_HEIGHT = [] :=
    List.drop_of_length_le (by omega)
  obtain ⟨g', hrun, hres⟩ := clearLinesLoop_spec (2 * BOARD_HEIGHT) g BOARD_HEIGHT 0
    (le_refl _) (by rw [htake]; omega)
  rw [htake] at hrun hres
  rw [hdrop] at hres
  have hc : fullCount (toRows g) = ((toRows g).filter isFullRow).length := by
    simp [fullCount, List.countP_eq_length_filter]
  refine ⟨g', ?_, ?_⟩
  · rw [← hc]
    simpa [clearLines] using hrun
  · rw [← hc, hres]
    simp [keptRows, zeroRow, BOARD_WIDTH]

/-- C1. For every grid, `clearLines` returns the number `k` of full rows (a
row is full when all of its 20 cells are non-zero), and the rows of the grid
after the call are `k` all-zero rows followed by the non-full rows of the
grid before the call, in their order and with their contents. -/
theorem clearLines_compacts (g : Grid) :
    ∃ g', clearLines g = some (g', ((toRows g).filter isFullRow).length)
      ∧ toRows g' = List.replicate ((toRows g).filter isFullRow).length
            (List.replicate 20 0)
          ++ (toRows g).filter (fun r => !isFullRow r) :=
  clearLines_rows g

/-- C2. On a grid in which every row has a zero cell, `clearLines` returns 0
and the grid after the call is the grid before it. -/
theorem clearLines_no_full_row (g : Grid)
    (h : ∀ y, y < 10 → ∃ x, x < 20 ∧ g.cell y x = 0) :
    clearLines g = some (g, 0) := by
  have := clearLinesLoop_no_full (2 * BOARD_HEIGHT) g BOARD_HEIGHT 0
    (by simp [BOARD_HEIGHT])
    (fun y hy => by
      obtain ⟨x, hx, h0⟩ := h y hy
      exact fullLine_false_of_zero g y x hx h0)
  simpa [clearLines] using this

theorem clearLines_no_full_row_witness :
    (∀ y, y < 10 → ∃ x, x < 20 ∧ firstColumnEmpty.cell y x = 0)
      ∧ clearLines firstColumnEmpty = some (firstColumnEmpty, 0) :=
  ⟨fun _ _ => ⟨0, by decide, rfl⟩,
   clearLines_no_full_row firstColumnEmpty (fun _ _ => ⟨0, by decide, rfl⟩)⟩

end Tetris

namespace Tetris

/-- The loops of `checkCollision` as a statement about the cells of the 4x4
frame. -/
theorem checkCollision_spec (s : TetrisState) (x y : Int) (rotation : Nat) :
    checkCollision s x y rotation = true ↔
      ∃ px py : Nat, px < 4 ∧ py < 4 ∧ pieceCell s.currentPiece rotation py px ≠ 0 ∧
        (x + px < 0 ∨ x + px ≥ 20 ∨ y + py < 0 ∨ y + py ≥ 10 ∨
          s.grid.cell (y + py).toNat (x + px).toNat ≠ 0) := by
  unfold checkCollision
  simp only [List.any_eq_true, List.mem_range]
  constructor
  · rintro ⟨py, hpy, px, hpx, h⟩
    refine ⟨px, py, hpx, hpy, ?_⟩
    by_cases hm : pieceCell s.currentPiece rotation py px ≠ 0
    · refine ⟨hm, ?_⟩
      rw [if_pos hm] at h
      simp only [BOARD_WIDTH, BOARD_HEIGHT, Nat.cast_ofNat] at h
      by_contra hcon
      push_neg at hcon
      obtain ⟨h1, h2, h3, h4, h5⟩ := hcon
      have hb : ¬ (x + px < 0 ∨ x + px ≥ 20 ∨ y + py < 0 ∨ y + py ≥ 10) := by omega
      rw [if_neg hb] at h
      simp [h5] at h
    · rw [if_neg hm] at h
      exact absurd h (by simp)
  · rintro ⟨px, py, hpx, hpy, hm, h⟩
    refine ⟨py, hpy, px, hpx, ?_⟩
    rw [if_pos hm]
    simp only [BOARD_WIDTH, BOARD_HEIGHT, Nat.cast_ofNat]
    by_cases hb : x + px < 0 ∨ x + px ≥ 20 ∨ y + py < 0 ∨ y + py ≥ 10
    · rw [if_pos hb]
    · rw [if_neg hb]
      have h5 : s.grid.cell (y + py).toNat (x + px).toNat ≠ 0 := by
        rcases h with h | h | h | h | h
        · exact absurd (Or.inl h) hb
        · exact absurd (Or.inr (Or.inl h)) hb
        · exact absurd (Or.inr (Or.inr (Or.inl h))) hb
        · exact absurd (Or.inr (Or.inr (Or.inr h))) hb
        · exact h
      have hin : x + px ≥ 0 ∧ x + px < 20 ∧ y + py ≥ 0 ∧ y + py < 10 := by omega
      simp [hin, h5]

/-- C8. `checkCollision` is true exactly when some cell `(px, py)` of the 4x4
frame is occupied in the mask of the current piece at the given rotation and
its board position `(x + px, y + py)` is outside the board or on a non-zero
grid cell.  The function only reads the state: its result is a `Bool`. -/
theorem checkCollision_iff (s : TetrisState) (x y : Int) (rotation : Nat) :
    checkCollision s x y rotation = true ↔
      ∃ px py : Nat, px < 4 ∧ py < 4 ∧ pieceCell s.currentPiece rotation py px ≠ 0 ∧
        (x + px < 0 ∨ x + px ≥ 20 ∨ y + py < 0 ∨ y + py ≥ 10 ∨
          s.grid.cell (y + py).toNat (x + px).toNat ≠ 0) :=
  checkCollision_spec s x y rotation

end Tetris

namespace Tetris

/-- Up to level 21 the level update of `render` yields
`max(100, 1000 - (level - 1) * 50)`. -/
theorem levelDropSpeed_le_21 (level : Int) (h1 : 1 ≤ level) (h2 : level ≤ 21) :
    (levelDropSpeed level : Int) = max 100 (1000 - (level - 1) * 50) := by
  have hnn : 0 ≤ 1000 - (level - 1) * 50 := by omega
  have hlt : 1000 - (level - 1) * 50 < 4294967296 := by omega
  have hmod : (1000 - (level - 1) * 50) % 4294967296 = 1000 - (level - 1) * 50 :=
    Int.emod_eq_of_lt hnn hlt
  unfold levelDropSpeed
  simp only [hmod]
  split_ifs with h <;> omega

/-- From level 22 on the value assigned to `dropSpeed` has wrapped around and
the floor of 100 is not applied. -/
theorem levelDropSpeed_ge_22 (level : Int) (h1 : 22 ≤ level) (h2 : level ≤ 1000) :
    (levelDropSpeed level : Int) = 4294967296 + (1000 - (level - 1) * 50) := by
  have hmod : (1000 - (level - 1) * 50) % 4294967296
      = 4294967296 + (1000 - (level - 1) * 50) := by
    omega
  unfold levelDropSpeed
  simp only [hmod]
  split_ifs with h <;> omega

set_option maxRecDepth 100000 in
/-- C3 (failing input). At level 21 with 209 lines, the render tick on which
the I piece lands and completes a row raises the level to 22 and leaves
`dropSpeed = 4294967246`, not `max(100, 1000 - 21 * 50) = 100`. -/
theorem render_level22_dropSpeed :
    (render beforeLevel22 2000 0).map
        (fun r => (r.1.lines, r.1.level, r.1.dropSpeed, r.2))
      = some (210, 22, 4294967246, false)
    ∧ levelDropSpeed 22 = 4294967246
    ∧ max (100 : Int) (1000 - (22 - 1) * 50) = 100 := by
  refine ⟨by decide, by decide, by decide⟩

end Tetris

namespace Tetris

theorem checkCollision_congr (s t : TetrisState) (hg : t.grid = s.grid)
    (hp : t.currentPiece = s.currentPiece) (x y : Int) (rotation : Nat) :
    checkCollision t x y rotation = checkCollision s x y rotation := by
  simp only [checkCollision, hg, hp]

theorem pieceFree_congr (s t : TetrisState) (hg : t.grid = s.grid)
    (hp : t.currentPiece = s.currentPiece) (hx : t.pieceX = s.pieceX)
    (hy : t.pieceY = s.pieceY) (hr : t.pieceRotation = s.pieceRotation)
    (ho : t.gameOver = s.gameOver) (h : PieceFree s) : PieceFree t := by
  intro hover
  rw [checkCollision_congr s t hg hp, hx, hy, hr]
  exact h (ho ▸ hover)

theorem pieceFree_spawnPiece (r : Nat) (s : TetrisState) : PieceFree (spawnPiece r s) := by
  unfold PieceFree spawnPiece
  dsimp only
  split_ifs with hc
  · intro hover
    exact absurd hover (by decide)
  · intro _
    exact (Bool.not_eq_true _).mp hc

theorem pieceFree_okButton (s : TetrisState) (down : Keys) (now : Nat)
    (h : PieceFree s) : PieceFree (okButton s down now).1 := by
  apply pieceFree_congr s _ _ _ _ _ _ _ h <;>
    (unfold okButton; dsimp only; split_ifs <;> rfl)

theorem pieceFree_rotatePiece (down : Keys) (s : TetrisState) (h : PieceFree s) :
    PieceFree (rotatePiece down s) := by
  unfold rotatePiece
  dsimp only
  split_ifs with hk hc
  · intro _
    show checkCollision { s with pieceRotation := (s.pieceRotation + 1) % 4 }
      s.pieceX s.pieceY ((s.pieceRotation + 1) % 4) = false
    refine Eq.trans (checkCollision_congr s _ ?_ ?_ _ _ _) (by simpa using hc) <;> rfl
  · exact h
  · exact h

theorem pieceFree_moveUp (down : Keys) (s : TetrisState) (h : PieceFree s) :
    PieceFree (moveUp down s) := by
  unfold moveUp
  split_ifs with hk hc
  · intro _
    show checkCollision { s with pieceY := s.pieceY - 1 }
      s.pieceX (s.pieceY - 1) s.pieceRotation = false
    refine Eq.trans (checkCollision_congr s _ ?_ ?_ _ _ _) (by simpa using hc) <;> rfl
  · exact h
  · exact h

theorem pieceFree_moveDownKey (down : Keys) (s : TetrisState) (h : PieceFree s) :
    PieceFree (moveDownKey down s) := by
  unfold moveDownKey
  split_ifs with hk hc
  · intro _
    show checkCollision { s with pieceY := s.pieceY + 1 }
      s.pieceX (s.pieceY + 1) s.pieceRotation = false
    refine Eq.trans (checkCollision_congr s _ ?_ ?_ _ _ _) (by simpa using hc) <;> rfl
  · exact h
  · exact h

theorem pieceFree_gameKeys (down : Keys) (r : Nat) (s : TetrisState) (h : PieceFree s) :
    PieceFree (gameKeys down r s) := by
  unfold gameKeys
  split_ifs
  · exact pieceFree_spawnPiece _ _
  · exact h
  · exact h
  · exact pieceFree_moveDownKey _ _ (pieceFree_moveUp _ _ (pieceFree_rotatePiece _ _ h))

theorem pieceFree_keyChanged (s : TetrisState) (down : Keys) (now r : Nat)
    (h : PieceFree s) : PieceFree (keyChanged s down now r).1 := by
  have h0 : PieceFree { s with currentKeys := down } :=
    pieceFree_congr s _ rfl rfl rfl rfl rfl rfl h
  unfold keyChanged
  dsimp only
  split_ifs
  · exact pieceFree_congr _ _ rfl rfl rfl rfl rfl rfl h0
  · exact h0
  · exact pieceFree_okButton _ _ _ h0
  · exact pieceFree_gameKeys _ _ _ (pieceFree_okButton _ _ _ h0)

theorem pieceFree_render (s s' : TetrisState) (now r : Nat) (popped : Bool)
    (h : PieceFree s) (hr : render s now r = some (s', popped)) : PieceFree s' := by
  unfold render at hr
  split_ifs at hr with h1 h2 h3 h4
  · simp only [Option.some.injEq, Prod.mk.injEq] at hr
    rw [← hr.1]; exact h
  · simp only [Option.some.injEq, Prod.mk.injEq] at hr
    rw [← hr.1]; exact h
  · simp only [Option.some.injEq, Prod.mk.injEq] at hr
    rw [← hr.1]
    intro _
    show checkCollision { s with pieceX := s.pieceX + 1, lastDrop := now }
      (s.pieceX + 1) s.pieceY s.pieceRotation = false
    refine Eq.trans (checkCollision_congr s _ ?_ ?_ _ _ _) (by simpa using h4) <;> rfl
  · dsimp only at hr
    cases hcl : clearLines (placePiece s).grid with
    | none => rw [hcl] at hr; exact absurd hr (by simp)
    | some res =>
      obtain ⟨g, k⟩ := res
      rw [hcl] at hr
      simp only [Option.some.injEq, Prod.mk.injEq] at hr
      rw [← hr.1]
      exact pieceFree_congr _ _ rfl rfl rfl rfl rfl rfl (pieceFree_spawnPiece r _)
  · simp only [Option.some.injEq, Prod.mk.injEq] at hr
    rw [← hr.1]; exact h

theorem pieceFree_of_reachable (s : TetrisState) (hs : Reachable s) : PieceFree s := by
  induction hs with
  | init now r hold => exact pieceFree_spawnPiece _ _
  | key s s' down now r _ hk ih =>
    have := pieceFree_keyChanged s down now r ih
    rw [hk] at this
    exact this
  | tick s s' now r _ hr ih => exact pieceFree_render s s' now r false ih hr

/-- C7. In every state that `init`, key events and render ticks can reach, if
the game is not over then `checkCollision` at the current pose is false:
every occupied cell of the active piece is inside the board and on an empty
grid cell. -/
theorem reachable_piece_free (s : TetrisState) (hs : Reachable s)
    (hover : s.gameOver = false) :
    checkCollision s s.pieceX s.pieceY s.pieceRotation = false
    ∧ ∀ px py : Nat, px < 4 → py < 4 →
        pieceCell s.currentPiece s.pieceRotation py px ≠ 0 →
        0 ≤ s.pieceX + px ∧ s.pieceX + px < 20 ∧ 0 ≤ s.pieceY + py ∧ s.pieceY + py < 10
          ∧ s.grid.cell (s.pieceY + py).toNat (s.pieceX + px).toNat = 0 := by
  have hinv : PieceFree s := pieceFree_of_reachable s hs
  have hfree := hinv hover
  refine ⟨hfree, ?_⟩
  intro px py hpx hpy hm
  have hno := (checkCollision_spec s s.pieceX s.pieceY s.pieceRotation).not.mp
    (by rw [hfree]; decide)
  by_contra hcon
  apply hno
  refine ⟨px, py, hpx, hpy, hm, ?_⟩
  by_contra hall
  push_neg at hall
  apply hcon
  omega

theorem reachable_piece_free_witness :
    startWithT.gameOver = false
    ∧ checkCollision startWithT startWithT.pieceX startWithT.pieceY
        startWithT.pieceRotation = false :=
  ⟨by decide,
   (reachable_piece_free startWithT (Reachable.init 1000 2 0) (by decide)).1⟩

end Tetris

namespace Snake

open Direction

theorem readSlot_nil (j : Nat) : readSlot [] j = ⟨0, 0⟩ := by
  simp [readSlot]

theorem readSlot_cons_zero (h : Point) (t : Body) : readSlot (h :: t) 0 = h := by
  simp [readSlot]

theorem readSlot_cons_succ (h : Point) (t : Body) (j : Nat) :
    readSlot (h :: t) (j + 1) = readSlot t j := by
  simp [readSlot]

/-- Reading a slot after a write: the written slot holds the new value, the
others keep theirs. -/
theorem readSlot_writeSlot (m : Body) (i : Nat) (p : Point) (j : Nat) :
    readSlot (writeSlot m i p) j = if j = i then p else readSlot m j := by
  induction m generalizing i j with
  | nil =>
    induction i generalizing j with
    | zero =>
      cases j with
      | zero => simp [writeSlot, readSlot]
      | succ j => simp [writeSlot, readSlot]
    | succ i ih =>
      cases j with
      | zero => simp [writeSlot, readSlot]
      | succ j =>
        rw [writeSlot, readSlot_cons_succ, ih, readSlot_nil, readSlot_nil]
        simp
  | cons h t ih =>
    cases i with
    | zero =>
      cases j with
      | zero => simp [writeSlot, readSlot]
      | succ j => simp [writeSlot, readSlot]
    | succ i =>
      cases j with
      | zero => simp [writeSlot, readSlot]
      | succ j =>
        rw [writeSlot, readSlot_cons_succ, ih, readSlot_cons_succ]
        simp

theorem readSlot_shiftBody (n : Nat) : ∀ (m : Body) (j : Nat),
    readSlot (shiftBody n m) j
      = if 1 ≤ j ∧ j ≤ n then readSlot m (j - 1) else readSlot m j := by
  induction n with
  | zero =>
    intro m j
    simp only [shiftBody]
    split_ifs <;> first | rfl | (exfalso; omega)
  | succ n ih =>
    intro m j
    rw [shiftBody, ih, readSlot_writeSlot, readSlot_writeSlot]
    split_ifs <;> first | rfl | (exfalso; omega) | (congr 1; omega)

theorem readSlot_moveHead (d : Direction) (m : Body) (j : Nat) :
    readSlot (moveHead d m) j
      = if j = 0 then stepPoint d (readSlot m 0) else readSlot m j := by
  cases d <;> simp only [moveHead, readSlot_writeSlot, stepPoint]

theorem readSlot_movedBody (s : SnakeState) (j : Nat) :
    readSlot (movedBody s) j
      = if j = 0 then stepPoint s.nextDirection (readSlot s.snake 0)
        else if j < s.snakeLength then readSlot s.snake (j - 1)
        else readSlot s.snake j := by
  unfold movedBody
  rw [readSlot_moveHead, readSlot_shiftBody, readSlot_shiftBody]
  split_ifs <;> first | rfl | (exfalso; omega)

theorem point_ne_iff (p q : Point) : p ≠ q ↔ ¬ (p.x = q.x ∧ p.y = q.y) := by
  cases p; cases q; simp

theorem onSnake_false_iff (s : SnakeState) :
    onSnake s = false ↔ ∀ i, i < s.snakeLength → readSlot s.snake i ≠ s.foodPos := by
  unfold onSnake
  rw [Bool.eq_false_iff]
  simp only [ne_eq, List.any_eq_true, List.mem_range, decide_eq_true_eq, not_exists, not_and]
  constructor
  · intro h i hi
    rw [← ne_eq, point_ne_iff]
    intro hxy
    exact h i hi hxy.1 hxy.2
  · intro h i hi hx hy
    exact (point_ne_iff _ _).mp (h i hi) ⟨hx, hy⟩

theorem inGrid_cellOf (c : Nat × Nat) : inGrid (cellOf c) := by
  have h1 : c.1 % 20 < 20 := Nat.mod_lt _ (by decide)
  have h2 : c.2 % 16 < 16 := Nat.mod_lt _ (by decide)
  simp only [inGrid, cellOf, GRID_WIDTH, GRID_HEIGHT]
  omega

/-- What `spawnFood` leaves when it returns: only the food position has
changed, it is the cell of one of the random draws, and it lies on no body
segment. -/
theorem spawnFood_some (rands : List (Nat × Nat)) : ∀ (s s' : SnakeState),
    spawnFood s rands = some s' →
    (∃ c, c ∈ rands ∧ s' = { s with foodPos := cellOf c }) ∧ onSnake s' = false := by
  induction rands with
  | nil => intro s s' h; simp [spawnFood] at h
  | cons c rest ih =>
    intro s s' h
    obtain ⟨rx, ry⟩ := c
    simp only [spawnFood] at h
    split_ifs at h with hon
    · obtain ⟨⟨c, hc, hs⟩, hoff⟩ := ih _ _ h
      exact ⟨⟨c, List.mem_cons_of_mem _ hc, by rw [hs]⟩, hoff⟩
    · simp only [Option.some.injEq] at h
      subst h
      exact ⟨⟨(rx, ry), List.mem_cons_self _ _, rfl⟩, by simpa using hon⟩

/-- `spawnFood` returns as soon as one of the random draws is a cell that no
body segment occupies. -/
theorem spawnFood_returns (rands : List (Nat × Nat)) : ∀ (s : SnakeState),
    (∃ c, c ∈ rands ∧ ∀ i, i < s.snakeLength → readSlot s.snake i ≠ cellOf c) →
    ∃ s', spawnFood s rands = some s' := by
  induction rands with
  | nil => intro s h; obtain ⟨c, hc, _⟩ := h; simp at hc
  | cons c rest ih =>
    intro s h
    obtain ⟨rx, ry⟩ := c
    simp only [spawnFood]
    split_ifs with hon
    · apply ih
      obtain ⟨c, hc, hfree⟩ := h
      rcases List.mem_cons.mp hc with rfl | hc'
      · exfalso
        have : onSnake { s with foodPos := cellOf (rx, ry) } = false :=
          (onSnake_false_iff _).mpr hfree
        have hon' : onSnake { s with foodPos := cellOf (rx, ry) } = true := hon
        rw [this] at hon'
        exact absurd hon' (by decide)
      · exact ⟨c, hc', hfree⟩
    · exact ⟨_, rfl⟩

theorem foodFree_spawnFood (rands : List (Nat × Nat)) (s s' : SnakeState)
    (h : spawnFood s rands = some s') : FoodFree s' := by
  obtain ⟨⟨c, _, hs⟩, hoff⟩ := spawnFood_some rands s s' h
  refine ⟨?_, (onSnake_false_iff s').mp hoff⟩
  rw [hs]
  exact inGrid_cellOf c

end Snake

namespace Snake

open Direction

/-- `checkCollision` is true exactly when the head is outside the grid or
some other body segment is at the same position as the head. -/
theorem snake_checkCollision_iff (s : SnakeState) :
    checkCollision s = true ↔
      ¬ inGrid (readSlot s.snake 0)
        ∨ ∃ i, 1 ≤ i ∧ i < s.snakeLength ∧ readSlot s.snake i = readSlot s.snake 0 := by
  unfold checkCollision
  simp only [GRID_WIDTH, GRID_HEIGHT, Nat.cast_ofNat, inGrid]
  split_ifs with hout
  · simp only [true_iff]
    left
    omega
  · simp only [List.any_eq_true, List.mem_range'_1, decide_eq_true_eq]
    constructor
    · rintro ⟨i, ⟨h1, h2⟩, hx, hy⟩
      right
      refine ⟨i, h1, by omega, ?_⟩
      cases hi : readSlot s.snake i
      cases h0 : readSlot s.snake 0
      rw [hi, h0] at hx hy
      simp only at hx hy
      rw [hx, hy]
    · rintro (h | ⟨i, h1, h2, heq⟩)
      · exfalso; apply h; omega
      · exact ⟨i, ⟨h1, by omega⟩, by rw [heq], by rw [heq]⟩

/-- The state after the direction commit, the body shift and the head move
of `moveSnake`. -/
theorem moveSnake_active (s : SnakeState) (rands : List (Nat × Nat))
    (hg : s.gameOver = false) (hp : s.paused = false) :
    moveSnake s rands =
      if checkCollision { s with direction := s.nextDirection, snake := movedBody s } then
        some { s with direction := s.nextDirection, snake := movedBody s, gameOver := true }
      else if readSlot (movedBody s) 0 = s.foodPos then
        spawnFood { s with direction := s.nextDirection, snake := movedBody s,
                           score := s.score + 10, snakeLength := s.snakeLength + 1 } rands
      else some { s with direction := s.nextDirection, snake := movedBody s } := by
  have hcond : ¬ (s.gameOver = true ∨ s.paused = true) := by simp [hg, hp]
  unfold moveSnake
  rw [if_neg hcond]
  dsimp only
  have hiff : ((readSlot (moveHead s.nextDirection (shiftBody (s.snakeLength - 1) s.snake)) 0).x
        = s.foodPos.x ∧
      (readSlot (moveHead s.nextDirection (shiftBody (s.snakeLength - 1) s.snake)) 0).y
        = s.foodPos.y) ↔ readSlot (movedBody s) 0 = s.foodPos := by
    unfold movedBody
    constructor
    · intro h
      by_contra hne
      exact (point_ne_iff _ _).mp hne h
    · intro h; rw [h]; exact ⟨rfl, rfl⟩
  by_cases hc : checkCollision { s with direction := s.nextDirection, snake := movedBody s } = true
  · have hc' := hc
    unfold movedBody at hc'
    rw [if_pos hc, if_pos hc']
    rfl
  · have hc' := hc
    unfold movedBody at hc'
    rw [if_neg hc, if_neg hc']
    by_cases hf : readSlot (movedBody s) 0 = s.foodPos
    · rw [if_pos hf, if_pos (hiff.mpr hf)]
      rfl
    · rw [if_neg hf, if_neg (fun h => hf (hiff.mp h))]
      rfl

end Snake

namespace Snake

open Direction

theorem foodFree_congr (s t : SnakeState) (hm : t.snake = s.snake)
    (hn : t.snakeLength = s.snakeLength) (hf : t.foodPos = s.foodPos)
    (h : FoodFree s) : FoodFree t := by
  unfold FoodFree at h ⊢
  rw [hm, hn, hf]
  exact h

/-- After the shift and the head move, the segments behind the head are at
positions that the body held before. -/
theorem movedBody_tail_ne_food (s : SnakeState) (h : FoodFree s) (i : Nat)
    (h1 : 1 ≤ i) (hi : i < s.snakeLength) : readSlot (movedBody s) i ≠ s.foodPos := by
  rw [readSlot_movedBody, if_neg (by omega), if_pos hi]
  exact h.2 (i - 1) (by omega)

theorem foodFree_moveSnake (s s' : SnakeState) (rands : List (Nat × Nat))
    (h : FoodFree s) (hm : moveSnake s rands = some s') : FoodFree s' := by
  by_cases hg : s.gameOver = false
  swap
  · have : moveSnake s rands = some s := by
      unfold moveSnake
      rw [if_pos (Or.inl (by simpa using hg))]
    rw [this] at hm
    simp only [Option.some.injEq] at hm
    rw [← hm]; exact h
  by_cases hp : s.paused = false
  swap
  · have : moveSnake s rands = some s := by
      unfold moveSnake
      rw [if_pos (Or.inr (by simpa using hp))]
    rw [this] at hm
    simp only [Option.some.injEq] at hm
    rw [← hm]; exact h
  rw [moveSnake_active s rands hg hp] at hm
  split_ifs at hm with hc hf
  · simp only [Option.some.injEq] at hm
    rw [← hm]
    refine ⟨h.1, ?_⟩
    intro i hi
    show readSlot (movedBody s) i ≠ s.foodPos
    rcases Nat.eq_zero_or_pos i with h0 | hpos
    · subst h0
      rcases (snake_checkCollision_iff _).mp hc with hout | ⟨j, hj1, hj2, hjeq⟩
      · intro heq
        apply hout
        show inGrid (readSlot (movedBody s) 0)
        rw [heq]
        exact h.1
      · have hjeq' : readSlot (movedBody s) j = readSlot (movedBody s) 0 := hjeq
        rw [← hjeq']
        exact movedBody_tail_ne_food s h j hj1 hj2
    · exact movedBody_tail_ne_food s h i hpos hi
  · exact foodFree_spawnFood rands _ _ hm
  · simp only [Option.some.injEq] at hm
    rw [← hm]
    refine ⟨h.1, ?_⟩
    intro i hi
    show readSlot (movedBody s) i ≠ s.foodPos
    rcases Nat.eq_zero_or_pos i with h0 | hpos
    · subst h0; exact hf
    · exact movedBody_tail_ne_food s h i hpos hi

theorem foodFree_okButton (s : SnakeState) (down : Keys) (now : Nat)
    (h : FoodFree s) : FoodFree (okButton s down now).1 := by
  apply foodFree_congr s _ _ _ _ h <;>
    (unfold okButton; dsimp only; split_ifs <;> rfl)

theorem foodFree_turnNorth (down : Keys) (s : SnakeState) (h : FoodFree s) :
    FoodFree (turnNorth down s) := by
  apply foodFree_congr s _ _ _ _ h <;>
    (unfold turnNorth; split_ifs <;> first | rfl | (cases s.direction <;> rfl))

theorem foodFree_turnSouth (down : Keys) (s : SnakeState) (h : FoodFree s) :
    FoodFree (turnSouth down s) := by
  apply foodFree_congr s _ _ _ _ h <;>
    (unfold turnSouth; split_ifs <;> first | rfl | (cases s.direction <;> rfl))

theorem foodFree_turnCancel (down : Keys) (s : SnakeState) (h : FoodFree s) :
    FoodFree (turnCancel down s) := by
  apply foodFree_congr s _ _ _ _ h <;>
    (unfold turnCancel; split_ifs <;> first | rfl | (cases s.direction <;> simp))

theorem foodFree_gameKeys (down : Keys) (rands : List (Nat × Nat)) (s s' : SnakeState)
    (h : FoodFree s) (hk : gameKeys down rands s = some s') : FoodFree s' := by
  unfold gameKeys at hk
  split_ifs at hk
  · exact foodFree_spawnFood rands _ _ hk
  · simp only [Option.some.injEq] at hk; rw [← hk]; exact h
  · simp only [Option.some.injEq] at hk; rw [← hk]; exact h
  · simp only [Option.some.injEq] at hk
    rw [← hk]
    exact foodFree_turnCancel _ _ (foodFree_turnSouth _ _ (foodFree_turnNorth _ _ h))

theorem foodFree_keyChanged (s s' : SnakeState) (down : Keys) (now : Nat)
    (rands : List (Nat × Nat)) (popped : Bool) (h : FoodFree s)
    (hk : keyChanged s down now rands = some (s', popped)) : FoodFree s' := by
  have h0 : FoodFree { s with currentKeys := down } := foodFree_congr s _ rfl rfl rfl h
  unfold keyChanged at hk
  dsimp only at hk
  split_ifs at hk
  · simp only [Option.some.injEq, Prod.mk.injEq] at hk
    rw [← hk.1]; exact foodFree_congr _ _ rfl rfl rfl h0
  · simp only [Option.some.injEq, Prod.mk.injEq] at hk
    rw [← hk.1]; exact h0
  · simp only [Option.some.injEq, Prod.mk.injEq] at hk
    rw [← hk.1]; exact foodFree_okButton _ _ _ h0
  · rw [Option.map_eq_some'] at hk
    obtain ⟨t, ht, heq⟩ := hk
    simp only [Prod.mk.injEq] at heq
    rw [← heq.1]
    exact foodFree_gameKeys down rands _ t (foodFree_okButton _ _ _ h0) ht

theorem foodFree_render (s s' : SnakeState) (now : Nat) (rands : List (Nat × Nat))
    (popped : Bool) (h : FoodFree s) (hr : render s now rands = some (s', popped)) :
    FoodFree s' := by
  unfold render at hr
  split_ifs at hr
  · simp only [Option.some.injEq, Prod.mk.injEq] at hr
    rw [← hr.1]; exact h
  · rw [Option.map_eq_some'] at hr
    obtain ⟨t, ht, heq⟩ := hr
    simp only [Prod.mk.injEq] at heq
    rw [← heq.1]
    exact foodFree_congr t _ rfl rfl rfl (foodFree_moveSnake s t rands h ht)
  · simp only [Option.some.injEq, Prod.mk.injEq] at hr
    rw [← hr.1]; exact h

theorem foodFree_of_reachable (s : SnakeState) (hs : Reachable s) : FoodFree s := by
  induction hs with
  | init now rands hold s h => exact foodFree_spawnFood rands _ _ h
  | step s s' e _ he ih =>
    cases e with
    | key down now rands => exact foodFree_keyChanged s s' down now rands false ih he
    | tick now rands => exact foodFree_render s s' now rands false ih he

end Snake

namespace Snake

open Direction

theorem reachable_run (es : List Event) : ∀ (s s' : SnakeState),
    Reachable s → run s es = some s' → Reachable s' := by
  induction es with
  | nil =>
    intro s s' hs h
    simp only [run, Option.some.injEq] at h
    rw [← h]; exact hs
  | cons e es ih =>
    intro s s' hs h
    rw [run] at h
    cases hstep : step s e with
    | none => rw [hstep] at h; exact absurd h (by simp)
    | some r =>
      obtain ⟨t, popped⟩ := r
      rw [hstep] at h
      cases popped with
      | true => exact absurd h (by simp)
      | false => exact ih t s' (Reachable.step s t e hs hstep) h

theorem reachable_runInit (now : Nat) (rands : List (Nat × Nat)) (es : List Event)
    (s : SnakeState) (h : runInit now rands es = some s) : Reachable s := by
  unfold runInit at h
  cases hi : init now rands 0 with
  | none => rw [hi] at h; exact absurd h (by simp)
  | some s0 =>
    rw [hi] at h
    exact reachable_run es s0 s (Reachable.init now rands 0 s0 hi) h

theorem init_snakeStart : init 1000 [(5, 5)] 0 = some snakeStart := by
  decide

/-- A run within the capacity of the body array is a run. -/
theorem reachable_of_within (s : SnakeState) (hs : ReachableWithin s) : Reachable s := by
  induction hs with
  | init now rands hold s h => exact Reachable.init now rands hold s h
  | step s s' e _ he _ ih => exact Reachable.step s s' e ih he

theorem init_snakeLength (now : Nat) (rands : List (Nat × Nat)) (hold : Nat)
    (s : SnakeState) (h : init now rands hold = some s) : s.snakeLength = 3 := by
  unfold init at h
  obtain ⟨⟨c, _, hs⟩, _⟩ := spawnFood_some rands _ s h
  rw [hs]
  rfl

theorem within_snakeLength (s : SnakeState) (hs : ReachableWithin s) :
    s.snakeLength ≤ MAX_SNAKE_LENGTH := by
  induction hs with
  | init now rands hold s h =>
    rw [init_snakeLength now rands hold s h]
    decide
  | step s s' e _ _ hle _ => exact hle

theorem reachableWithin_runWithin (es : List Event) : ∀ (s s' : SnakeState),
    ReachableWithin s → runWithin s es = some s' → ReachableWithin s' := by
  induction es with
  | nil =>
    intro s s' hs h
    simp only [runWithin, Option.some.injEq] at h
    rw [← h]; exact hs
  | cons e es ih =>
    intro s s' hs h
    rw [runWithin] at h
    cases hstep : step s e with
    | none => rw [hstep] at h; exact absurd h (by simp)
    | some r =>
      obtain ⟨t, popped⟩ := r
      rw [hstep] at h
      cases popped with
      | true => exact absurd h (by simp)
      | false =>
        by_cases hle : t.snakeLength ≤ MAX_SNAKE_LENGTH
        · simp only [if_pos hle] at h
          exact ih t s' (ReachableWithin.step s t e hs hstep hle) h
        · simp only [if_neg hle] at h
          exact absurd h (by simp)

set_option maxRecDepth 1000000 in
theorem longMeal_result :
    (runInit 1000 [(16, 8)] longMeal).map (fun s => (s.gameOver, s.snakeLength))
      = some (false, 51) := by
  decide

set_option maxRecDepth 1000000 in
theorem cornerMeal_result :
    (runInit 1000 [(0, 0)] cornerMeal).map (fun s => (s.gameOver, body s))
      = some (false, [⟨0, 0⟩, ⟨0, 1⟩, ⟨0, 2⟩, ⟨0, 0⟩]) := by
  decide

/-- C4 (failing input). The game `longMeal`, in which the snake eats on each
of 48 ticks, ends in a reachable state that is not over and has
`snakeLength = 51`, above `MAX_SNAKE_LENGTH = 50`: the growth step of
`moveSnake` has no test against the capacity. -/
theorem snake_length_exceeds_capacity :
    ∃ s, runInit 1000 [(16, 8)] longMeal = some s ∧ Reachable s
      ∧ s.gameOver = false ∧ s.snakeLength = 51 ∧ MAX_SNAKE_LENGTH < s.snakeLength := by
  have h := longMeal_result
  cases hr : runInit 1000 [(16, 8)] longMeal with
  | none => rw [hr] at h; exact absurd h (by simp)
  | some s =>
    rw [hr] at h
    simp only [Option.map_some', Option.some.injEq, Prod.mk.injEq] at h
    exact ⟨s, rfl, reachable_runInit _ _ _ s hr, h.1, h.2, by rw [h.2]; decide⟩

/-- C5 (failing input). The game `cornerMeal`, in which the head reaches the
food at `(0, 0)`, ends in a reachable state that is not over and whose body
is `[(0,0), (0,1), (0,2), (0,0)]`: the head and the new last segment are at
the same position. -/
theorem snake_body_not_distinct :
    ∃ s, runInit 1000 [(0, 0)] cornerMeal = some s ∧ Reachable s
      ∧ s.gameOver = false ∧ body s = [⟨0, 0⟩, ⟨0, 1⟩, ⟨0, 2⟩, ⟨0, 0⟩]
      ∧ ¬ (body s).Nodup := by
  have h := cornerMeal_result
  cases hr : runInit 1000 [(0, 0)] cornerMeal with
  | none => rw [hr] at h; exact absurd h (by simp)
  | some s =>
    rw [hr] at h
    simp only [Option.map_some', Option.some.injEq, Prod.mk.injEq] at h
    exact ⟨s, rfl, reachable_runInit _ _ _ s hr, h.1, h.2, by rw [h.2]; decide⟩

/-- C6. In every reachable state the food is on no body position
`snake[0 .. snakeLength-1]`; and `spawnFood`, whenever it returns, has
changed only the food position, to a cell inside the grid that no body
segment occupies; it returns as soon as `rand()` yields such a cell. -/
theorem food_never_on_body :
    (∀ s, Reachable s → ∀ i, i < s.snakeLength → readSlot s.snake i ≠ s.foodPos)
    ∧ (∀ s rands s', spawnFood s rands = some s' →
        s' = { s with foodPos := s'.foodPos }
        ∧ 0 ≤ s'.foodPos.x ∧ s'.foodPos.x < 20 ∧ 0 ≤ s'.foodPos.y ∧ s'.foodPos.y < 16
        ∧ ∀ i, i < s'.snakeLength → readSlot s'.snake i ≠ s'.foodPos)
    ∧ (∀ s rands,
        (∃ c, c ∈ rands ∧ ∀ i, i < s.snakeLength → readSlot s.snake i ≠ cellOf c) →
        ∃ s', spawnFood s rands = some s') := by
  refine ⟨fun s hs => (foodFree_of_reachable s hs).2, ?_, fun s rands => spawnFood_returns rands s⟩
  intro s rands s' h
  have hf := foodFree_spawnFood rands s s' h
  obtain ⟨⟨c, _, hs⟩, _⟩ := spawnFood_some rands s s' h
  refine ⟨?_, hf.1.1, hf.1.2.1, hf.1.2.2.1, hf.1.2.2.2, hf.2⟩
  rw [hs]

theorem food_never_on_body_witness :
    Reachable snakeStart ∧ readSlot snakeStart.snake 0 ≠ snakeStart.foodPos :=
  ⟨Reachable.init 1000 [(5, 5)] 0 snakeStart init_snakeStart,
   food_never_on_body.1 snakeStart
     (Reachable.init 1000 [(5, 5)] 0 snakeStart init_snakeStart) 0 (by decide)⟩

end Snake

namespace Snake

open Direction

theorem moveSnake_gameOver (s : SnakeState) (rands : List (Nat × Nat))
    (h : s.gameOver = true) : moveSnake s rands = some s := by
  unfold moveSnake
  rw [if_pos (Or.inl h)]

/-- What one advance of an active state does to the direction and to the
body slots, whenever `moveSnake` returns. -/
theorem moveSnake_body (s s' : SnakeState) (rands : List (Nat × Nat))
    (hg : s.gameOver = false) (hp : s.paused = false)
    (hm : moveSnake s rands = some s') :
    s'.direction = s.nextDirection ∧ s'.snake = movedBody s := by
  rw [moveSnake_active s rands hg hp] at hm
  split_ifs at hm
  · simp only [Option.some.injEq] at hm
    rw [← hm]; exact ⟨rfl, rfl⟩
  · obtain ⟨⟨c, _, hs⟩, _⟩ := spawnFood_some rands _ _ hm
    rw [hs]; exact ⟨rfl, rfl⟩
  · simp only [Option.some.injEq] at hm
    rw [← hm]; exact ⟨rfl, rfl⟩

/-- An advance of an active state returns when the head does not land on the
food, and when it does as soon as `rand()` yields a cell off the body. -/
theorem moveSnake_returns (s : SnakeState) (rands : List (Nat × Nat))
    (hg : s.gameOver = false) (hp : s.paused = false)
    (h : readSlot (movedBody s) 0 ≠ s.foodPos
      ∨ ∃ c, c ∈ rands ∧ ∀ i, i < s.snakeLength + 1 → readSlot (movedBody s) i ≠ cellOf c) :
    ∃ s', moveSnake s rands = some s' := by
  rw [moveSnake_active s rands hg hp]
  split_ifs with hc hf
  · exact ⟨_, rfl⟩
  · rcases h with h | h
    · exact absurd hf h
    · exact spawnFood_returns rands _ h
  · exact ⟨_, rfl⟩

theorem body_eq_three (s : SnakeState) (a b c : Point) (h : body s = [a, b, c]) :
    s.snakeLength = 3 ∧ readSlot s.snake 0 = a ∧ readSlot s.snake 1 = b
      ∧ readSlot s.snake 2 = c := by
  have hlen : s.snakeLength = 3 := by
    have := congrArg List.length h
    simpa [body] using this
  unfold body at h
  rw [hlen] at h
  simp only [List.range_succ, List.range_zero, List.nil_append, List.cons_append,
    List.map_cons, List.map_nil, List.cons.injEq, and_true] at h
  exact ⟨hlen, h.1, h.2.1, h.2.2⟩

/-- C10 (counterexample). In the state that `init` leaves when `rand()` puts
the food at `(16, 8)` the body is `[(17,8), (18,8), (19,8)]`, heading left
with no turn pending; the advance moves the head onto the food, and the body
after it has four segments, `[(16,8), (17,8), (18,8), (0,0)]`, not the three
segments `[(16,8), (17,8), (18,8)]`. -/
theorem advance_example_with_food_ahead :
    init 1000 [(16, 8)] 0 = some snakeBeforeFood
    ∧ snakeBeforeFood.gameOver = false ∧ snakeBeforeFood.paused = false
    ∧ body snakeBeforeFood = [⟨17, 8⟩, ⟨18, 8⟩, ⟨19, 8⟩]
    ∧ snakeBeforeFood.direction = DIR_LEFT ∧ snakeBeforeFood.nextDirection = DIR_LEFT
    ∧ (moveSnake snakeBeforeFood [(5, 5)]).map body
        = some [⟨16, 8⟩, ⟨17, 8⟩, ⟨18, 8⟩, ⟨0, 0⟩]
    ∧ (moveSnake snakeBeforeFood [(5, 5)]).map body
        ≠ some [⟨16, 8⟩, ⟨17, 8⟩, ⟨18, 8⟩] := by
  refine ⟨by decide, by decide, by decide, by decide, by decide, by decide, by decide,
    by decide⟩

/-- C10 (amended). One advance of an active state with body length `n <=
MAX_SNAKE_LENGTH`, whenever it returns, has set `direction` to
`nextDirection`, the head to the old head moved one cell in that direction,
and segment `i` to the old segment `i - 1` for `1 <= i < n`; it returns when
the head does not land on the food, and otherwise, with room for one more
segment, as soon as `rand()` yields a cell off the body.  From the body
`[(17,8), (18,8), (19,8)]` heading left with no turn pending and the food not
at `(16, 8)`, the body after the advance is `[(16,8), (17,8), (18,8)]`. -/
theorem advance_step :
    (∀ s rands s', s.snakeLength ≤ MAX_SNAKE_LENGTH →
      s.gameOver = false → s.paused = false → moveSnake s rands = some s' →
      s'.direction = s.nextDirection
      ∧ readSlot s'.snake 0 = stepPoint s.nextDirection (readSlot s.snake 0)
      ∧ ∀ i, 1 ≤ i → i < s.snakeLength → readSlot s'.snake i = readSlot s.snake (i - 1))
    ∧ (∀ s rands, s.snakeLength ≤ MAX_SNAKE_LENGTH →
      s.gameOver = false → s.paused = false →
      (readSlot (movedBody s) 0 ≠ s.foodPos
        ∨ (s.snakeLength < MAX_SNAKE_LENGTH
          ∧ ∃ c, c ∈ rands
              ∧ ∀ i, i < s.snakeLength + 1 → readSlot (movedBody s) i ≠ cellOf c)) →
      ∃ s', moveSnake s rands = some s')
    ∧ (∀ s rands, s.gameOver = false → s.paused = false →
      body s = [⟨17, 8⟩, ⟨18, 8⟩, ⟨19, 8⟩] → s.direction = DIR_LEFT →
      s.nextDirection = DIR_LEFT → s.foodPos ≠ ⟨16, 8⟩ →
      ∃ s', moveSnake s rands = some s' ∧ s'.direction = DIR_LEFT
        ∧ body s' = [⟨16, 8⟩, ⟨17, 8⟩, ⟨18, 8⟩]) := by
  refine ⟨?_, fun s rands _ hg hp h =>
    moveSnake_returns s rands hg hp (h.imp id (fun h2 => h2.2)), ?_⟩
  · intro s rands s' _ hg hp hm
    obtain ⟨hd, hb⟩ := moveSnake_body s s' rands hg hp hm
    refine ⟨hd, ?_, ?_⟩
    · rw [hb, readSlot_movedBody, if_pos rfl]
    · intro i h1 h2
      rw [hb, readSlot_movedBody, if_neg (by omega), if_pos h2]
  · intro s rands hg hp hbody _ hnext hfood
    obtain ⟨hlen, h0, h1, h2⟩ := body_eq_three s _ _ _ hbody
    have hhead : readSlot (movedBody s) 0 = ⟨16, 8⟩ := by
      rw [readSlot_movedBody, if_pos rfl, hnext, h0]
      rfl
    have hin : inGrid (readSlot (movedBody s) 0) := by
      rw [hhead]; decide
    have hnc : ¬ checkCollision { s with direction := s.nextDirection, snake := movedBody s }
        = true := by
      rw [snake_checkCollision_iff]
      show ¬ (¬ inGrid (readSlot (movedBody s) 0)
        ∨ ∃ i, 1 ≤ i ∧ i < s.snakeLength ∧ readSlot (movedBody s) i = readSlot (movedBody s) 0)
      rintro (h | ⟨i, hi1, hi2, heq⟩)
      · exact h hin
      · rw [hhead, readSlot_movedBody, if_neg (by omega), if_pos hi2] at heq
        have hcase : i = 1 ∨ i = 2 := by omega
        rcases hcase with rfl | rfl
        · rw [h0] at heq; exact absurd heq (by decide)
        · rw [h1] at heq; exact absurd heq (by decide)
    have hnf : ¬ readSlot (movedBody s) 0 = s.foodPos := by
      rw [hhead]; exact fun h => hfood h.symm
    refine ⟨{ s with direction := s.nextDirection, snake := movedBody s }, ?_, ?_, ?_⟩
    · rw [moveSnake_active s rands hg hp, if_neg hnc, if_neg hnf]
    · exact hnext
    · have e1 : readSlot (movedBody s) 1 = ⟨17, 8⟩ := by
        rw [readSlot_movedBody, if_neg (by decide), if_pos (by omega)]
        exact h0
      have e2 : readSlot (movedBody s) 2 = ⟨18, 8⟩ := by
        rw [readSlot_movedBody, if_neg (by decide), if_pos (by omega)]
        exact h1
      show (List.range s.snakeLength).map (readSlot (movedBody s)) = _
      rw [hlen]
      show [readSlot (movedBody s) 0, readSlot (movedBody s) 1, readSlot (movedBody s) 2] = _
      rw [hhead, e1, e2]

theorem advance_step_witness :
    (body snakeStart = [⟨17, 8⟩, ⟨18, 8⟩, ⟨19, 8⟩] ∧ snakeStart.foodPos ≠ ⟨16, 8⟩
      ∧ ∃ s', moveSnake snakeStart [] = some s' ∧ s'.direction = DIR_LEFT
          ∧ body s' = [⟨16, 8⟩, ⟨17, 8⟩, ⟨18, 8⟩])
    ∧ (snakeTurned.snakeLength ≤ MAX_SNAKE_LENGTH ∧ snakeTurned.nextDirection = DIR_UP
      ∧ ∃ s', moveSnake snakeTurned [] = some s' ∧ s'.direction = DIR_UP
          ∧ readSlot s'.snake 0 = ⟨17, 7⟩ ∧ readSlot s'.snake 1 = ⟨17, 8⟩) :=
  ⟨⟨by decide, by decide,
    advance_step.2.2 snakeStart [] (by decide) (by decide) (by decide) (by decide)
      (by decide) (by decide)⟩,
   ⟨by decide, by decide,
    (advance_step.2.1 snakeTurned [] (by decide) (by decide) (by decide)
        (Or.inl (by decide))).elim
      (fun s' hm =>
        ⟨s', hm,
          (advance_step.1 snakeTurned [] s' (by decide) (by decide) (by decide) hm).1.trans
            (by decide),
          (advance_step.1 snakeTurned [] s' (by decide) (by decide) (by decide) hm).2.1.trans
            (by decide),
          ((advance_step.1 snakeTurned [] s' (by decide) (by decide) (by decide) hm).2.2 1
            (by decide) (by decide)).trans (by decide)⟩)⟩⟩

end Snake

namespace Snake

open Direction

/-- One advance either leaves length and score as they are or adds one
segment and ten points. -/
theorem moveSnake_score (s s' : SnakeState) (rands : List (Nat × Nat))
    (hm : moveSnake s rands = some s') :
    (s'.snakeLength = s.snakeLength ∧ s'.score = s.score)
      ∨ (s'.snakeLength = s.snakeLength + 1 ∧ s'.score = s.score + 10) := by
  by_cases hg : s.gameOver = false
  swap
  · rw [moveSnake_gameOver s rands (by simpa using hg)] at hm
    simp only [Option.some.injEq] at hm
    rw [← hm]; exact Or.inl ⟨rfl, rfl⟩
  by_cases hp : s.paused = false
  swap
  · have : moveSnake s rands = some s := by
      unfold moveSnake
      rw [if_pos (Or.inr (by simpa using hp))]
    rw [this] at hm
    simp only [Option.some.injEq] at hm
    rw [← hm]; exact Or.inl ⟨rfl, rfl⟩
  rw [moveSnake_active s rands hg hp] at hm
  split_ifs at hm
  · simp only [Option.some.injEq] at hm
    rw [← hm]; exact Or.inl ⟨rfl, rfl⟩
  · obtain ⟨⟨c, _, hs⟩, _⟩ := spawnFood_some rands _ _ hm
    rw [hs]; exact Or.inr ⟨rfl, rfl⟩
  · simp only [Option.some.injEq] at hm
    rw [← hm]; exact Or.inl ⟨rfl, rfl⟩

theorem scoreTracks_congr (s t : SnakeState) (hn : t.snakeLength = s.snakeLength)
    (hsc : t.score = s.score) (h : ScoreTracksLength s) : ScoreTracksLength t := by
  unfold ScoreTracksLength at h ⊢
  rw [hn, hsc]
  exact h

theorem scoreTracks_spawnFood (rands : List (Nat × Nat)) (t s' : SnakeState)
    (h : spawnFood t rands = some s') (hn : t.snakeLength = 3) (hsc : t.score = 0) :
    ScoreTracksLength s' := by
  obtain ⟨⟨c, _, hs⟩, _⟩ := spawnFood_some rands _ _ h
  rw [hs]
  show 3 ≤ t.snakeLength ∧ t.score = 10 * ((t.snakeLength : Int) - 3)
  rw [hn, hsc]
  exact ⟨le_refl 3, by norm_num⟩

theorem scoreTracks_moveSnake (s s' : SnakeState) (rands : List (Nat × Nat))
    (h : ScoreTracksLength s) (hm : moveSnake s rands = some s') : ScoreTracksLength s' := by
  unfold ScoreTracksLength at h ⊢
  rcases moveSnake_score s s' rands hm with ⟨h1, h2⟩ | ⟨h1, h2⟩
  · rw [h1, h2]; exact h
  · rw [h1, h2]
    refine ⟨by omega, ?_⟩
    have := h.2
    push_cast
    omega

theorem okButton_frame (s : SnakeState) (down : Keys) (now : Nat) :
    (okButton s down now).1.snake = s.snake
    ∧ (okButton s down now).1.snakeLength = s.snakeLength
    ∧ (okButton s down now).1.foodPos = s.foodPos
    ∧ (okButton s down now).1.score = s.score
    ∧ (okButton s down now).1.direction = s.direction
    ∧ (okButton s down now).1.nextDirection = s.nextDirection
    ∧ (okButton s down now).1.gameOver = s.gameOver := by
  unfold okButton
  dsimp only
  split_ifs <;> exact ⟨rfl, rfl, rfl, rfl, rfl, rfl, rfl⟩

theorem turnNorth_frame (down : Keys) (s : SnakeState) :
    (turnNorth down s).snake = s.snake ∧ (turnNorth down s).snakeLength = s.snakeLength
    ∧ (turnNorth down s).foodPos = s.foodPos ∧ (turnNorth down s).score = s.score
    ∧ (turnNorth down s).direction = s.direction ∧ (turnNorth down s).gameOver = s.gameOver
    ∧ (turnNorth down s).paused = s.paused := by
  unfold turnNorth
  split_ifs
  · split <;> exact ⟨rfl, rfl, rfl, rfl, rfl, rfl, rfl⟩
  · exact ⟨rfl, rfl, rfl, rfl, rfl, rfl, rfl⟩

theorem turnSouth_frame (down : Keys) (s : SnakeState) :
    (turnSouth down s).snake = s.snake ∧ (turnSouth down s).snakeLength = s.snakeLength
    ∧ (turnSouth down s).foodPos = s.foodPos ∧ (turnSouth down s).score = s.score
    ∧ (turnSouth down s).direction = s.direction ∧ (turnSouth down s).gameOver = s.gameOver
    ∧ (turnSouth down s).paused = s.paused := by
  unfold turnSouth
  split_ifs
  · split <;> exact ⟨rfl, rfl, rfl, rfl, rfl, rfl, rfl⟩
  · exact ⟨rfl, rfl, rfl, rfl, rfl, rfl, rfl⟩

theorem turnCancel_frame (down : Keys) (s : SnakeState) :
    (turnCancel down s).snake = s.snake ∧ (turnCancel down s).snakeLength = s.snakeLength
    ∧ (turnCancel down s).foodPos = s.foodPos ∧ (turnCancel down s).score = s.score
    ∧ (turnCancel down s).direction = s.direction ∧ (turnCancel down s).gameOver = s.gameOver
    ∧ (turnCancel down s).paused = s.paused := by
  unfold turnCancel
  split_ifs <;>
    first
    | exact ⟨rfl, rfl, rfl, rfl, rfl, rfl, rfl⟩
    | (split <;> exact ⟨rfl, rfl, rfl, rfl, rfl, rfl, rfl⟩)

theorem turns_frame (down : Keys) (s : SnakeState) :
    (turnCancel down (turnSouth down (turnNorth down s))).snake = s.snake
    ∧ (turnCancel down (turnSouth down (turnNorth down s))).snakeLength = s.snakeLength
    ∧ (turnCancel down (turnSouth down (turnNorth down s))).foodPos = s.foodPos
    ∧ (turnCancel down (turnSouth down (turnNorth down s))).score = s.score
    ∧ (turnCancel down (turnSouth down (turnNorth down s))).direction = s.direction
    ∧ (turnCancel down (turnSouth down (turnNorth down s))).gameOver = s.gameOver
    ∧ (turnCancel down (turnSouth down (turnNorth down s))).paused = s.paused := by
  obtain ⟨a1, a2, a3, a4, a5, a6, a7⟩ := turnNorth_frame down s
  obtain ⟨b1, b2, b3, b4, b5, b6, b7⟩ := turnSouth_frame down (turnNorth down s)
  obtain ⟨c1, c2, c3, c4, c5, c6, c7⟩ :=
    turnCancel_frame down (turnSouth down (turnNorth down s))
  exact ⟨c1.trans (b1.trans a1), c2.trans (b2.trans a2), c3.trans (b3.trans a3),
    c4.trans (b4.trans a4), c5.trans (b5.trans a5), c6.trans (b6.trans a6),
    c7.trans (b7.trans a7)⟩

/-- A key event that returns either keeps body, length, food, score,
direction and the game-over flag, or is a reset: the handler was past the
startup window, the game was over, and the state is what `spawnFood` leaves
from the start body. -/
theorem keyChanged_cases (s s' : SnakeState) (down : Keys) (now : Nat)
    (rands : List (Nat × Nat)) (popped : Bool)
    (hk : keyChanged s down now rands = some (s', popped)) :
    (s'.snake = s.snake ∧ s'.snakeLength = s.snakeLength ∧ s'.foodPos = s.foodPos
      ∧ s'.score = s.score ∧ s'.direction = s.direction ∧ s'.gameOver = s.gameOver)
    ∨ (s.gameOver = true ∧ ∃ t, spawnFood (startBody t) rands = some s') := by
  unfold keyChanged at hk
  dsimp only at hk
  split_ifs at hk
  · simp only [Option.some.injEq, Prod.mk.injEq] at hk
    rw [← hk.1]; exact Or.inl ⟨rfl, rfl, rfl, rfl, rfl, rfl⟩
  · simp only [Option.some.injEq, Prod.mk.injEq] at hk
    rw [← hk.1]; exact Or.inl ⟨rfl, rfl, rfl, rfl, rfl, rfl⟩
  · simp only [Option.some.injEq, Prod.mk.injEq] at hk
    rw [← hk.1]
    obtain ⟨a, b, c, d, e, _, g⟩ := okButton_frame { s with currentKeys := down } down now
    exact Or.inl ⟨a, b, c, d, e, g⟩
  · rw [Option.map_eq_some'] at hk
    obtain ⟨t, ht, heq⟩ := hk
    simp only [Prod.mk.injEq] at heq
    rw [← heq.1]
    obtain ⟨a, b, c, d, e, _, g⟩ := okButton_frame { s with currentKeys := down } down now
    unfold gameKeys at ht
    split_ifs at ht with h1 h2 h3
    · right
      exact ⟨by rw [← g]; exact h1, _, ht⟩
    · simp only [Option.some.injEq] at ht
      rw [← ht]; exact Or.inl ⟨a, b, c, d, e, g⟩
    · simp only [Option.some.injEq] at ht
      rw [← ht]; exact Or.inl ⟨a, b, c, d, e, g⟩
    · simp only [Option.some.injEq] at ht
      rw [← ht]
      obtain ⟨a', b', c', d', e', g', _⟩ :=
        turns_frame down (okButton { s with currentKeys := down } down now).1
      exact Or.inl ⟨a'.trans a, b'.trans b, c'.trans c, d'.trans d, e'.trans e, g'.trans g⟩

/-- The score follows the length on every run within the capacity of the
body array: `score = 10 * (snakeLength - 3)` with `snakeLength >= 3`. -/
theorem scoreTracks_of_within (s : SnakeState) (hs : ReachableWithin s) :
    ScoreTracksLength s := by
  induction hs with
  | init now rands hold s h => exact scoreTracks_spawnFood rands _ s h rfl rfl
  | step s s' e _ he _ ih =>
    cases e with
    | key down now rands =>
      rcases keyChanged_cases s s' down now rands false he with h | ⟨_, t, ht⟩
      · exact scoreTracks_congr s s' h.2.1 h.2.2.2.1 ih
      · exact scoreTracks_spawnFood rands _ s' ht rfl rfl
    | tick now rands =>
      have hr : render s now rands = some (s', false) := he
      unfold render at hr
      split_ifs at hr
      · simp only [Option.some.injEq, Prod.mk.injEq] at hr
        exact absurd hr.2 (by decide)
      · rw [Option.map_eq_some'] at hr
        obtain ⟨t, ht, heq⟩ := hr
        simp only [Prod.mk.injEq] at heq
        rw [← heq.1]
        exact scoreTracks_congr t _ rfl rfl (scoreTracks_moveSnake s t rands ih ht)
      · simp only [Option.some.injEq, Prod.mk.injEq] at hr
        rw [← hr.1]; exact ih

set_option maxRecDepth 1000000 in
theorem longMeal_last_slot :
    (runInit 1000 [(16, 8)] longMeal).map
        (fun s => (s.gameOver, s.paused, s.snakeLength, s.score, s.nextDirection,
          readSlot s.snake 49))
      = some (false, false, 51, 480, DIR_LEFT, ⟨18, 8⟩) := by
  decide

/-- C11 (failing input). The game `longMeal` ends in an active state with
`snakeLength = 51`, above `MAX_SNAKE_LENGTH = 50`, score 480 and `snake[49]`
at `(18, 8)`: the shift loop of the next advance starts at index 50 and
assigns `snake[50] = snake[49]`, outside the array. -/
theorem score_run_leaves_capacity :
    ∃ s, runInit 1000 [(16, 8)] longMeal = some s
      ∧ s.gameOver = false ∧ s.paused = false
      ∧ s.snakeLength = 51 ∧ MAX_SNAKE_LENGTH < s.snakeLength
      ∧ s.score = 480 ∧ s.score = 10 * ((s.snakeLength : Int) - 3)
      ∧ s.nextDirection = DIR_LEFT
      ∧ readSlot s.snake (s.snakeLength - 2) = ⟨18, 8⟩ := by
  have h := longMeal_last_slot
  cases hr : runInit 1000 [(16, 8)] longMeal with
  | none => rw [hr] at h; exact absurd h (by simp)
  | some s =>
    rw [hr] at h
    simp only [Option.map_some', Option.some.injEq, Prod.mk.injEq] at h
    obtain ⟨h1, h2, h3, h4, h5, h6⟩ := h
    refine ⟨s, rfl, h1, h2, h3, by rw [h3]; decide, h4, by rw [h3, h4]; decide, h5, ?_⟩
    rw [h3]
    exact h6

/-- C20 (failing input). From the start body `[(17,8), (18,8), (19,8)]` with
the food at `(16, 8)`, the advance moves the head onto the food and the
length becomes 4, but the new last segment `snake[3]` is at `(0, 0)`, the
value the slot held before, and not at `(19, 8)`, the position that
segment 2 held before the advance. -/
theorem growth_leaves_stale_segment :
    snakeBeforeFood.gameOver = false ∧ snakeBeforeFood.paused = false
    ∧ body snakeBeforeFood = [⟨17, 8⟩, ⟨18, 8⟩, ⟨19, 8⟩]
    ∧ (moveSnake snakeBeforeFood [(5, 5)]).map (fun s => (s.snakeLength, body s))
        = some (4, [⟨16, 8⟩, ⟨17, 8⟩, ⟨18, 8⟩, ⟨0, 0⟩])
    ∧ (moveSnake snakeBeforeFood [(5, 5)]).map (fun s => readSlot s.snake 3)
        ≠ some (readSlot snakeBeforeFood.snake 2)
    ∧ init 1000 [(16, 8)] 0 = some snakeBeforeFood := by
  refine ⟨by decide, by decide, by decide, by decide, by decide, by decide⟩

end Snake

theorem sub32_of_le (a b : Nat) (h : b ≤ a) (ha : a < 4294967296) : sub32 a b = a - b := by
  unfold sub32
  omega

theorem sub32_mod (t τ : Nat) (h : τ ≤ t) (hlt : t - τ < 4294967296) :
    sub32 (t % 4294967296) (τ % 4294967296) = t - τ := by
  unfold sub32
  omega

namespace Snake

open Direction

/-- Past the startup window `keyChanged` is the Ok button handling followed,
unless the panel was popped, by the dispatch of the other buttons. -/
theorem keyChanged_past_startup (s : SnakeState) (down : Keys) (now : Nat)
    (rands : List (Nat × Nat)) (h0 : s.gameStartTime ≠ 0)
    (h500 : 500 ≤ sub32 now s.gameStartTime) :
    keyChanged s down now rands =
      if (okButton { s with currentKeys := down } down now).2 then
        some ((okButton { s with currentKeys := down } down now).1, true)
      else (gameKeys down rands (okButton { s with currentKeys := down } down now).1).map
        (fun t => (t, false)) := by
  unfold keyChanged
  dsimp only
  rw [if_neg h0, if_neg (by omega)]

/-- Without a hold to end, the Ok button handling of an event with Ok up
does nothing. -/
theorem okButton_idle (s : SnakeState) (down : Keys) (now : Nat)
    (hok : down.ok = false) (hh : s.okHoldStart = 0) : okButton s down now = (s, false) := by
  unfold okButton
  rw [if_neg (by simp [hok]), if_neg (by omega)]

theorem turnNorth_next (down : Keys) (s : SnakeState) (h : down.north = true) :
    (turnNorth down s).nextDirection = clockwise s.direction := by
  unfold turnNorth
  rw [if_pos h]
  cases hd : s.direction <;> rfl

theorem turnSouth_next (down : Keys) (s : SnakeState) (h : down.south = true) :
    (turnSouth down s).nextDirection = counterClockwise s.direction := by
  unfold turnSouth
  rw [if_pos h]
  cases hd : s.direction <;> rfl

theorem turnNorth_up (down : Keys) (s : SnakeState) (h : down.north = false) :
    turnNorth down s = s := by
  unfold turnNorth
  rw [if_neg (by simp [h])]

theorem turnSouth_up (down : Keys) (s : SnakeState) (h : down.south = false) :
    turnSouth down s = s := by
  unfold turnSouth
  rw [if_neg (by simp [h])]

theorem turnCancel_up (down : Keys) (s : SnakeState) (h : down.cancel = false) :
    turnCancel down s = s := by
  unfold turnCancel
  rw [if_neg (by simp [h])]

/-- C18 (counterexample). Two active states in which a key event with only
North down does not set `nextDirection` to the clockwise turn of
`direction`: the state that `init` leaves, where the first key event only
opens the startup window, and a state past the window with a press of Ok
recorded, where the event ends the press and pauses the game. -/
theorem turn_key_not_dispatched :
    (snakeStart.gameOver = false ∧ snakeStart.paused = false
      ∧ snakeStart.direction = DIR_LEFT
      ∧ (keyChanged snakeStart northDown 5000 []).map (fun r => (r.1.nextDirection, r.2))
          = some (DIR_LEFT, false)
      ∧ clockwise DIR_LEFT ≠ DIR_LEFT)
    ∧ (snakeHolding.gameOver = false ∧ snakeHolding.paused = false
      ∧ snakeHolding.direction = DIR_LEFT
      ∧ (keyChanged snakeHolding northDown 4300 []).map
          (fun r => (r.1.nextDirection, r.1.paused, r.2)) = some (DIR_LEFT, true, false)) := by
  refine ⟨⟨by decide, by decide, by decide, by decide, by decide⟩,
    by decide, by decide, by decide, by decide⟩

/-- C18 (amended). In an active state, past the startup window and with no
press of Ok recorded, a key event with only North down sets `nextDirection`
to the clockwise turn of `direction`, and one with only South down to the
counter-clockwise turn; `direction` is not changed. -/
theorem turn_key_mapping (s : SnakeState) (now : Nat) (rands : List (Nat × Nat))
    (hg : s.gameOver = false) (hp : s.paused = false)
    (h0 : s.gameStartTime ≠ 0) (h500 : 500 ≤ sub32 now s.gameStartTime)
    (hh : s.okHoldStart = 0) :
    (∃ s', keyChanged s northDown now rands = some (s', false)
      ∧ s'.nextDirection = clockwise s.direction ∧ s'.direction = s.direction)
    ∧ (∃ s', keyChanged s southDown now rands = some (s', false)
      ∧ s'.nextDirection = counterClockwise s.direction ∧ s'.direction = s.direction) := by
  constructor
  · rw [keyChanged_past_startup s northDown now rands h0 h500,
      okButton_idle { s with currentKeys := northDown } northDown now rfl hh]
    have hgk : gameKeys northDown rands { s with currentKeys := northDown }
        = some (turnNorth northDown { s with currentKeys := northDown }) := by
      unfold gameKeys
      rw [if_neg (by simp [hg]), if_neg (by simp [hp]), turnCancel_up _ _ rfl,
        turnSouth_up _ _ rfl]
    simp only [Bool.false_eq_true, if_false, hgk, Option.map_some']
    refine ⟨_, rfl, turnNorth_next _ _ rfl, ?_⟩
    exact (turnNorth_frame _ _).2.2.2.2.1
  · rw [keyChanged_past_startup s southDown now rands h0 h500,
      okButton_idle { s with currentKeys := southDown } southDown now rfl hh]
    have hgk : gameKeys southDown rands { s with currentKeys := southDown }
        = some (turnSouth southDown { s with currentKeys := southDown }) := by
      unfold gameKeys
      rw [if_neg (by simp [hg]), if_neg (by simp [hp]), turnCancel_up _ _ rfl,
        turnNorth_up _ _ rfl]
    simp only [Bool.false_eq_true, if_false, hgk, Option.map_some']
    refine ⟨_, rfl, turnSouth_next _ _ rfl, ?_⟩
    exact (turnSouth_frame _ _).2.2.2.2.1

theorem turn_key_mapping_witness :
    ∃ s', keyChanged snakeReady northDown 5000 [] = some (s', false)
      ∧ s'.nextDirection = clockwise snakeReady.direction
      ∧ s'.direction = snakeReady.direction :=
  (turn_key_mapping snakeReady 5000 [] (by decide) (by decide) (by decide) (by decide)
    (by decide)).1

end Snake

namespace Tetris

theorem spawnPiece_eq (r : Nat) (s : TetrisState) :
    spawnPiece r s =
      if checkCollision (spawnPose r s) 0 3 0 then { spawnPose r s with gameOver := true }
      else spawnPose r s := rfl

theorem spawnPiece_frame (r : Nat) (s : TetrisState) :
    (spawnPiece r s).grid = s.grid ∧ (spawnPiece r s).currentPiece = r % 7
    ∧ (spawnPiece r s).pieceX = 0 ∧ (spawnPiece r s).pieceY = 3
    ∧ (spawnPiece r s).pieceRotation = 0 ∧ (spawnPiece r s).score = s.score
    ∧ (spawnPiece r s).lines = s.lines ∧ (spawnPiece r s).level = s.level
    ∧ (spawnPiece r s).paused = s.paused := by
  rw [spawnPiece_eq]
  split_ifs <;> exact ⟨rfl, rfl, rfl, rfl, rfl, rfl, rfl, rfl, rfl⟩

theorem spawnPiece_gameOver (r : Nat) (s : TetrisState) :
    (checkCollision (spawnPiece r s) 0 3 0 = true → (spawnPiece r s).gameOver = true)
    ∧ (checkCollision (spawnPiece r s) 0 3 0 = false →
        (spawnPiece r s).gameOver = s.gameOver) := by
  have hcc : checkCollision (spawnPiece r s) 0 3 0 = checkCollision (spawnPose r s) 0 3 0 :=
    checkCollision_congr (spawnPose r s) (spawnPiece r s) (spawnPiece_frame r s).1
      (spawnPiece_frame r s).2.1 0 3 0
  rw [hcc, spawnPiece_eq]
  split_ifs with hc
  · exact ⟨fun _ => rfl, fun h => absurd hc (by rw [h]; decide)⟩
  · exact ⟨fun h => absurd h hc, fun _ => rfl⟩

theorem spawn_pose_free_on_empty (s : TetrisState)
    (hempty : ∀ y x, s.grid.cell y x = 0) :
    checkCollision s 0 3 0 = false := by
  rw [Bool.eq_false_iff]
  intro hc
  obtain ⟨px, py, hpx, hpy, _, hbad⟩ := (checkCollision_spec s 0 3 0).mp hc
  rcases hbad with h | h | h | h | h
  · omega
  · omega
  · omega
  · omega
  · exact h (hempty _ _)

/-- C17. `spawnPiece` sets the pose to `x = 0`, `y = 3`, rotation 0, with the
piece kind `rand() % 7`; it sets `gameOver` when that pose collides and
leaves `gameOver` as it was otherwise.  On an all-empty board the spawn pose
collides for no piece kind, so `gameOver` is unchanged; for the I piece on
the empty board it stays false. -/
theorem spawnPiece_pose :
    (∀ r s, (spawnPiece r s).pieceX = 0 ∧ (spawnPiece r s).pieceY = 3
      ∧ (spawnPiece r s).pieceRotation = 0 ∧ (spawnPiece r s).currentPiece = r % 7
      ∧ (checkCollision (spawnPiece r s) 0 3 0 = true → (spawnPiece r s).gameOver = true)
      ∧ (checkCollision (spawnPiece r s) 0 3 0 = false →
          (spawnPiece r s).gameOver = s.gameOver))
    ∧ (∀ r s, (∀ y x, s.grid.cell y x = 0) →
        checkCollision (spawnPiece r s) 0 3 0 = false
          ∧ (spawnPiece r s).gameOver = s.gameOver)
    ∧ ((spawnPiece 0 emptyBoard).currentPiece = 0
        ∧ checkCollision (spawnPiece 0 emptyBoard) 0 3 0 = false
        ∧ (spawnPiece 0 emptyBoard).gameOver = false) := by
  refine ⟨?_, ?_, by decide, by decide, by decide⟩
  · intro r s
    obtain ⟨_, h2, h3, h4, h5, _⟩ := spawnPiece_frame r s
    exact ⟨h3, h4, h5, h2, (spawnPiece_gameOver r s).1, (spawnPiece_gameOver r s).2⟩
  · intro r s hempty
    have hfree : checkCollision (spawnPiece r s) 0 3 0 = false :=
      spawn_pose_free_on_empty (spawnPiece r s)
        (fun y x => by rw [(spawnPiece_frame r s).1]; exact hempty y x)
    exact ⟨hfree, (spawnPiece_gameOver r s).2 hfree⟩

theorem spawnPiece_pose_witness :
    (∀ y x, emptyBoard.grid.cell y x = 0)
    ∧ checkCollision (spawnPiece 4 emptyBoard) 0 3 0 = false
    ∧ (spawnPiece 4 emptyBoard).gameOver = emptyBoard.gameOver :=
  ⟨fun _ _ => rfl, spawnPiece_pose.2.1 4 emptyBoard (fun _ _ => rfl)⟩

end Tetris

namespace Tetris

theorem tetris_okButton_frame (s : TetrisState) (down : Keys) (now : Nat) :
    (okButton s down now).1.grid = s.grid
    ∧ (okButton s down now).1.currentPiece = s.currentPiece
    ∧ (okButton s down now).1.pieceX = s.pieceX
    ∧ (okButton s down now).1.pieceY = s.pieceY
    ∧ (okButton s down now).1.pieceRotation = s.pieceRotation
    ∧ (okButton s down now).1.score = s.score
    ∧ (okButton s down now).1.lines = s.lines
    ∧ (okButton s down now).1.level = s.level
    ∧ (okButton s down now).1.gameOver = s.gameOver := by
  unfold okButton
  dsimp only
  split_ifs <;> exact ⟨rfl, rfl, rfl, rfl, rfl, rfl, rfl, rfl, rfl⟩

/-- An event that does not end a press of Ok neither pops the panel nor
changes `paused`. -/
theorem tetris_okButton_no_release (s : TetrisState) (down : Keys) (now : Nat)
    (h : down.ok = true ∨ s.okHoldStart = 0) :
    (okButton s down now).2 = false ∧ (okButton s down now).1.paused = s.paused := by
  unfold okButton
  dsimp only
  split_ifs with h1 h2 h3 h4 <;>
    first
    | exact ⟨rfl, rfl⟩
    | (exfalso
       rcases h with h | h
       · exact h1 h
       · omega)

theorem tetris_keyChanged_past_startup (s : TetrisState) (down : Keys) (now r : Nat)
    (h0 : s.gameStartTime ≠ 0) (h500 : 500 ≤ sub32 now s.gameStartTime) :
    keyChanged s down now r =
      if (okButton { s with currentKeys := down } down now).2 then
        ((okButton { s with currentKeys := down } down now).1, true)
      else (gameKeys down r (okButton { s with currentKeys := down } down now).1, false) := by
  unfold keyChanged
  dsimp only
  rw [if_neg h0, if_neg (by omega)]

theorem rotatePiece_frame (down : Keys) (s : TetrisState) :
    (rotatePiece down s).grid = s.grid ∧ (rotatePiece down s).currentPiece = s.currentPiece
    ∧ (rotatePiece down s).pieceX = s.pieceX ∧ (rotatePiece down s).pieceY = s.pieceY
    ∧ (rotatePiece down s).score = s.score ∧ (rotatePiece down s).lines = s.lines
    ∧ (rotatePiece down s).level = s.level ∧ (rotatePiece down s).gameOver = s.gameOver
    ∧ (rotatePiece down s).paused = s.paused := by
  unfold rotatePiece
  dsimp only
  split_ifs <;> exact ⟨rfl, rfl, rfl, rfl, rfl, rfl, rfl, rfl, rfl⟩

theorem moveUp_frame (down : Keys) (s : TetrisState) :
    (moveUp down s).grid = s.grid ∧ (moveUp down s).currentPiece = s.currentPiece
    ∧ (moveUp down s).pieceX = s.pieceX ∧ (moveUp down s).pieceRotation = s.pieceRotation
    ∧ (moveUp down s).score = s.score ∧ (moveUp down s).lines = s.lines
    ∧ (moveUp down s).level = s.level ∧ (moveUp down s).gameOver = s.gameOver
    ∧ (moveUp down s).paused = s.paused := by
  unfold moveUp
  split_ifs <;> exact ⟨rfl, rfl, rfl, rfl, rfl, rfl, rfl, rfl, rfl⟩

theorem moveDownKey_frame (down : Keys) (s : TetrisState) :
    (moveDownKey down s).grid = s.grid ∧ (moveDownKey down s).currentPiece = s.currentPiece
    ∧ (moveDownKey down s).pieceX = s.pieceX
    ∧ (moveDownKey down s).pieceRotation = s.pieceRotation
    ∧ (moveDownKey down s).score = s.score ∧ (moveDownKey down s).lines = s.lines
    ∧ (moveDownKey down s).level = s.level ∧ (moveDownKey down s).gameOver = s.gameOver
    ∧ (moveDownKey down s).paused = s.paused := by
  unfold moveDownKey
  split_ifs <;> exact ⟨rfl, rfl, rfl, rfl, rfl, rfl, rfl, rfl, rfl⟩

/-- The rotation that the rotate block leaves when Cancel is down. -/
theorem rotatePiece_rotation (down : Keys) (s : TetrisState) (hc : down.cancel = true) :
    (checkCollision s s.pieceX s.pieceY ((s.pieceRotation + 1) % 4) = true →
      (rotatePiece down s).pieceRotation = s.pieceRotation)
    ∧ (checkCollision s s.pieceX s.pieceY ((s.pieceRotation + 1) % 4) = false →
      (rotatePiece down s).pieceRotation = (s.pieceRotation + 1) % 4) := by
  unfold rotatePiece
  dsimp only
  rw [if_pos hc]
  constructor
  · intro h
    rw [h]
    rfl
  · intro h
    rw [h]
    rfl

/-- C12. The rotate action, the block of `keyChanged` that runs when Cancel
is down, leaves `pieceRotation` as it is when `checkCollision` at `(pieceX,
pieceY, (pieceRotation + 1) mod 4)` is true and sets it to `(pieceRotation +
1) mod 4` otherwise; `pieceX` and the grid are unchanged.  The same holds of
the whole key event on an active state, past the startup window, when the
event does not end a press of Ok. -/
theorem rotation_rejection :
    (∀ s down, down.cancel = true →
      (checkCollision s s.pieceX s.pieceY ((s.pieceRotation + 1) % 4) = true →
        (rotatePiece down s).pieceRotation = s.pieceRotation)
      ∧ (checkCollision s s.pieceX s.pieceY ((s.pieceRotation + 1) % 4) = false →
        (rotatePiece down s).pieceRotation = (s.pieceRotation + 1) % 4)
      ∧ (rotatePiece down s).pieceX = s.pieceX ∧ (rotatePiece down s).grid = s.grid)
    ∧ (∀ s down now r, s.gameOver = false → s.paused = false → s.gameStartTime ≠ 0 →
      500 ≤ sub32 now s.gameStartTime → down.cancel = true →
      (down.ok = true ∨ s.okHoldStart = 0) →
      (keyChanged s down now r).2 = false
      ∧ (checkCollision s s.pieceX s.pieceY ((s.pieceRotation + 1) % 4) = true →
        (keyChanged s down now r).1.pieceRotation = s.pieceRotation)
      ∧ (checkCollision s s.pieceX s.pieceY ((s.pieceRotation + 1) % 4) = false →
        (keyChanged s down now r).1.pieceRotation = (s.pieceRotation + 1) % 4)
      ∧ (keyChanged s down now r).1.pieceX = s.pieceX
      ∧ (keyChanged s down now r).1.grid = s.grid) := by
  constructor
  · intro s down hc
    exact ⟨(rotatePiece_rotation down s hc).1, (rotatePiece_rotation down s hc).2,
      (rotatePiece_frame down s).2.2.1, (rotatePiece_frame down s).1⟩
  · intro s down now r hg hp h0 h500 hc hok
    obtain ⟨hpop, hpaused⟩ := tetris_okButton_no_release { s with currentKeys := down } down now hok
    obtain ⟨f1, f2, f3, f4, f5, _, _, _, f9⟩ :=
      tetris_okButton_frame { s with currentKeys := down } down now
    rw [tetris_keyChanged_past_startup s down now r h0 h500, hpop]
    simp only [Bool.false_eq_true, if_false]
    have hgk : gameKeys down r (okButton { s with currentKeys := down } down now).1
        = moveDownKey down (moveUp down
            (rotatePiece down (okButton { s with currentKeys := down } down now).1)) := by
      unfold gameKeys
      rw [if_neg (by rw [f9]; simp [hg]), if_neg (by rw [hpaused]; simp [hp])]
    rw [hgk]
    obtain ⟨d1, _, d3, d4, _⟩ := moveDownKey_frame down (moveUp down
      (rotatePiece down (okButton { s with currentKeys := down } down now).1))
    obtain ⟨u1, _, u3, u4, _⟩ := moveUp_frame down
      (rotatePiece down (okButton { s with currentKeys := down } down now).1)
    obtain ⟨r1, _, r3, _⟩ :=
      rotatePiece_frame down (okButton { s with currentKeys := down } down now).1
    have hcc : checkCollision (okButton { s with currentKeys := down } down now).1
        (okButton { s with currentKeys := down } down now).1.pieceX
        (okButton { s with currentKeys := down } down now).1.pieceY
        (((okButton { s with currentKeys := down } down now).1.pieceRotation + 1) % 4)
        = checkCollision s s.pieceX s.pieceY ((s.pieceRotation + 1) % 4) := by
      rw [f3, f4, f5]
      exact checkCollision_congr s _ f1 f2 _ _ _
    have hrot := rotatePiece_rotation down
      (okButton { s with currentKeys := down } down now).1 hc
    rw [hcc, f5] at hrot
    refine ⟨trivial, ?_, ?_, ?_, ?_⟩
    · intro h; rw [d4, u4]; exact hrot.1 h
    · intro h; rw [d4, u4]; exact hrot.2 h
    · rw [d3, u3, r3, f3]
    · rw [d1, u1, r1, f1]

theorem rotation_rejection_witness :
    checkCollision tetrisReady tetrisReady.pieceX tetrisReady.pieceY
        ((tetrisReady.pieceRotation + 1) % 4) = false
    ∧ (keyChanged tetrisReady cancelDown 5000 0).1.pieceRotation
        = (tetrisReady.pieceRotation + 1) % 4 :=
  ⟨by decide,
   (rotation_rejection.2 tetrisReady cancelDown 5000 0 (by decide) (by decide) (by decide)
     (by decide) rfl (Or.inr (by decide))).2.2.1 (by decide)⟩

end Tetris

namespace Tetris

theorem placePiece_eq (s : TetrisState) :
    placePiece s
      = forRange 4 (fun py s1 => forRange 4 (fun px s2 => placeCell py px s2) s1) s := rfl

theorem pieceCell_kind (kind rotation py px : Nat)
    (h : pieceCell kind rotation py px ≠ 0) : kind < 7 := by
  by_contra hk
  apply h
  have hd : pieces.getD kind [] = [] :=
    List.getD_eq_default _ _ (by show 7 ≤ kind; omega)
  unfold pieceCell
  rw [hd]
  rfl

/-- One round of the inner loop writes the piece value into the cell that
the mask cell hits and changes nothing else. -/
theorem placeCell_spec (s t : TetrisState) (py px : Nat)
    (ht : t = { s with grid := t.grid }) :
    placeCell py px t = { s with grid := (placeCell py px t).grid }
    ∧ ∀ y x, ((Hits s py px y x → (placeCell py px t).grid.cell y x
                = (s.currentPiece + 1) % 256)
        ∧ (¬ Hits s py px y x → (placeCell py px t).grid.cell y x = t.grid.cell y x)) := by
  have h1 : t.currentPiece = s.currentPiece := by rw [ht]
  have h2 : t.pieceRotation = s.pieceRotation := by rw [ht]
  have h3 : t.pieceX = s.pieceX := by rw [ht]
  have h4 : t.pieceY = s.pieceY := by rw [ht]
  unfold placeCell Hits
  rw [h1, h2, h3, h4]
  simp only [BOARD_WIDTH, BOARD_HEIGHT, Nat.cast_ofNat]
  split_ifs with hm hb
  · refine ⟨by rw [ht], ?_⟩
    intro y x
    simp only [setCell_cell]
    constructor
    · rintro ⟨_, hx, hy, _, _⟩
      rw [if_pos (by omega)]
    · intro hn
      rw [if_neg]
      intro hyx
      apply hn
      exact ⟨hm, by omega, by omega, by omega, by omega⟩
  · refine ⟨ht, ?_⟩
    intro y x
    refine ⟨?_, fun _ => rfl⟩
    rintro ⟨_, hx, hy, hx20, hy10⟩
    exfalso
    apply hb
    omega
  · refine ⟨ht, ?_⟩
    intro y x
    refine ⟨?_, fun _ => rfl⟩
    rintro ⟨hm', _⟩
    exact absurd hm' hm

/-- The inner loop of `placePiece` over the first `n` columns of mask row
`py`. -/
theorem placeRow_spec (s : TetrisState) (py : Nat) (n : Nat) : ∀ (t : TetrisState),
    t = { s with grid := t.grid } →
    forRange n (fun px s2 => placeCell py px s2) t
        = { s with grid := (forRange n (fun px s2 => placeCell py px s2) t).grid }
    ∧ ∀ y x, (((∃ px, px < n ∧ Hits s py px y x) →
          (forRange n (fun px s2 => placeCell py px s2) t).grid.cell y x
            = (s.currentPiece + 1) % 256)
        ∧ ((¬ ∃ px, px < n ∧ Hits s py px y x) →
          (forRange n (fun px s2 => placeCell py px s2) t).grid.cell y x
            = t.grid.cell y x)) := by
  induction n with
  | zero =>
    intro t ht
    rw [forRange_zero]
    refine ⟨ht, fun y x => ⟨?_, fun _ => rfl⟩⟩
    rintro ⟨px, hpx, _⟩
    omega
  | succ n ih =>
    intro t ht
    rw [forRange_succ]
    obtain ⟨hframe, hcells⟩ := ih t ht
    obtain ⟨sframe, scells⟩ :=
      placeCell_spec s (forRange n (fun px s2 => placeCell py px s2) t) py n hframe
    refine ⟨sframe, fun y x => ⟨?_, ?_⟩⟩
    · rintro ⟨px, hpx, hhit⟩
      by_cases hlast : Hits s py n y x
      · exact (scells y x).1 hlast
      · rw [(scells y x).2 hlast]
        have hne : px ≠ n := fun h => hlast (h ▸ hhit)
        exact (hcells y x).1 ⟨px, by omega, hhit⟩
    · intro hno
      have hlast : ¬ Hits s py n y x := fun h => hno ⟨n, by omega, h⟩
      rw [(scells y x).2 hlast]
      exact (hcells y x).2 (fun ⟨px, hpx, hhit⟩ => hno ⟨px, by omega, hhit⟩)

/-- The outer loop of `placePiece` over the first `m` mask rows. -/
theorem placeRows_spec (s : TetrisState) (m : Nat) :
    forRange m (fun py s1 => forRange 4 (fun px s2 => placeCell py px s2) s1) s
        = { s with grid :=
            (forRange m (fun py s1 => forRange 4 (fun px s2 => placeCell py px s2) s1) s).grid }
    ∧ ∀ y x, (((∃ py px, py < m ∧ px < 4 ∧ Hits s py px y x) →
          (forRange m (fun py s1 => forRange 4 (fun px s2 => placeCell py px s2) s1)
              s).grid.cell y x = (s.currentPiece + 1) % 256)
        ∧ ((¬ ∃ py px, py < m ∧ px < 4 ∧ Hits s py px y x) →
          (forRange m (fun py s1 => forRange 4 (fun px s2 => placeCell py px s2) s1)
              s).grid.cell y x = s.grid.cell y x)) := by
  induction m with
  | zero =>
    rw [forRange_zero]
    refine ⟨rfl, fun y x => ⟨?_, fun _ => rfl⟩⟩
    rintro ⟨py, px, hpy, _⟩
    omega
  | succ m ih =>
    rw [forRange_succ]
    obtain ⟨hframe, hcells⟩ := ih
    obtain ⟨rframe, rcells⟩ := placeRow_spec s m 4
      (forRange m (fun py s1 => forRange 4 (fun px s2 => placeCell py px s2) s1) s) hframe
    refine ⟨rframe, fun y x => ⟨?_, ?_⟩⟩
    · rintro ⟨py, px, hpy, hpx, hhit⟩
      by_cases hrow : ∃ px, px < 4 ∧ Hits s m px y x
      · exact (rcells y x).1 hrow
      · rw [(rcells y x).2 hrow]
        have hne : py ≠ m := fun h => hrow ⟨px, hpx, h ▸ hhit⟩
        exact (hcells y x).1 ⟨py, px, by omega, hpx, hhit⟩
    · intro hno
      have hrow : ¬ ∃ px, px < 4 ∧ Hits s m px y x :=
        fun ⟨px, hpx, hhit⟩ => hno ⟨m, px, by omega, hpx, hhit⟩
      rw [(rcells y x).2 hrow]
      exact (hcells y x).2 (fun ⟨py, px, hpy, hpx, hhit⟩ => hno ⟨py, px, by omega, hpx, hhit⟩)

/-- `placePiece` changes only the grid. -/
theorem placePiece_frame (s : TetrisState) :
    placePiece s = { s with grid := (placePiece s).grid } := by
  rw [placePiece_eq]
  exact (placeRows_spec s 4).1

/-- C16. After `placePiece` every grid cell that is in bounds and covered by
an occupied mask cell of the current pose holds `currentPiece + 1`, every
other grid cell holds what it held before, and the state is otherwise
unchanged (piece kind, pose, score, lines, level and the rest). -/
theorem placePiece_cells (s : TetrisState) :
    (∀ y x, Covered s y x → (placePiece s).grid.cell y x = s.currentPiece + 1)
    ∧ (∀ y x, ¬ Covered s y x → (placePiece s).grid.cell y x = s.grid.cell y x)
    ∧ placePiece s = { s with grid := (placePiece s).grid }
    ∧ (placePiece s).pieceX = s.pieceX ∧ (placePiece s).pieceY = s.pieceY
    ∧ (placePiece s).pieceRotation = s.pieceRotation
    ∧ (placePiece s).currentPiece = s.currentPiece
    ∧ (placePiece s).score = s.score ∧ (placePiece s).lines = s.lines
    ∧ (placePiece s).level = s.level := by
  have hframe := placePiece_frame s
  have hcells := (placeRows_spec s 4).2
  rw [← placePiece_eq] at hcells
  refine ⟨?_, ?_, hframe, ?_, ?_, ?_, ?_, ?_, ?_, ?_⟩
  · intro y x hcov
    obtain ⟨py, px, hpy, hpx, hhit⟩ := hcov
    rw [(hcells y x).1 ⟨py, px, hpy, hpx, hhit⟩]
    have hk := pieceCell_kind _ _ _ _ hhit.1
    omega
  · intro y x hcov
    exact (hcells y x).2 hcov
  all_goals (rw [hframe])

end Tetris

namespace Tetris

theorem placePiece_cells_witness :
    Covered startWithT 4 1
    ∧ (placePiece startWithT).grid.cell 4 1 = startWithT.currentPiece + 1 :=
  ⟨⟨1, 1, by decide, by decide, by unfold Hits; decide⟩,
   (placePiece_cells startWithT).1 4 1 ⟨1, 1, by decide, by decide, by unfold Hits; decide⟩⟩

/-- The block `if (linesCleared > 0)` of `render`: what it does to lines,
score and level. -/
theorem scoreLines_spec (s : TetrisState) (k : Nat) :
    (scoreLines s k).grid = s.grid ∧ (scoreLines s k).gameOver = s.gameOver
    ∧ (scoreLines s k).paused = s.paused
    ∧ (0 < k → (scoreLines s k).lines = s.lines + k
        ∧ (scoreLines s k).score = s.score + (k : Int) * 100 * s.level
        ∧ (scoreLines s k).level = Int.tdiv (s.lines + k) 10 + 1)
    ∧ (k = 0 → (scoreLines s k).lines = s.lines ∧ (scoreLines s k).score = s.score
        ∧ (scoreLines s k).level = s.level) := by
  unfold scoreLines
  dsimp only
  split_ifs with hk
  · exact ⟨rfl, rfl, rfl, fun _ => ⟨rfl, rfl, rfl⟩, fun h => by omega⟩
  · exact ⟨rfl, rfl, rfl, fun h => by omega, fun _ => ⟨rfl, rfl, rfl⟩⟩

end Tetris

namespace Snake

open Direction

theorem okButton_no_release (s : SnakeState) (down : Keys) (now : Nat)
    (h : down.ok = true ∨ s.okHoldStart = 0) :
    (okButton s down now).2 = false ∧ (okButton s down now).1.paused = s.paused := by
  unfold okButton
  dsimp only
  split_ifs with h1 h2 h3 h4 <;>
    first
    | exact ⟨rfl, rfl⟩
    | (exfalso
       rcases h with h | h
       · exact h1 h
       · omega)

/-- The release of Ok after a hold of more than 1000 ms. -/
theorem okButton_long (s : SnakeState) (down : Keys) (now : Nat)
    (hok : down.ok = false) (hrec : 0 < s.okHoldStart)
    (held : 1000 < sub32 now s.okHoldStart) : okButton s down now = (s, true) := by
  unfold okButton
  dsimp only
  rw [if_neg (by simp [hok]), if_pos hrec, if_pos held]

/-- The release of Ok after a hold of at most 1000 ms while the game is not
over. -/
theorem okButton_short (s : SnakeState) (down : Keys) (now : Nat)
    (hok : down.ok = false) (hrec : 0 < s.okHoldStart)
    (held : sub32 now s.okHoldStart ≤ 1000) (hg : s.gameOver = false) :
    okButton s down now = ({ s with paused := !s.paused, okHoldStart := 0 }, false) := by
  unfold okButton
  dsimp only
  rw [if_neg (by simp [hok]), if_pos hrec, if_neg (by omega), hg]
  rfl

/-- With the game not over, the dispatch of the other buttons returns and
leaves `paused` as it is. -/
theorem gameKeys_paused (down : Keys) (rands : List (Nat × Nat)) (s : SnakeState)
    (hg : s.gameOver = false) :
    ∃ t, gameKeys down rands s = some t ∧ t.paused = s.paused := by
  unfold gameKeys
  rw [if_neg (by simp [hg])]
  split_ifs
  · exact ⟨s, rfl, rfl⟩
  · exact ⟨_, rfl, (turns_frame down s).2.2.2.2.2.2⟩

/-- While the game is paused and not over, the dispatch of the other buttons
returns the state as it is. -/
theorem gameKeys_while_paused (down : Keys) (rands : List (Nat × Nat)) (s : SnakeState)
    (hg : s.gameOver = false) (hp : s.paused = true) : gameKeys down rands s = some s := by
  unfold gameKeys
  rw [if_neg (by simp [hg]), if_pos hp]

/-- A key event inside the startup window, as `keyChanged` measures it, is
ignored. -/
theorem keyChanged_startup (s : SnakeState) (down : Keys) (now : Nat)
    (rands : List (Nat × Nat))
    (h : s.gameStartTime = 0 ∨ sub32 now s.gameStartTime < 500) :
    ∃ s', keyChanged s down now rands = some (s', false)
      ∧ s'.paused = s.paused ∧ s'.gameOver = s.gameOver ∧ s'.score = s.score
      ∧ s'.direction = s.direction ∧ s'.nextDirection = s.nextDirection
      ∧ s'.snake = s.snake ∧ s'.snakeLength = s.snakeLength ∧ s'.foodPos = s.foodPos
      ∧ (s'.okHoldStart = 0 ∨ s'.okHoldStart = s.okHoldStart) := by
  unfold keyChanged
  dsimp only
  by_cases h0 : s.gameStartTime = 0
  · rw [if_pos h0]
    exact ⟨_, rfl, rfl, rfl, rfl, rfl, rfl, rfl, rfl, rfl, Or.inl rfl⟩
  · rw [if_neg h0, if_pos (by rcases h with h | h; exact absurd h h0; exact h)]
    exact ⟨_, rfl, rfl, rfl, rfl, rfl, rfl, rfl, rfl, rfl, Or.inr rfl⟩

theorem spawnFood_gameStartTime (rands : List (Nat × Nat)) (s s' : SnakeState)
    (h : spawnFood s rands = some s') : s'.gameStartTime = s.gameStartTime := by
  obtain ⟨⟨c, _, hs⟩, _⟩ := spawnFood_some rands s s' h
  rw [hs]

theorem turns_gameStartTime (down : Keys) (s : SnakeState) :
    (turnCancel down (turnSouth down (turnNorth down s))).gameStartTime = s.gameStartTime := by
  have a : (turnNorth down s).gameStartTime = s.gameStartTime := by
    unfold turnNorth
    split_ifs
    · split <;> rfl
    · rfl
  have b : (turnSouth down (turnNorth down s)).gameStartTime
      = (turnNorth down s).gameStartTime := by
    unfold turnSouth
    split_ifs
    · split <;> rfl
    · rfl
  have c : (turnCancel down (turnSouth down (turnNorth down s))).gameStartTime
      = (turnSouth down (turnNorth down s)).gameStartTime := by
    unfold turnCancel
    split_ifs <;> first | rfl | (split <;> rfl)
  exact c.trans (b.trans a)

theorem okButton_gameStartTime (s : SnakeState) (down : Keys) (now : Nat) :
    (okButton s down now).1.gameStartTime = s.gameStartTime := by
  unfold okButton
  dsimp only
  split_ifs <;> rfl

/-- A key event leaves the startup time as it is, or sets it from zero to the
clock value of the event. -/
theorem keyChanged_gameStartTime (s s' : SnakeState) (down : Keys) (now : Nat)
    (rands : List (Nat × Nat)) (popped : Bool)
    (hk : keyChanged s down now rands = some (s', popped)) :
    s'.gameStartTime = s.gameStartTime ∨ (s.gameStartTime = 0 ∧ s'.gameStartTime = now) := by
  unfold keyChanged at hk
  dsimp only at hk
  split_ifs at hk with h0
  · simp only [Option.some.injEq, Prod.mk.injEq] at hk
    rw [← hk.1]; exact Or.inr ⟨h0, rfl⟩
  · simp only [Option.some.injEq, Prod.mk.injEq] at hk
    rw [← hk.1]; exact Or.inl rfl
  · simp only [Option.some.injEq, Prod.mk.injEq] at hk
    rw [← hk.1]; exact Or.inl (okButton_gameStartTime _ _ _)
  · rw [Option.map_eq_some'] at hk
    obtain ⟨t, ht, heq⟩ := hk
    simp only [Prod.mk.injEq] at heq
    rw [← heq.1]
    left
    have hok := okButton_gameStartTime { s with currentKeys := down } down now
    unfold gameKeys at ht
    split_ifs at ht
    · exact (spawnFood_gameStartTime rands _ t ht).trans hok
    · simp only [Option.some.injEq] at ht
      rw [← ht]; exact hok
    · simp only [Option.some.injEq] at ht
      rw [← ht]; exact hok
    · simp only [Option.some.injEq] at ht
      rw [← ht]; exact (turns_gameStartTime down _).trans hok

theorem moveSnake_gameStartTime (s s' : SnakeState) (rands : List (Nat × Nat))
    (hm : moveSnake s rands = some s') : s'.gameStartTime = s.gameStartTime := by
  unfold moveSnake at hm
  dsimp only at hm
  split_ifs at hm
  · simp only [Option.some.injEq] at hm
    rw [← hm]
  · simp only [Option.some.injEq] at hm
    rw [← hm]
  · have h := spawnFood_gameStartTime rands _ s' hm
    exact h
  · simp only [Option.some.injEq] at hm
    rw [← hm]

theorem render_gameStartTime (s s' : SnakeState) (now : Nat) (rands : List (Nat × Nat))
    (popped : Bool) (hr : render s now rands = some (s', popped)) :
    s'.gameStartTime = s.gameStartTime := by
  unfold render at hr
  split_ifs at hr
  · simp only [Option.some.injEq, Prod.mk.injEq] at hr
    rw [← hr.1]
  · rw [Option.map_eq_some'] at hr
    obtain ⟨t, ht, heq⟩ := hr
    simp only [Prod.mk.injEq] at heq
    rw [← heq.1]
    exact moveSnake_gameStartTime s t rands ht
  · simp only [Option.some.injEq, Prod.mk.injEq] at hr
    rw [← hr.1]

theorem startedAfter_of_reachableAt (entry t : Nat) (s : SnakeState)
    (h : ReachableAt entry t s) : entry ≤ t ∧ StartedAfter entry t s := by
  induction h with
  | init rands hold s hi =>
    refine ⟨le_refl _, Or.inl ?_⟩
    unfold init at hi
    rw [spawnFood_gameStartTime rands _ s hi]
  | key t t' s s' down rands _ hle hk ih =>
    refine ⟨le_trans ih.1 hle, ?_⟩
    rcases keyChanged_gameStartTime s s' down _ rands false hk with h | ⟨_, h⟩
    · rcases ih.2 with h0 | ⟨τ, h1, h2, h3⟩
      · exact Or.inl (h.trans h0)
      · exact Or.inr ⟨τ, h1, le_trans h2 hle, h.trans h3⟩
    · exact Or.inr ⟨t', le_trans ih.1 hle, le_refl _, h⟩
  | tick t t' s s' rands _ hle hr ih =>
    refine ⟨le_trans ih.1 hle, ?_⟩
    have h := render_gameStartTime s s' _ rands false hr
    rcases ih.2 with h0 | ⟨τ, h1, h2, h3⟩
    · exact Or.inl (h.trans h0)
    · exact Or.inr ⟨τ, h1, le_trans h2 hle, h.trans h3⟩

/-- Before 500 ms have passed since the screen entry, the startup test of
`keyChanged` holds. -/
theorem startup_test_of_reachableAt (entry t t' : Nat) (s : SnakeState)
    (h : ReachableAt entry t s) (hle : t ≤ t') (hlt : t' < entry + 500) :
    s.gameStartTime = 0 ∨ sub32 (t' % 4294967296) s.gameStartTime < 500 := by
  rcases (startedAfter_of_reachableAt entry t s h).2 with h0 | ⟨τ, h1, h2, h3⟩
  · exact Or.inl h0
  · right
    rw [h3, sub32_mod t' τ (by omega) (by omega)]
    omega

end Snake

namespace Tetris

/-- The release of Ok after a hold of more than 1000 ms. -/
theorem tetris_okButton_long (s : TetrisState) (down : Keys) (now : Nat)
    (hok : down.ok = false) (hrec : 0 < s.okHoldStart)
    (held : 1000 < sub32 now s.okHoldStart) : okButton s down now = (s, true) := by
  unfold okButton
  dsimp only
  rw [if_neg (by simp [hok]), if_pos hrec, if_pos held]

/-- The release of Ok after a hold of at most 1000 ms while the game is not
over. -/
theorem tetris_okButton_short (s : TetrisState) (down : Keys) (now : Nat)
    (hok : down.ok = false) (hrec : 0 < s.okHoldStart)
    (held : sub32 now s.okHoldStart ≤ 1000) (hg : s.gameOver = false) :
    okButton s down now = ({ s with paused := !s.paused, okHoldStart := 0 }, false) := by
  unfold okButton
  dsimp only
  rw [if_neg (by simp [hok]), if_pos hrec, if_neg (by omega), hg]
  rfl

/-- With the game not over, the dispatch of the other buttons leaves
`paused` as it is. -/
theorem tetris_gameKeys_paused (down : Keys) (r : Nat) (s : TetrisState)
    (hg : s.gameOver = false) : (gameKeys down r s).paused = s.paused := by
  unfold gameKeys
  rw [if_neg (by simp [hg])]
  split_ifs
  · rfl
  · exact ((moveDownKey_frame down _).2.2.2.2.2.2.2.2).trans
      (((moveUp_frame down _).2.2.2.2.2.2.2.2).trans
        ((rotatePiece_frame down s).2.2.2.2.2.2.2.2))

/-- While the game is paused and not over, the dispatch of the other buttons
returns the state as it is. -/
theorem tetris_gameKeys_while_paused (down : Keys) (r : Nat) (s : TetrisState)
    (hg : s.gameOver = false) (hp : s.paused = true) : gameKeys down r s = s := by
  unfold gameKeys
  rw [if_neg (by simp [hg]), if_pos hp]

/-- A key event inside the startup window, as `keyChanged` measures it, is
ignored. -/
theorem tetris_keyChanged_startup (s : TetrisState) (down : Keys) (now r : Nat)
    (h : s.gameStartTime = 0 ∨ sub32 now s.gameStartTime < 500) :
    (keyChanged s down now r).2 = false
    ∧ (keyChanged s down now r).1.paused = s.paused
    ∧ (keyChanged s down now r).1.gameOver = s.gameOver
    ∧ (keyChanged s down now r).1.score = s.score
    ∧ (keyChanged s down now r).1.lines = s.lines
    ∧ (keyChanged s down now r).1.level = s.level
    ∧ (keyChanged s down now r).1.currentPiece = s.currentPiece
    ∧ (keyChanged s down now r).1.pieceX = s.pieceX
    ∧ (keyChanged s down now r).1.pieceY = s.pieceY
    ∧ (keyChanged s down now r).1.pieceRotation = s.pieceRotation
    ∧ (keyChanged s down now r).1.grid = s.grid
    ∧ ((keyChanged s down now r).1.okHoldStart = 0
        ∨ (keyChanged s down now r).1.okHoldStart = s.okHoldStart) := by
  unfold keyChanged
  dsimp only
  by_cases h0 : s.gameStartTime = 0
  · rw [if_pos h0]
    exact ⟨rfl, rfl, rfl, rfl, rfl, rfl, rfl, rfl, rfl, rfl, rfl, Or.inl rfl⟩
  · rw [if_neg h0, if_pos (by rcases h with h | h; exact absurd h h0; exact h)]
    exact ⟨rfl, rfl, rfl, rfl, rfl, rfl, rfl, rfl, rfl, rfl, rfl, Or.inr rfl⟩

theorem tetris_okButton_gameStartTime (s : TetrisState) (down : Keys) (now : Nat) :
    (okButton s down now).1.gameStartTime = s.gameStartTime := by
  unfold okButton
  dsimp only
  split_ifs <;> rfl

theorem spawnPiece_gameStartTime (r : Nat) (s : TetrisState) :
    (spawnPiece r s).gameStartTime = s.gameStartTime := by
  rw [spawnPiece_eq]
  split_ifs <;> rfl

theorem gameKeys_gameStartTime (down : Keys) (r : Nat) (s : TetrisState) :
    (gameKeys down r s).gameStartTime = s.gameStartTime := by
  have hrot : (rotatePiece down s).gameStartTime = s.gameStartTime := by
    unfold rotatePiece
    dsimp only
    split_ifs <;> rfl
  have hup : (moveUp down (rotatePiece down s)).gameStartTime
      = (rotatePiece down s).gameStartTime := by
    unfold moveUp
    split_ifs <;> rfl
  have hdn : (moveDownKey down (moveUp down (rotatePiece down s))).gameStartTime
      = (moveUp down (rotatePiece down s)).gameStartTime := by
    unfold moveDownKey
    split_ifs <;> rfl
  unfold gameKeys
  split_ifs
  · unfold resetGame
    rw [spawnPiece_gameStartTime]
  · rfl
  · rfl
  · exact hdn.trans (hup.trans hrot)

/-- A key event leaves the startup time as it is, or sets it from zero to the
clock value of the event. -/
theorem tetris_keyChanged_gameStartTime (s : TetrisState) (down : Keys) (now r : Nat) :
    (keyChanged s down now r).1.gameStartTime = s.gameStartTime
    ∨ (s.gameStartTime = 0 ∧ (keyChanged s down now r).1.gameStartTime = now) := by
  unfold keyChanged
  dsimp only
  split_ifs with h0
  · exact Or.inr ⟨h0, rfl⟩
  · exact Or.inl rfl
  · exact Or.inl (tetris_okButton_gameStartTime _ _ _)
  · exact Or.inl ((gameKeys_gameStartTime _ _ _).trans (tetris_okButton_gameStartTime _ _ _))

theorem placePiece_gameStartTime (s : TetrisState) :
    (placePiece s).gameStartTime = s.gameStartTime := by
  have h := placePiece_frame s
  rw [h]

theorem scoreLines_gameStartTime (s : TetrisState) (k : Nat) :
    (scoreLines s k).gameStartTime = s.gameStartTime := by
  unfold scoreLines
  dsimp only
  split_ifs <;> rfl

theorem tetris_render_gameStartTime (s s' : TetrisState) (now r : Nat) (popped : Bool)
    (hr : render s now r = some (s', popped)) : s'.gameStartTime = s.gameStartTime := by
  have hp := placePiece_gameStartTime s
  unfold render at hr
  split_ifs at hr
  · simp only [Option.some.injEq, Prod.mk.injEq] at hr
    rw [← hr.1]
  · simp only [Option.some.injEq, Prod.mk.injEq] at hr
    rw [← hr.1]
  · simp only [Option.some.injEq, Prod.mk.injEq] at hr
    rw [← hr.1]
  · dsimp only at hr
    generalize placePiece s = t at hr hp
    cases hcl : clearLines t.grid with
    | none => rw [hcl] at hr; exact absurd hr (by simp)
    | some res =>
      obtain ⟨g, k⟩ := res
      rw [hcl] at hr
      simp only [Option.some.injEq, Prod.mk.injEq] at hr
      rw [← hr.1]
      show (spawnPiece r (scoreLines { t with grid := g } k)).gameStartTime = s.gameStartTime
      rw [spawnPiece_gameStartTime, scoreLines_gameStartTime]
      exact hp
  · simp only [Option.some.injEq, Prod.mk.injEq] at hr
    rw [← hr.1]

theorem tetris_startedAfter_of_reachableAt (entry t : Nat) (s : TetrisState)
    (h : ReachableAt entry t s) : entry ≤ t ∧ StartedAfter entry t s := by
  induction h with
  | init r hold =>
    refine ⟨le_refl _, Or.inl ?_⟩
    unfold init
    rw [spawnPiece_gameStartTime]
  | key t t' s s' down r _ hle hk ih =>
    refine ⟨le_trans ih.1 hle, ?_⟩
    have hcases := tetris_keyChanged_gameStartTime s down (t' % 4294967296) r
    rw [hk] at hcases
    rcases hcases with h | ⟨_, h⟩
    · rcases ih.2 with h0 | ⟨τ, h1, h2, h3⟩
      · exact Or.inl (h.trans h0)
      · exact Or.inr ⟨τ, h1, le_trans h2 hle, h.trans h3⟩
    · exact Or.inr ⟨t', le_trans ih.1 hle, le_refl _, h⟩
  | tick t t' s s' r _ hle hr ih =>
    refine ⟨le_trans ih.1 hle, ?_⟩
    have h := tetris_render_gameStartTime s s' _ r false hr
    rcases ih.2 with h0 | ⟨τ, h1, h2, h3⟩
    · exact Or.inl (h.trans h0)
    · exact Or.inr ⟨τ, h1, le_trans h2 hle, h.trans h3⟩

/-- Before 500 ms have passed since the screen entry, the startup test of
`keyChanged` holds. -/
theorem tetris_startup_test_of_reachableAt (entry t t' : Nat) (s : TetrisState)
    (h : ReachableAt entry t s) (hle : t ≤ t') (hlt : t' < entry + 500) :
    s.gameStartTime = 0 ∨ sub32 (t' % 4294967296) s.gameStartTime < 500 := by
  rcases (tetris_startedAfter_of_reachableAt entry t s h).2 with h0 | ⟨τ, h1, h2, h3⟩
  · exact Or.inl h0
  · right
    rw [h3, sub32_mod t' τ (by omega) (by omega)]
    omega

end Tetris

namespace Snake

open Direction

theorem gameKeys_okHoldStart (down : Keys) (rands : List (Nat × Nat)) (s t : SnakeState)
    (h : gameKeys down rands s = some t) : t.okHoldStart = s.okHoldStart := by
  have a : (turnNorth down s).okHoldStart = s.okHoldStart := by
    unfold turnNorth
    split_ifs
    · split <;> rfl
    · rfl
  have b : (turnSouth down (turnNorth down s)).okHoldStart
      = (turnNorth down s).okHoldStart := by
    unfold turnSouth
    split_ifs
    · split <;> rfl
    · rfl
  have c : (turnCancel down (turnSouth down (turnNorth down s))).okHoldStart
      = (turnSouth down (turnNorth down s)).okHoldStart := by
    unfold turnCancel
    split_ifs <;> first | rfl | (split <;> rfl)
  unfold gameKeys at h
  split_ifs at h
  · obtain ⟨⟨c, _, hs⟩, _⟩ := spawnFood_some rands _ t h
    rw [hs]
    rfl
  · simp only [Option.some.injEq] at h
    rw [← h]
  · simp only [Option.some.injEq] at h
    rw [← h]
  · simp only [Option.some.injEq] at h
    rw [← h]
    exact c.trans (b.trans a)

/-- The press of Ok with no hold in progress records the clock value. -/
theorem okButton_press (s : SnakeState) (down : Keys) (now : Nat)
    (hok : down.ok = true) (hh : s.okHoldStart = 0) :
    okButton s down now = ({ s with okHoldStart := now }, false) := by
  unfold okButton
  rw [if_pos hok, if_pos hh]

end Snake

namespace Tetris

theorem tetris_gameKeys_okHoldStart (down : Keys) (r : Nat) (s : TetrisState) :
    (gameKeys down r s).okHoldStart = s.okHoldStart := by
  have hrot : (rotatePiece down s).okHoldStart = s.okHoldStart := by
    unfold rotatePiece
    dsimp only
    split_ifs <;> rfl
  have hup : (moveUp down (rotatePiece down s)).okHoldStart
      = (rotatePiece down s).okHoldStart := by
    unfold moveUp
    split_ifs <;> rfl
  have hdn : (moveDownKey down (moveUp down (rotatePiece down s))).okHoldStart
      = (moveUp down (rotatePiece down s)).okHoldStart := by
    unfold moveDownKey
    split_ifs <;> rfl
  unfold gameKeys
  split_ifs
  · unfold resetGame
    rw [spawnPiece_eq]
    split_ifs <;> rfl
  · rfl
  · rfl
  · exact hdn.trans (hup.trans hrot)

/-- The press of Ok with no hold in progress records the clock value. -/
theorem tetris_okButton_press (s : TetrisState) (down : Keys) (now : Nat)
    (hok : down.ok = true) (hh : s.okHoldStart = 0) :
    okButton s down now = ({ s with okHoldStart := now }, false) := by
  unfold okButton
  rw [if_pos hok, if_pos hh]

end Tetris

/-- C13. Past the startup window, in either engine: a key event with Ok down
and no hold in progress records the clock value `t0` in `okHoldStart`; with a
press recorded (`okHoldStart` holds its clock value, which is not zero) a key
event at `t1` with Ok up, `held` being `t1 - okHoldStart` as a 32-bit
difference, pops the panel and leaves `paused` as it is when `held > 1000`,
and toggles `paused` without popping when `held <= 1000` and the game is not
over.  For `t0 <= t1 < 2^32` the 32-bit difference is `t1 - t0`. -/
theorem gesture_timing :
    (∀ (s : Snake.SnakeState) (down : Keys) (t1 : Nat) (rands : List (Nat × Nat)),
      s.gameStartTime ≠ 0 → 500 ≤ sub32 t1 s.gameStartTime →
      (down.ok = true → s.okHoldStart = 0 → ∀ r, Snake.keyChanged s down t1 rands = some r →
        r.1.okHoldStart = t1 ∧ r.2 = false)
      ∧ (down.ok = false → 0 < s.okHoldStart →
        (1000 < sub32 t1 s.okHoldStart →
          ∃ s', Snake.keyChanged s down t1 rands = some (s', true) ∧ s'.paused = s.paused)
        ∧ (sub32 t1 s.okHoldStart ≤ 1000 → s.gameOver = false →
          ∃ s', Snake.keyChanged s down t1 rands = some (s', false)
            ∧ s'.paused = !s.paused)))
    ∧ (∀ (s : Tetris.TetrisState) (down : Keys) (t1 r : Nat),
      s.gameStartTime ≠ 0 → 500 ≤ sub32 t1 s.gameStartTime →
      (down.ok = true → s.okHoldStart = 0 →
        (Tetris.keyChanged s down t1 r).1.okHoldStart = t1
          ∧ (Tetris.keyChanged s down t1 r).2 = false)
      ∧ (down.ok = false → 0 < s.okHoldStart →
        (1000 < sub32 t1 s.okHoldStart →
          (Tetris.keyChanged s down t1 r).2 = true
            ∧ (Tetris.keyChanged s down t1 r).1.paused = s.paused)
        ∧ (sub32 t1 s.okHoldStart ≤ 1000 → s.gameOver = false →
          (Tetris.keyChanged s down t1 r).2 = false
            ∧ (Tetris.keyChanged s down t1 r).1.paused = !s.paused)))
    ∧ (∀ t0 t1 : Nat, t0 ≤ t1 → t1 < 4294967296 → sub32 t1 t0 = t1 - t0) := by
  refine ⟨?_, ?_, fun t0 t1 h1 h2 => sub32_of_le t1 t0 h1 h2⟩
  · intro s down t1 rands h0 h500
    refine ⟨?_, ?_⟩
    · intro hok hh r hr
      rw [Snake.keyChanged_past_startup s down t1 rands h0 h500,
        Snake.okButton_press { s with currentKeys := down } down t1 hok hh] at hr
      simp only [Bool.false_eq_true, if_false] at hr
      rw [Option.map_eq_some'] at hr
      obtain ⟨t, ht, heq⟩ := hr
      rw [← heq]
      exact ⟨Snake.gameKeys_okHoldStart down rands _ t ht, rfl⟩
    · intro hok hrec
      refine ⟨?_, ?_⟩
      · intro held
        rw [Snake.keyChanged_past_startup s down t1 rands h0 h500,
          Snake.okButton_long { s with currentKeys := down } down t1 hok hrec held]
        exact ⟨_, rfl, rfl⟩
      · intro held hg
        rw [Snake.keyChanged_past_startup s down t1 rands h0 h500,
          Snake.okButton_short { s with currentKeys := down } down t1 hok hrec held hg]
        simp only [Bool.false_eq_true, if_false]
        obtain ⟨t, ht, hpa⟩ := Snake.gameKeys_paused down rands
          { s with currentKeys := down, paused := !s.paused, okHoldStart := 0 } hg
        exact ⟨t, by rw [ht]; rfl, hpa⟩
  · intro s down t1 r h0 h500
    refine ⟨?_, ?_⟩
    · intro hok hh
      rw [Tetris.tetris_keyChanged_past_startup s down t1 r h0 h500,
        Tetris.tetris_okButton_press { s with currentKeys := down } down t1 hok hh]
      simp only [Bool.false_eq_true, if_false]
      exact ⟨Tetris.tetris_gameKeys_okHoldStart down r _, trivial⟩
    · intro hok hrec
      refine ⟨?_, ?_⟩
      · intro held
        rw [Tetris.tetris_keyChanged_past_startup s down t1 r h0 h500,
          Tetris.tetris_okButton_long { s with currentKeys := down } down t1 hok hrec held]
        exact ⟨rfl, rfl⟩
      · intro held hg
        rw [Tetris.tetris_keyChanged_past_startup s down t1 r h0 h500,
          Tetris.tetris_okButton_short { s with currentKeys := down } down t1 hok hrec held hg]
        simp only [Bool.false_eq_true, if_false]
        exact ⟨trivial, Tetris.tetris_gameKeys_paused down r
          { s with currentKeys := down, paused := !s.paused, okHoldStart := 0 } hg⟩

theorem gesture_timing_witness :
    (1000 < sub32 5500 Snake.snakeHolding.okHoldStart
      ∧ ∃ s', Snake.keyChanged Snake.snakeHolding Keys.none 5500 [] = some (s', true)
          ∧ s'.paused = Snake.snakeHolding.paused)
    ∧ (sub32 4300 Tetris.tetrisHolding.okHoldStart ≤ 1000
      ∧ (Tetris.keyChanged Tetris.tetrisHolding Keys.none 4300 0).2 = false
      ∧ (Tetris.keyChanged Tetris.tetrisHolding Keys.none 4300 0).1.paused
          = !Tetris.tetrisHolding.paused) :=
  ⟨⟨by decide,
    ((gesture_timing.1 Snake.snakeHolding Keys.none 5500 [] (by decide) (by decide)).2
      rfl (by decide)).1 (by decide)⟩,
   ⟨by decide,
    ((gesture_timing.2.1 Tetris.tetrisHolding Keys.none 4300 0 (by decide) (by decide)).2
      rfl (by decide)).2 (by decide) (by decide)⟩⟩

/-- C14. In either engine, a key event delivered before 500 ms have passed
since the screen entry is ignored: the handler returns without popping the
panel and without recording a hold start, and `paused`, `gameOver`, the
score, the directions, the body and the food (snake), the piece, its pose,
the grid, lines and level (Tetris) are unchanged. -/
theorem startup_suppression :
    (∀ (entry t : Nat) (s : Snake.SnakeState), Snake.ReachableAt entry t s →
      ∀ (t' : Nat) (down : Keys) (rands : List (Nat × Nat)), t ≤ t' → t' < entry + 500 →
      ∃ s', Snake.keyChanged s down (t' % 4294967296) rands = some (s', false)
        ∧ s'.paused = s.paused ∧ s'.gameOver = s.gameOver ∧ s'.score = s.score
        ∧ s'.direction = s.direction ∧ s'.nextDirection = s.nextDirection
        ∧ s'.snake = s.snake ∧ s'.snakeLength = s.snakeLength ∧ s'.foodPos = s.foodPos
        ∧ (s'.okHoldStart = 0 ∨ s'.okHoldStart = s.okHoldStart))
    ∧ (∀ (entry t : Nat) (s : Tetris.TetrisState), Tetris.ReachableAt entry t s →
      ∀ (t' : Nat) (down : Keys) (r : Nat), t ≤ t' → t' < entry + 500 →
      (Tetris.keyChanged s down (t' % 4294967296) r).2 = false
      ∧ (Tetris.keyChanged s down (t' % 4294967296) r).1.paused = s.paused
      ∧ (Tetris.keyChanged s down (t' % 4294967296) r).1.gameOver = s.gameOver
      ∧ (Tetris.keyChanged s down (t' % 4294967296) r).1.score = s.score
      ∧ (Tetris.keyChanged s down (t' % 4294967296) r).1.lines = s.lines
      ∧ (Tetris.keyChanged s down (t' % 4294967296) r).1.level = s.level
      ∧ (Tetris.keyChanged s down (t' % 4294967296) r).1.currentPiece = s.currentPiece
      ∧ (Tetris.keyChanged s down (t' % 4294967296) r).1.pieceX = s.pieceX
      ∧ (Tetris.keyChanged s down (t' % 4294967296) r).1.pieceY = s.pieceY
      ∧ (Tetris.keyChanged s down (t' % 4294967296) r).1.pieceRotation = s.pieceRotation
      ∧ (Tetris.keyChanged s down (t' % 4294967296) r).1.grid = s.grid
      ∧ ((Tetris.keyChanged s down (t' % 4294967296) r).1.okHoldStart = 0
          ∨ (Tetris.keyChanged s down (t' % 4294967296) r).1.okHoldStart = s.okHoldStart)) := by
  constructor
  · intro entry t s hs t' down rands hle hlt
    exact Snake.keyChanged_startup s down _ rands
      (Snake.startup_test_of_reachableAt entry t t' s hs hle hlt)
  · intro entry t s hs t' down r hle hlt
    exact Tetris.tetris_keyChanged_startup s down _ r
      (Tetris.tetris_startup_test_of_reachableAt entry t t' s hs hle hlt)

theorem startup_suppression_witness :
    Snake.ReachableAt 1000 1000 Snake.snakeStart
    ∧ ∃ s', Snake.keyChanged Snake.snakeStart Snake.northDown (1200 % 4294967296) []
          = some (s', false)
        ∧ s'.paused = Snake.snakeStart.paused ∧ s'.gameOver = Snake.snakeStart.gameOver
        ∧ s'.score = Snake.snakeStart.score ∧ s'.direction = Snake.snakeStart.direction
        ∧ s'.nextDirection = Snake.snakeStart.nextDirection
        ∧ s'.snake = Snake.snakeStart.snake
        ∧ s'.snakeLength = Snake.snakeStart.snakeLength
        ∧ s'.foodPos = Snake.snakeStart.foodPos
        ∧ (s'.okHoldStart = 0 ∨ s'.okHoldStart = Snake.snakeStart.okHoldStart) :=
  ⟨Snake.ReachableAt.init [(5, 5)] 0 Snake.snakeStart (by decide),
   startup_suppression.1 1000 1000 Snake.snakeStart
     (Snake.ReachableAt.init [(5, 5)] 0 Snake.snakeStart (by decide))
     1200 Snake.northDown [] (by decide) (by decide)⟩

/-- C19. While `paused` is true and `gameOver` is false, in either engine a
key event that does not end a press of Ok (Ok is down, or no press is
recorded) returns without popping the panel and leaves the game state as it
is, whatever buttons are down (snake: direction, nextDirection, body,
length, food, score; Tetris: piece, pose, grid, score, lines, level), and a
render tick does not advance the simulation (snake: `moveSnake` returns the
state and `render` changes none of these fields; Tetris: `render` returns
the state as it is). -/
theorem pause_gating :
    (∀ (s : Snake.SnakeState) (down : Keys) (now : Nat) (rands : List (Nat × Nat)),
      s.paused = true → s.gameOver = false → (down.ok = true ∨ s.okHoldStart = 0) →
      ∃ s', Snake.keyChanged s down now rands = some (s', false)
        ∧ s'.direction = s.direction ∧ s'.nextDirection = s.nextDirection
        ∧ s'.snake = s.snake ∧ s'.snakeLength = s.snakeLength ∧ s'.foodPos = s.foodPos
        ∧ s'.score = s.score ∧ s'.paused = true ∧ s'.gameOver = false)
    ∧ (∀ (s : Snake.SnakeState) (now : Nat) (rands : List (Nat × Nat)),
      s.paused = true →
      Snake.moveSnake s rands = some s
      ∧ ∃ s' popped, Snake.render s now rands = some (s', popped)
        ∧ s'.direction = s.direction ∧ s'.nextDirection = s.nextDirection
        ∧ s'.snake = s.snake ∧ s'.snakeLength = s.snakeLength ∧ s'.foodPos = s.foodPos
        ∧ s'.score = s.score ∧ s'.paused = true ∧ s'.gameOver = s.gameOver)
    ∧ (∀ (s : Tetris.TetrisState) (down : Keys) (now r : Nat),
      s.paused = true → s.gameOver = false → (down.ok = true ∨ s.okHoldStart = 0) →
      (Tetris.keyChanged s down now r).2 = false
      ∧ (Tetris.keyChanged s down now r).1.currentPiece = s.currentPiece
      ∧ (Tetris.keyChanged s down now r).1.pieceX = s.pieceX
      ∧ (Tetris.keyChanged s down now r).1.pieceY = s.pieceY
      ∧ (Tetris.keyChanged s down now r).1.pieceRotation = s.pieceRotation
      ∧ (Tetris.keyChanged s down now r).1.grid = s.grid
      ∧ (Tetris.keyChanged s down now r).1.score = s.score
      ∧ (Tetris.keyChanged s down now r).1.lines = s.lines
      ∧ (Tetris.keyChanged s down now r).1.level = s.level
      ∧ (Tetris.keyChanged s down now r).1.paused = true
      ∧ (Tetris.keyChanged s down now r).1.gameOver = false)
    ∧ (∀ (s : Tetris.TetrisState) (now r : Nat), s.paused = true →
      ∃ popped, Tetris.render s now r = some (s, popped)) := by
  refine ⟨?_, ?_, ?_, ?_⟩
  · intro s down now rands hp hg hok
    by_cases hwin : s.gameStartTime = 0 ∨ sub32 now s.gameStartTime < 500
    · obtain ⟨s', hk, a1, a2, a3, a4, a5, a6, a7, a8, _⟩ :=
        Snake.keyChanged_startup s down now rands hwin
      exact ⟨s', hk, a4, a5, a6, a7, a8, a3, a1.trans hp, a2.trans hg⟩
    · have h0 : s.gameStartTime ≠ 0 := fun h => hwin (Or.inl h)
      have h500 : 500 ≤ sub32 now s.gameStartTime := by
        by_contra hlt
        exact hwin (Or.inr (by omega))
      obtain ⟨hpop, hpa⟩ :=
        Snake.okButton_no_release { s with currentKeys := down } down now hok
      obtain ⟨f1, f2, f3, f4, f5, f6, f7⟩ :=
        Snake.okButton_frame { s with currentKeys := down } down now
      rw [Snake.keyChanged_past_startup s down now rands h0 h500, hpop]
      simp only [Bool.false_eq_true, if_false]
      rw [Snake.gameKeys_while_paused down rands _ (f7.trans hg) (hpa.trans hp)]
      exact ⟨_, rfl, f5, f6, f1, f2, f3, f4, hpa.trans hp, f7.trans hg⟩
  · intro s now rands hp
    have hm : Snake.moveSnake s rands = some s := by
      unfold Snake.moveSnake
      rw [if_pos (Or.inr hp)]
    refine ⟨hm, ?_⟩
    unfold Snake.render
    split_ifs
    · exact ⟨s, true, rfl, rfl, rfl, rfl, rfl, rfl, rfl, hp, rfl⟩
    · rw [hm]
      exact ⟨_, false, rfl, rfl, rfl, rfl, rfl, rfl, rfl, hp, rfl⟩
    · exact ⟨s, false, rfl, rfl, rfl, rfl, rfl, rfl, rfl, hp, rfl⟩
  · intro s down now r hp hg hok
    by_cases hwin : s.gameStartTime = 0 ∨ sub32 now s.gameStartTime < 500
    · obtain ⟨a0, a1, a2, a3, a4, a5, a6, a7, a8, a9, a10, _⟩ :=
        Tetris.tetris_keyChanged_startup s down now r hwin
      exact ⟨a0, a6, a7, a8, a9, a10, a3, a4, a5, a1.trans hp, a2.trans hg⟩
    · have h0 : s.gameStartTime ≠ 0 := fun h => hwin (Or.inl h)
      have h500 : 500 ≤ sub32 now s.gameStartTime := by
        by_contra hlt
        exact hwin (Or.inr (by omega))
      obtain ⟨hpop, hpa⟩ :=
        Tetris.tetris_okButton_no_release { s with currentKeys := down } down now hok
      obtain ⟨f1, f2, f3, f4, f5, f6, f7, f8, f9⟩ :=
        Tetris.tetris_okButton_frame { s with currentKeys := down } down now
      rw [Tetris.tetris_keyChanged_past_startup s down now r h0 h500, hpop]
      simp only [Bool.false_eq_true, if_false]
      rw [Tetris.tetris_gameKeys_while_paused down r _ (f9.trans hg) (hpa.trans hp)]
      exact ⟨trivial, f2, f3, f4, f5, f1, f6, f7, f8, hpa.trans hp, f9.trans hg⟩
  · intro s now r hp
    unfold Tetris.render
    by_cases h1 : s.southHoldStart > 0 ∧ sub32 now s.southHoldStart > 1000
    · rw [if_pos h1]
      exact ⟨true, rfl⟩
    · rw [if_neg h1, if_pos (Or.inl hp)]
      exact ⟨false, rfl⟩

theorem pause_gating_witness :
    (∃ s', Snake.keyChanged Snake.snakePaused Snake.northDown 5000 [] = some (s', false)
      ∧ s'.direction = Snake.snakePaused.direction
      ∧ s'.nextDirection = Snake.snakePaused.nextDirection
      ∧ s'.snake = Snake.snakePaused.snake
      ∧ s'.snakeLength = Snake.snakePaused.snakeLength
      ∧ s'.foodPos = Snake.snakePaused.foodPos
      ∧ s'.score = Snake.snakePaused.score ∧ s'.paused = true ∧ s'.gameOver = false)
    ∧ (Tetris.keyChanged Tetris.tetrisPaused Tetris.cancelDown 5000 0).1.pieceRotation
        = Tetris.tetrisPaused.pieceRotation :=
  ⟨pause_gating.1 Snake.snakePaused Snake.northDown 5000 [] (by decide) (by decide)
     (Or.inr (by decide)),
   (pause_gating.2.2.1 Tetris.tetrisPaused Tetris.cancelDown 5000 0 (by decide) (by decide)
     (Or.inr (by decide))).2.2.2.2.1⟩

namespace Tetris

/-- A run of the loop of `clearLines` that has left within some number of row
examinations leaves with the same result within any larger number. -/
theorem clearLinesLoop_more_fuel : ∀ (fuel : Nat) (g : Grid) (y : Int) (c : Nat)
    (res : Grid × Nat), clearLinesLoop fuel g y c = some res →
    ∀ extra, clearLinesLoop (fuel + extra) g y c = some res := by
  intro fuel
  induction fuel with
  | zero =>
    intro g y c res h extra
    simp only [clearLinesLoop] at h
    split_ifs at h with hy
    cases extra with
    | zero => simp only [Nat.add_zero, clearLinesLoop, if_pos hy]; exact h
    | succ e => simp only [Nat.zero_add, clearLinesLoop, if_pos hy]; exact h
  | succ fuel ih =>
    intro g y c res h extra
    have e : fuel + 1 + extra = (fuel + extra) + 1 := by omega
    rw [e]
    simp only [clearLinesLoop] at h ⊢
    split_ifs at h ⊢ with hy hf
    · exact h
    · exact ih _ _ _ _ h extra
    · exact ih _ _ _ _ h extra

theorem isFullRow_of_mem_keptRows (rows : List (List Nat)) (r : List Nat)
    (h : r ∈ keptRows rows) : isFullRow r = false := by
  unfold keptRows at h
  have := (List.mem_filter.mp h).2
  simpa using this

/-- After `clearLines` no row of the grid is full. -/
theorem no_full_row_after (g g' : Grid)
    (h : toRows g' = List.replicate (fullCount (toRows g)) zeroRow ++ keptRows (toRows g)) :
    ∀ y, y < BOARD_HEIGHT → fullLine g' y = false := by
  intro y hy
  rw [fullLine_eq]
  have hlen : y < (toRows g').length := by rw [toRows_length]; exact hy
  have hmem : rowOf g' y ∈ toRows g' := by
    rw [← toRows_getElem g' y hlen]
    exact List.getElem_mem _
  rw [h] at hmem
  rcases List.mem_append.mp hmem with h1 | h2
  · rw [(List.mem_replicate.mp h1).2]
    exact zeroRow_not_full
  · exact isFullRow_of_mem_keptRows _ _ h2

/-- C24. For every grid with `k` full rows the row loop of `clearLines`
leaves after at most `10 + k` row examinations, with the result of
`clearLines`; the grid after the call has no full row, and a second call
returns 0 and the grid as it is. -/
theorem clearLines_terminates_idempotent (g : Grid) :
    ∃ g', clearLinesLoop (10 + ((toRows g).filter isFullRow).length) g 9 0
          = some (g', ((toRows g).filter isFullRow).length)
      ∧ clearLines g = some (g', ((toRows g).filter isFullRow).length)
      ∧ (∀ y, y < 10 → fullLine g' y = false)
      ∧ (∀ r, r ∈ toRows g' → isFullRow r = false)
      ∧ clearLines g' = some (g', 0) := by
  have hlen := toRows_length g
  have hk := fullCount_le_length (toRows g)
  have htake : (toRows g).take BOARD_HEIGHT = toRows g :=
    List.take_of_length_le (by omega)
  have hdrop : (toRows g).drop BOARD_HEIGHT = [] :=
    List.drop_of_length_le (by omega)
  have hc : fullCount (toRows g) = ((toRows g).filter isFullRow).length := by
    simp [fullCount, List.countP_eq_length_filter]
  obtain ⟨g', hrun, hres⟩ := clearLinesLoop_spec (BOARD_HEIGHT + fullCount (toRows g)) g
    BOARD_HEIGHT 0 (le_refl _) (by rw [htake])
  rw [htake] at hrun hres
  rw [hdrop, List.append_nil] at hres
  have hfree := no_full_row_after g g' hres
  have hrun' : clearLinesLoop (10 + fullCount (toRows g)) g 9 0
      = some (g', fullCount (toRows g)) := by
    simpa [BOARD_HEIGHT] using hrun
  refine ⟨g', ?_, ?_, hfree, ?_, ?_⟩
  · rw [← hc]; exact hrun'
  · rw [← hc]
    have hmore := clearLinesLoop_more_fuel _ g 9 0 _ hrun' (10 - fullCount (toRows g))
    have hk10 : fullCount (toRows g) ≤ 10 := by
      rw [hlen] at hk
      exact hk
    have e : 10 + fullCount (toRows g) + (10 - fullCount (toRows g)) = 2 * BOARD_HEIGHT := by
      show _ = 2 * 10
      omega
    rw [e] at hmore
    simpa [clearLines, BOARD_HEIGHT] using hmore
  · intro r hr
    rw [hres] at hr
    rcases List.mem_append.mp hr with h1 | h2
    · rw [(List.mem_replicate.mp h1).2]
      exact zeroRow_not_full
    · exact isFullRow_of_mem_keptRows _ _ h2
  · have := clearLinesLoop_no_full (2 * BOARD_HEIGHT) g' BOARD_HEIGHT 0
      (by simp [BOARD_HEIGHT]) hfree
    simpa [clearLines] using this

end Tetris

namespace Snake

open Direction

theorem exclusive_congr (s t : SnakeState) (hp : t.paused = s.paused)
    (hg : t.gameOver = s.gameOver) (h : NotPausedAndOver s) : NotPausedAndOver t := by
  unfold NotPausedAndOver at h ⊢
  rw [hp, hg]
  exact h

theorem exclusive_okButton (s : SnakeState) (down : Keys) (now : Nat)
    (h : NotPausedAndOver s) : NotPausedAndOver (okButton s down now).1 := by
  unfold okButton
  dsimp only
  split_ifs with h1 h2 h3 h4 h5
  · exact h
  · exact h
  · exact h
  · intro hboth
    have hg : s.gameOver = false := by simpa using h5
    rw [hg] at hboth
    exact absurd hboth.2 (by decide)
  · exact h
  · exact h

theorem exclusive_of_unpaused (t : SnakeState) (hp : t.paused = false) :
    NotPausedAndOver t := by
  intro hboth
  rw [hp] at hboth
  exact absurd hboth.1 (by decide)

theorem spawnFood_flags (rands : List (Nat × Nat)) (s s' : SnakeState)
    (hs : spawnFood s rands = some s') :
    s'.paused = s.paused ∧ s'.gameOver = s.gameOver := by
  obtain ⟨⟨c, _, he⟩, _⟩ := spawnFood_some rands s s' hs
  rw [he]
  exact ⟨rfl, rfl⟩

theorem exclusive_gameKeys (down : Keys) (rands : List (Nat × Nat)) (s t : SnakeState)
    (h : NotPausedAndOver s) (hk : gameKeys down rands s = some t) :
    NotPausedAndOver t := by
  unfold gameKeys at hk
  split_ifs at hk
  · have hfl := (spawnFood_flags rands _ t hk).1
    exact exclusive_of_unpaused t hfl
  · simp only [Option.some.injEq] at hk
    rw [← hk]; exact h
  · simp only [Option.some.injEq] at hk
    rw [← hk]; exact h
  · simp only [Option.some.injEq] at hk
    rw [← hk]
    obtain ⟨_, _, _, _, _, f6, f7⟩ := turns_frame down s
    exact exclusive_congr s _ f7 f6 h

theorem exclusive_keyChanged (s s' : SnakeState) (down : Keys) (now : Nat)
    (rands : List (Nat × Nat)) (popped : Bool) (h : NotPausedAndOver s)
    (hk : keyChanged s down now rands = some (s', popped)) : NotPausedAndOver s' := by
  have h0 : NotPausedAndOver { s with currentKeys := down } := exclusive_congr s _ rfl rfl h
  unfold keyChanged at hk
  dsimp only at hk
  split_ifs at hk
  · simp only [Option.some.injEq, Prod.mk.injEq] at hk
    rw [← hk.1]; exact exclusive_congr _ _ rfl rfl h0
  · simp only [Option.some.injEq, Prod.mk.injEq] at hk
    rw [← hk.1]; exact h0
  · simp only [Option.some.injEq, Prod.mk.injEq] at hk
    rw [← hk.1]; exact exclusive_okButton _ _ _ h0
  · rw [Option.map_eq_some'] at hk
    obtain ⟨t, ht, heq⟩ := hk
    simp only [Prod.mk.injEq] at heq
    rw [← heq.1]
    exact exclusive_gameKeys down rands _ t (exclusive_okButton _ _ _ h0) ht

theorem exclusive_moveSnake (s s' : SnakeState) (rands : List (Nat × Nat))
    (h : NotPausedAndOver s) (hm : moveSnake s rands = some s') : NotPausedAndOver s' := by
  by_cases hg : s.gameOver = false
  swap
  · rw [moveSnake_gameOver s rands (by simpa using hg)] at hm
    simp only [Option.some.injEq] at hm
    rw [← hm]; exact h
  by_cases hp : s.paused = false
  swap
  · have : moveSnake s rands = some s := by
      unfold moveSnake
      rw [if_pos (Or.inr (by simpa using hp))]
    rw [this] at hm
    simp only [Option.some.injEq] at hm
    rw [← hm]; exact h
  rw [moveSnake_active s rands hg hp] at hm
  split_ifs at hm
  · simp only [Option.some.injEq] at hm
    rw [← hm]
    intro hboth
    have : s.paused = true := hboth.1
    rw [hp] at this
    exact absurd this (by decide)
  · have hfl := spawnFood_flags rands _ s' hm
    exact exclusive_congr s s' hfl.1 hfl.2 h
  · simp only [Option.some.injEq] at hm
    rw [← hm]; exact exclusive_congr s _ rfl rfl h

theorem exclusive_of_reachable (s : SnakeState) (hs : Reachable s) : NotPausedAndOver s := by
  induction hs with
  | init now rands hold s h =>
    unfold init at h
    have hfl := (spawnFood_flags rands _ s h).1
    exact exclusive_of_unpaused s hfl
  | step s s' e _ he ih =>
    cases e with
    | key down now rands => exact exclusive_keyChanged s s' down now rands false ih he
    | tick now rands =>
      have hr : render s now rands = some (s', false) := he
      unfold render at hr
      split_ifs at hr
      · simp only [Option.some.injEq, Prod.mk.injEq] at hr
        exact absurd hr.2 (by decide)
      · rw [Option.map_eq_some'] at hr
        obtain ⟨t, ht, heq⟩ := hr
        simp only [Prod.mk.injEq] at heq
        rw [← heq.1]
        exact exclusive_congr t _ rfl rfl (exclusive_moveSnake s t rands ih ht)
      · simp only [Option.some.injEq, Prod.mk.injEq] at hr
        rw [← hr.1]; exact ih

end Snake

namespace Tetris

theorem tetris_exclusive_congr (s t : TetrisState) (hp : t.paused = s.paused)
    (hg : t.gameOver = s.gameOver) (h : NotPausedAndOver s) : NotPausedAndOver t := by
  unfold NotPausedAndOver at h ⊢
  rw [hp, hg]
  exact h

theorem tetris_exclusive_of_unpaused (t : TetrisState) (hp : t.paused = false) :
    NotPausedAndOver t := by
  intro hboth
  rw [hp] at hboth
  exact absurd hboth.1 (by decide)

theorem tetris_exclusive_okButton (s : TetrisState) (down : Keys) (now : Nat)
    (h : NotPausedAndOver s) : NotPausedAndOver (okButton s down now).1 := by
  unfold okButton
  dsimp only
  split_ifs with h1 h2 h3 h4 h5
  · exact h
  · exact h
  · exact h
  · intro hboth
    have hg : s.gameOver = false := by simpa using h5
    rw [hg] at hboth
    exact absurd hboth.2 (by decide)
  · exact h
  · exact h

theorem tetris_exclusive_gameKeys (down : Keys) (r : Nat) (s : TetrisState)
    (h : NotPausedAndOver s) : NotPausedAndOver (gameKeys down r s) := by
  unfold gameKeys
  split_ifs
  · unfold resetGame
    exact tetris_exclusive_of_unpaused _ (spawnPiece_frame r _).2.2.2.2.2.2.2.2
  · exact h
  · exact h
  · obtain ⟨_, _, _, _, _, _, _, d8, d9⟩ :=
      moveDownKey_frame down (moveUp down (rotatePiece down s))
    obtain ⟨_, _, _, _, _, _, _, u8, u9⟩ := moveUp_frame down (rotatePiece down s)
    obtain ⟨_, _, _, _, _, _, _, r8, r9⟩ := rotatePiece_frame down s
    exact tetris_exclusive_congr s _ (d9.trans (u9.trans r9)) (d8.trans (u8.trans r8)) h

theorem tetris_exclusive_keyChanged (s : TetrisState) (down : Keys) (now r : Nat)
    (h : NotPausedAndOver s) : NotPausedAndOver (keyChanged s down now r).1 := by
  have h0 : NotPausedAndOver { s with currentKeys := down } :=
    tetris_exclusive_congr s _ rfl rfl h
  unfold keyChanged
  dsimp only
  split_ifs
  · exact tetris_exclusive_congr _ _ rfl rfl h0
  · exact h0
  · exact tetris_exclusive_okButton _ _ _ h0
  · exact tetris_exclusive_gameKeys _ _ _ (tetris_exclusive_okButton _ _ _ h0)

theorem placePiece_paused (s : TetrisState) : (placePiece s).paused = s.paused := by
  have h := placePiece_frame s
  rw [h]

theorem tetris_exclusive_render (s s' : TetrisState) (now r : Nat) (popped : Bool)
    (h : NotPausedAndOver s) (hr : render s now r = some (s', popped)) :
    NotPausedAndOver s' := by
  have hpp := placePiece_paused s
  unfold render at hr
  split_ifs at hr with h1 h2 h3 h4
  · simp only [Option.some.injEq, Prod.mk.injEq] at hr
    rw [← hr.1]; exact h
  · simp only [Option.some.injEq, Prod.mk.injEq] at hr
    rw [← hr.1]; exact h
  · simp only [Option.some.injEq, Prod.mk.injEq] at hr
    rw [← hr.1]; exact tetris_exclusive_congr s _ rfl rfl h
  · have hp : s.paused = false := by
      by_contra hne
      exact h2 (Or.inl (by simpa using hne))
    dsimp only at hr
    generalize placePiece s = t at hr hpp
    cases hcl : clearLines t.grid with
    | none => rw [hcl] at hr; exact absurd hr (by simp)
    | some res =>
      obtain ⟨g, k⟩ := res
      rw [hcl] at hr
      simp only [Option.some.injEq, Prod.mk.injEq] at hr
      rw [← hr.1]
      apply tetris_exclusive_of_unpaused
      show (spawnPiece r (scoreLines { t with grid := g } k)).paused = false
      rw [(spawnPiece_frame r _).2.2.2.2.2.2.2.2, (scoreLines_spec _ k).2.2.1]
      exact hpp.trans hp
  · simp only [Option.some.injEq, Prod.mk.injEq] at hr
    rw [← hr.1]; exact h

theorem tetris_exclusive_of_reachable (s : TetrisState) (hs : Reachable s) :
    NotPausedAndOver s := by
  induction hs with
  | init now r hold =>
    unfold init
    exact tetris_exclusive_of_unpaused _ (spawnPiece_frame r _).2.2.2.2.2.2.2.2
  | key s s' down now r _ hk ih =>
    have := tetris_exclusive_keyChanged s down now r ih
    rw [hk] at this
    exact this
  | tick s s' now r _ hr ih => exact tetris_exclusive_render s s' now r false ih hr

end Tetris

/-- C23. In every reachable state of the snake engine and in every reachable
state of the Tetris engine, `paused` and `gameOver` are not both true. -/
theorem paused_excludes_gameOver :
    (∀ s : Snake.SnakeState, Snake.Reachable s → ¬ (s.paused = true ∧ s.gameOver = true))
    ∧ (∀ s : Tetris.TetrisState, Tetris.Reachable s →
        ¬ (s.paused = true ∧ s.gameOver = true)) :=
  ⟨Snake.exclusive_of_reachable, Tetris.tetris_exclusive_of_reachable⟩

theorem paused_excludes_gameOver_witness :
    Snake.Reachable Snake.snakeStart
    ∧ ¬ (Snake.snakeStart.paused = true ∧ Snake.snakeStart.gameOver = true) :=
  ⟨Snake.Reachable.init 1000 [(5, 5)] 0 Snake.snakeStart Snake.init_snakeStart,
   paused_excludes_gameOver.1 Snake.snakeStart
     (Snake.Reachable.init 1000 [(5, 5)] 0 Snake.snakeStart Snake.init_snakeStart)⟩

namespace Snake

open Direction

theorem opposite_ne (d : Direction) : d ≠ opposite d := by
  cases d <;> decide

theorem noReverse_congr (s t : SnakeState) (hd : t.direction = s.direction)
    (hn : t.nextDirection = s.nextDirection) (h : NoReverse s) : NoReverse t := by
  unfold NoReverse at h ⊢
  rw [hd, hn]
  exact h

theorem noReverse_turnNorth (down : Keys) (s : SnakeState) (h : NoReverse s) :
    NoReverse (turnNorth down s) := by
  by_cases hk : down.north = true
  · unfold NoReverse
    rw [turnNorth_next down s hk, (turnNorth_frame down s).2.2.2.2.1]
    cases s.direction <;> decide
  · rw [turnNorth_up down s (by simpa using hk)]
    exact h

theorem noReverse_turnSouth (down : Keys) (s : SnakeState) (h : NoReverse s) :
    NoReverse (turnSouth down s) := by
  by_cases hk : down.south = true
  · unfold NoReverse
    rw [turnSouth_next down s hk, (turnSouth_frame down s).2.2.2.2.1]
    cases s.direction <;> decide
  · rw [turnSouth_up down s (by simpa using hk)]
    exact h

theorem turnCancel_next (down : Keys) (s : SnakeState) (h : down.cancel = true) :
    (turnCancel down s).nextDirection = clockwise s.direction := by
  unfold turnCancel
  rw [if_pos h]
  cases hd : s.direction <;> simp [clockwise]

theorem noReverse_turnCancel (down : Keys) (s : SnakeState) (h : NoReverse s) :
    NoReverse (turnCancel down s) := by
  by_cases hk : down.cancel = true
  · unfold NoReverse
    rw [turnCancel_next down s hk, (turnCancel_frame down s).2.2.2.2.1]
    cases s.direction <;> decide
  · rw [turnCancel_up down s (by simpa using hk)]
    exact h

theorem spawnFood_directions (rands : List (Nat × Nat)) (t s' : SnakeState)
    (h : spawnFood t rands = some s') :
    s'.direction = t.direction ∧ s'.nextDirection = t.nextDirection := by
  obtain ⟨⟨c, _, hs⟩, _⟩ := spawnFood_some rands _ _ h
  rw [hs]
  exact ⟨rfl, rfl⟩

theorem noReverse_startBody (rands : List (Nat × Nat)) (t s' : SnakeState)
    (h : spawnFood (startBody t) rands = some s') : NoReverse s' := by
  obtain ⟨h1, h2⟩ := spawnFood_directions rands _ s' h
  unfold NoReverse
  rw [h1, h2]
  show DIR_LEFT ≠ opposite DIR_LEFT
  decide

theorem okButton_nextDirection (s : SnakeState) (down : Keys) (now : Nat) :
    (okButton s down now).1.nextDirection = s.nextDirection ∧
    (okButton s down now).1.direction = s.direction := by
  obtain ⟨_, _, _, _, f5, f6, _⟩ := okButton_frame s down now
  exact ⟨f6, f5⟩

theorem noReverse_keyChanged (s s' : SnakeState) (down : Keys) (now : Nat)
    (rands : List (Nat × Nat)) (popped : Bool) (h : NoReverse s)
    (hk : keyChanged s down now rands = some (s', popped)) : NoReverse s' := by
  have h0 : NoReverse { s with currentKeys := down } := noReverse_congr s _ rfl rfl h
  have hok : NoReverse (okButton { s with currentKeys := down } down now).1 :=
    noReverse_congr _ _ (okButton_nextDirection _ _ _).2 (okButton_nextDirection _ _ _).1 h0
  unfold keyChanged at hk
  dsimp only at hk
  split_ifs at hk
  · simp only [Option.some.injEq, Prod.mk.injEq] at hk
    rw [← hk.1]; exact noReverse_congr _ _ rfl rfl h0
  · simp only [Option.some.injEq, Prod.mk.injEq] at hk
    rw [← hk.1]; exact h0
  · simp only [Option.some.injEq, Prod.mk.injEq] at hk
    rw [← hk.1]; exact hok
  · rw [Option.map_eq_some'] at hk
    obtain ⟨t, ht, heq⟩ := hk
    simp only [Prod.mk.injEq] at heq
    rw [← heq.1]
    unfold gameKeys at ht
    split_ifs at ht
    · exact noReverse_startBody rands _ t ht
    · simp only [Option.some.injEq] at ht
      rw [← ht]; exact hok
    · simp only [Option.some.injEq] at ht
      rw [← ht]; exact hok
    · simp only [Option.some.injEq] at ht
      rw [← ht]
      exact noReverse_turnCancel _ _ (noReverse_turnSouth _ _ (noReverse_turnNorth _ _ hok))

/-- An advance leaves both directions as they are (game paused or over) or
commits the pending direction. -/
theorem moveSnake_directions (s s' : SnakeState) (rands : List (Nat × Nat))
    (hm : moveSnake s rands = some s') :
    (s'.direction = s.direction ∧ s'.nextDirection = s.nextDirection)
    ∨ (s'.direction = s.nextDirection ∧ s'.nextDirection = s.nextDirection) := by
  unfold moveSnake at hm
  dsimp only at hm
  split_ifs at hm
  · simp only [Option.some.injEq] at hm
    rw [← hm]; exact Or.inl ⟨rfl, rfl⟩
  · simp only [Option.some.injEq] at hm
    rw [← hm]; exact Or.inr ⟨rfl, rfl⟩
  · obtain ⟨⟨c, _, hs⟩, _⟩ := spawnFood_some rands _ _ hm
    rw [hs]; exact Or.inr ⟨rfl, rfl⟩
  · simp only [Option.some.injEq] at hm
    rw [← hm]; exact Or.inr ⟨rfl, rfl⟩

theorem noReverse_moveSnake (s s' : SnakeState) (rands : List (Nat × Nat))
    (h : NoReverse s) (hm : moveSnake s rands = some s') : NoReverse s' := by
  rcases moveSnake_directions s s' rands hm with ⟨h1, h2⟩ | ⟨h1, h2⟩
  · exact noReverse_congr s s' h1 h2 h
  · unfold NoReverse
    rw [h1, h2]
    exact opposite_ne _

theorem noReverse_of_within (s : SnakeState) (hs : ReachableWithin s) : NoReverse s := by
  induction hs with
  | init now rands hold s h =>
    unfold init at h
    obtain ⟨h1, h2⟩ := spawnFood_directions rands _ s h
    unfold NoReverse
    rw [h1, h2]
    show DIR_LEFT ≠ opposite DIR_LEFT
    decide
  | step s s' e _ he _ ih =>
    cases e with
    | key down now rands => exact noReverse_keyChanged s s' down now rands false ih he
    | tick now rands =>
      have hr : render s now rands = some (s', false) := he
      unfold render at hr
      split_ifs at hr
      · simp only [Option.some.injEq, Prod.mk.injEq] at hr
        exact absurd hr.2 (by decide)
      · rw [Option.map_eq_some'] at hr
        obtain ⟨t, ht, heq⟩ := hr
        simp only [Prod.mk.injEq] at heq
        rw [← heq.1]
        exact noReverse_congr t _ rfl rfl (noReverse_moveSnake s t rands ih ht)
      · simp only [Option.some.injEq, Prod.mk.injEq] at hr
        rw [← hr.1]; exact ih

/-- The direction that an advance commits from a state reachable within the
capacity of the body array is not the reverse of the direction before it. -/
theorem advance_not_reverse (s s' : SnakeState) (rands : List (Nat × Nat))
    (hs : ReachableWithin s) (hm : moveSnake s rands = some s') :
    s'.direction ≠ opposite s.direction := by
  rcases moveSnake_directions s s' rands hm with ⟨h1, _⟩ | ⟨h1, _⟩
  · rw [h1]; exact opposite_ne _
  · rw [h1]; exact noReverse_of_within s hs

/-- C21 (counterexample). Within the capacity of the body array there is no
reachable state, run of key events and render ticks from it, and advance
after the run that commits the exact reverse of the direction before that
advance. -/
theorem no_direct_reversal :
    ¬ ∃ (s : SnakeState) (es : List Event) (s1 : SnakeState) (rands : List (Nat × Nat))
        (s2 : SnakeState),
        ReachableWithin s ∧ runWithin s es = some s1 ∧ moveSnake s1 rands = some s2
          ∧ s2.direction = opposite s1.direction := by
  rintro ⟨s, es, s1, rands, s2, hs, hrun, hm, hrev⟩
  exact advance_not_reverse s1 s2 rands (reachableWithin_runWithin es s s1 hs hrun) hm hrev

/-- C21 (amended). The turn blocks for North and South set `nextDirection`
without a test against the reverse, yet in every state reachable within the
capacity of the body array `nextDirection` is `direction` or a quarter turn
from it, and the direction that an advance commits is never the reverse of
the direction before the advance. -/
theorem turn_buttons_never_reverse (s : SnakeState) (hs : ReachableWithin s) :
    (s.nextDirection = s.direction ∨ s.nextDirection = clockwise s.direction
      ∨ s.nextDirection = counterClockwise s.direction)
    ∧ (∀ rands s', moveSnake s rands = some s' → s'.direction ≠ opposite s.direction)
    ∧ (∀ down, down.north = true →
        (turnNorth down s).nextDirection = clockwise s.direction)
    ∧ (∀ down, down.south = true →
        (turnSouth down s).nextDirection = counterClockwise s.direction) := by
  refine ⟨?_, fun rands s' hm => advance_not_reverse s s' rands hs hm,
    fun down h => turnNorth_next down s h, fun down h => turnSouth_next down s h⟩
  have h := noReverse_of_within s hs
  unfold NoReverse at h
  revert h
  cases s.direction <;> cases s.nextDirection <;> decide

theorem turn_buttons_never_reverse_witness :
    ReachableWithin snakeTurned
    ∧ snakeTurned.direction = DIR_LEFT ∧ snakeTurned.nextDirection = DIR_UP
    ∧ snakeTurned.nextDirection = clockwise snakeTurned.direction
    ∧ ∀ rands s', moveSnake snakeTurned rands = some s' →
        s'.direction ≠ opposite snakeTurned.direction :=
  ⟨reachableWithin_runWithin turnOnce snakeStart snakeTurned
      (ReachableWithin.init 1000 [(5, 5)] 0 snakeStart init_snakeStart) (by decide),
   by decide, by decide, by decide,
   (turn_buttons_never_reverse snakeTurned
     (reachableWithin_runWithin turnOnce snakeStart snakeTurned
       (ReachableWithin.init 1000 [(5, 5)] 0 snakeStart init_snakeStart) (by decide))).2.1⟩

end Snake

namespace Snake

open Direction

/-- The release of Ok after a hold of at most 1000 ms clears the hold start
and does not pop the panel, whether the game is over or not. -/
theorem okButton_release_short (s : SnakeState) (down : Keys) (now : Nat)
    (hok : down.ok = false) (hrec : 0 < s.okHoldStart)
    (held : sub32 now s.okHoldStart ≤ 1000) :
    (okButton s down now).2 = false ∧ (okButton s down now).1.okHoldStart = 0 := by
  unfold okButton
  dsimp only
  rw [if_neg (by simp [hok]), if_pos hrec, if_neg (by omega)]
  exact ⟨rfl, rfl⟩

/-- The dispatch of the other buttons returns unless it restarts the game. -/
theorem gameKeys_returns (down : Keys) (rands : List (Nat × Nat)) (s : SnakeState)
    (h : s.gameOver = false ∨ down.cancel = false) : ∃ t, gameKeys down rands s = some t := by
  unfold gameKeys
  split_ifs with h1 h2 h3
  · rcases h with h | h
    · rw [h] at h1; exact absurd h1 (by decide)
    · rw [h] at h2; exact absurd h2 (by decide)
  · exact ⟨_, rfl⟩
  · exact ⟨_, rfl⟩
  · exact ⟨_, rfl⟩

theorem keyChanged_first (s : SnakeState) (down : Keys) (now : Nat)
    (rands : List (Nat × Nat)) (h : s.gameStartTime = 0) :
    ∃ s', keyChanged s down now rands = some (s', false) ∧ s'.okHoldStart = 0 := by
  unfold keyChanged
  dsimp only
  rw [if_pos h]
  exact ⟨_, rfl, rfl⟩

end Snake

namespace Tetris

/-- The release of Ok after a hold of at most 1000 ms clears the hold start
and does not pop the panel, whether the game is over or not. -/
theorem tetris_okButton_release_short (s : TetrisState) (down : Keys) (now : Nat)
    (hok : down.ok = false) (hrec : 0 < s.okHoldStart)
    (held : sub32 now s.okHoldStart ≤ 1000) :
    (okButton s down now).2 = false ∧ (okButton s down now).1.okHoldStart = 0 := by
  unfold okButton
  dsimp only
  rw [if_neg (by simp [hok]), if_pos hrec, if_neg (by omega)]
  exact ⟨rfl, rfl⟩

theorem tetris_keyChanged_first (s : TetrisState) (down : Keys) (now r : Nat)
    (h : s.gameStartTime = 0) :
    (keyChanged s down now r).2 = false ∧ (keyChanged s down now r).1.okHoldStart = 0 := by
  unfold keyChanged
  dsimp only
  rw [if_pos h]
  exact ⟨rfl, rfl⟩

end Tetris

/-- C22 (counterexample). The snake panel is entered at clock value 1000, a
first key event arrives at 1100, Ok goes down at 4000 and up at 5500: the
last event ends a hold of 1500 ms, pops the panel, and leaves `okHoldStart`
at 4000. -/
theorem exit_keeps_hold_start :
    ((Snake.runInit 1000 [(5, 5)] Snake.pressOk).bind
        (fun s => Snake.keyChanged s Keys.none 5500 [])).map
      (fun r => (r.2, r.1.okHoldStart)) = some (true, 4000) := by
  decide

/-- C22 (amended). Past the startup window, in either engine, a key event
with Ok up that ends a hold in progress (`okHoldStart` is not zero), `held`
being the 32-bit difference of the clock value and `okHoldStart`: when
`held <= 1000` no result pops the panel and `okHoldStart` is 0 afterwards,
whether the game is over or not (the snake handler returns unless the event
also restarts a finished game); when `held > 1000` the handler pops the
panel and `okHoldStart` keeps its value.  The first key event after a screen
entry (`gameStartTime` is 0) sets `okHoldStart` to 0. -/
theorem hold_reset_on_release :
    (∀ (s : Snake.SnakeState) (down : Keys) (t1 : Nat) (rands : List (Nat × Nat)),
      s.gameStartTime ≠ 0 → 500 ≤ sub32 t1 s.gameStartTime →
      down.ok = false → 0 < s.okHoldStart →
      (sub32 t1 s.okHoldStart ≤ 1000 →
        (∀ r, Snake.keyChanged s down t1 rands = some r → r.2 = false ∧ r.1.okHoldStart = 0)
        ∧ (s.gameOver = false ∨ down.cancel = false →
            ∃ s', Snake.keyChanged s down t1 rands = some (s', false)
              ∧ s'.okHoldStart = 0))
      ∧ (1000 < sub32 t1 s.okHoldStart →
        ∃ s', Snake.keyChanged s down t1 rands = some (s', true)
          ∧ s'.okHoldStart = s.okHoldStart))
    ∧ (∀ (s : Tetris.TetrisState) (down : Keys) (t1 r : Nat),
      s.gameStartTime ≠ 0 → 500 ≤ sub32 t1 s.gameStartTime →
      down.ok = false → 0 < s.okHoldStart →
      (sub32 t1 s.okHoldStart ≤ 1000 →
        (Tetris.keyChanged s down t1 r).2 = false
          ∧ (Tetris.keyChanged s down t1 r).1.okHoldStart = 0)
      ∧ (1000 < sub32 t1 s.okHoldStart →
        (Tetris.keyChanged s down t1 r).2 = true
          ∧ (Tetris.keyChanged s down t1 r).1.okHoldStart = s.okHoldStart))
    ∧ (∀ (s : Snake.SnakeState) (down : Keys) (t1 : Nat) (rands : List (Nat × Nat)),
      s.gameStartTime = 0 →
      ∃ s', Snake.keyChanged s down t1 rands = some (s', false) ∧ s'.okHoldStart = 0)
    ∧ (∀ (s : Tetris.TetrisState) (down : Keys) (t1 r : Nat),
      s.gameStartTime = 0 →
      (Tetris.keyChanged s down t1 r).2 = false
        ∧ (Tetris.keyChanged s down t1 r).1.okHoldStart = 0) := by
  refine ⟨?_, ?_, fun s down t1 rands h => Snake.keyChanged_first s down t1 rands h,
    fun s down t1 r h => Tetris.tetris_keyChanged_first s down t1 r h⟩
  · intro s down t1 rands h0 h500 hok hrec
    refine ⟨?_, ?_⟩
    · intro held
      obtain ⟨hp, hz⟩ :=
        Snake.okButton_release_short { s with currentKeys := down } down t1 hok hrec held
      have hkc := Snake.keyChanged_past_startup s down t1 rands h0 h500
      rw [hp] at hkc
      simp only [Bool.false_eq_true, if_false] at hkc
      refine ⟨?_, ?_⟩
      · intro r hr
        rw [hkc, Option.map_eq_some'] at hr
        obtain ⟨t, ht, heq⟩ := hr
        rw [← heq]
        exact ⟨rfl, (Snake.gameKeys_okHoldStart down rands _ t ht).trans hz⟩
      · intro hg
        have hg' : (Snake.okButton { s with currentKeys := down } down t1).1.gameOver = false
            ∨ down.cancel = false := by
          rcases hg with hg | hg
          · left
            exact ((Snake.okButton_frame { s with currentKeys := down } down
              t1).2.2.2.2.2.2).trans hg
          · right; exact hg
        obtain ⟨t, ht⟩ := Snake.gameKeys_returns down rands _ hg'
        refine ⟨t, ?_, (Snake.gameKeys_okHoldStart down rands _ t ht).trans hz⟩
        rw [hkc, ht]
        rfl
    · intro held
      rw [Snake.keyChanged_past_startup s down t1 rands h0 h500,
        Snake.okButton_long { s with currentKeys := down } down t1 hok hrec held]
      exact ⟨_, rfl, rfl⟩
  · intro s down t1 r h0 h500 hok hrec
    refine ⟨?_, ?_⟩
    · intro held
      obtain ⟨hp, hz⟩ :=
        Tetris.tetris_okButton_release_short { s with currentKeys := down } down t1 hok hrec
          held
      rw [Tetris.tetris_keyChanged_past_startup s down t1 r h0 h500, hp]
      simp only [Bool.false_eq_true, if_false]
      exact ⟨trivial, (Tetris.tetris_gameKeys_okHoldStart down r _).trans hz⟩
    · intro held
      rw [Tetris.tetris_keyChanged_past_startup s down t1 r h0 h500,
        Tetris.tetris_okButton_long { s with currentKeys := down } down t1 hok hrec held]
      exact ⟨rfl, rfl⟩

theorem hold_reset_on_release_witness :
    (sub32 4300 Snake.snakeHolding.okHoldStart ≤ 1000
      ∧ ∃ s', Snake.keyChanged Snake.snakeHolding Keys.none 4300 [] = some (s', false)
          ∧ s'.okHoldStart = 0)
    ∧ (1000 < sub32 5500 Tetris.tetrisHolding.okHoldStart
      ∧ (Tetris.keyChanged Tetris.tetrisHolding Keys.none 5500 0).2 = true
      ∧ (Tetris.keyChanged Tetris.tetrisHolding Keys.none 5500 0).1.okHoldStart
          = Tetris.tetrisHolding.okHoldStart)
    ∧ (∃ s', Snake.keyChanged Snake.snakeStart Keys.none 1100 [] = some (s', false)
          ∧ s'.okHoldStart = 0) :=
  ⟨⟨by decide,
    ((hold_reset_on_release.1 Snake.snakeHolding Keys.none 4300 [] (by decide) (by decide)
      rfl (by decide)).1 (by decide)).2 (Or.inl (by decide))⟩,
   ⟨by decide,
    (hold_reset_on_release.2.1 Tetris.tetrisHolding Keys.none 5500 0 (by decide) (by decide)
      rfl (by decide)).2 (by decide)⟩,
   hold_reset_on_release.2.2.1 Snake.snakeStart Keys.none 1100 [] (by decide)⟩

namespace Tetris

/-- Without a collision every occupied mask cell lies on the board and on
an empty grid cell. -/
theorem free_of_no_collision (s : TetrisState) (x y : Int) (rotation : Nat)
    (h : checkCollision s x y rotation = false) (px py : Nat) (hpx : px < 4) (hpy : py < 4)
    (hm : pieceCell s.currentPiece rotation py px ≠ 0) :
    0 ≤ x + px ∧ x + px < 20 ∧ 0 ≤ y + py ∧ y + py < 10
      ∧ s.grid.cell (y + py).toNat (x + px).toNat = 0 := by
  have hno := (checkCollision_spec s x y rotation).not.mp (by rw [h]; decide)
  by_contra hcon
  apply hno
  refine ⟨px, py, hpx, hpy, hm, ?_⟩
  by_contra hall
  push_neg at hall
  apply hcon
  omega

/-- What `placePiece` leaves in a grid cell. -/
theorem placePiece_cell_cases (s : TetrisState) (y x : Nat) :
    (Covered s y x → (placePiece s).grid.cell y x = (s.currentPiece + 1) % 256)
    ∧ (¬ Covered s y x → (placePiece s).grid.cell y x = s.grid.cell y x) := by
  have hcells := (placeRows_spec s 4).2
  rw [← placePiece_eq] at hcells
  exact hcells y x

set_option maxRecDepth 100000 in
theorem occupiedCells_card (kind rotation : Nat) (hk : kind < 7) (hr : rotation < 4) :
    (occupiedCells kind rotation).card = 4 := by
  interval_cases kind <;> interval_cases rotation <;> decide

theorem turnedCells_eq_image (s : TetrisState)
    (hfree : checkCollision s s.pieceX s.pieceY s.pieceRotation = false) :
    turnedCells s = (occupiedCells s.currentPiece s.pieceRotation).image (boardCell s) := by
  ext ⟨y, x⟩
  simp only [turnedCells, occupiedCells, boardCell, BOARD_HEIGHT, BOARD_WIDTH,
    Finset.mem_filter, Finset.mem_product, Finset.mem_range, Finset.mem_image, Prod.exists,
    Prod.mk.injEq]
  constructor
  · rintro ⟨⟨hy, hx⟩, hold, hnew⟩
    have hcov : Covered s y x := by
      by_contra hn
      rw [(placePiece_cell_cases s y x).2 hn] at hnew
      exact hnew hold
    obtain ⟨py, px, hpy, hpx, hm, hX, hY, _, _⟩ := hcov
    exact ⟨py, px, ⟨⟨hpy, hpx⟩, hm⟩, by omega, by omega⟩
  · rintro ⟨py, px, ⟨⟨hpy, hpx⟩, hm⟩, hY, hX⟩
    obtain ⟨h1, h2, h3, h4, h5⟩ :=
      free_of_no_collision s s.pieceX s.pieceY s.pieceRotation hfree px py hpx hpy hm
    have hcov : Covered s y x := ⟨py, px, hpy, hpx, hm, by omega, by omega, by omega, by omega⟩
    refine ⟨⟨by omega, by omega⟩, ?_, ?_⟩
    · rw [← hY, ← hX]; exact h5
    · rw [(placePiece_cell_cases s y x).1 hcov]
      have hk := pieceCell_kind _ _ _ _ hm
      omega

theorem boardCell_injOn (s : TetrisState)
    (hfree : checkCollision s s.pieceX s.pieceY s.pieceRotation = false) :
    Set.InjOn (boardCell s) (occupiedCells s.currentPiece s.pieceRotation : Set (Nat × Nat)) := by
  rintro ⟨a, b⟩ ha ⟨c, d⟩ hc heq
  simp only [occupiedCells, Finset.coe_filter, Finset.mem_product, Finset.mem_range,
    Set.mem_setOf_eq] at ha hc
  obtain ⟨⟨ha1, ha2⟩, ham⟩ := ha
  obtain ⟨⟨hc1, hc2⟩, hcm⟩ := hc
  have fa := free_of_no_collision s s.pieceX s.pieceY s.pieceRotation hfree b a ha2 ha1 ham
  have fc := free_of_no_collision s s.pieceX s.pieceY s.pieceRotation hfree d c hc2 hc1 hcm
  simp only [boardCell, Prod.mk.injEq] at heq
  obtain ⟨e1, e2⟩ := heq
  have : a = c := by omega
  have : b = d := by omega
  subst_vars
  rfl

/-- C25. The mask of every piece kind 0..6 at every rotation 0..3 has exactly
four occupied cells; and for such a piece at a pose at which `checkCollision`
is false, the grid cells that `placePiece` turns from empty to non-zero are
exactly four, and no other grid cell changes. -/
theorem piece_has_four_cells :
    (∀ kind rotation : Nat, kind < 7 → rotation < 4 →
      (occupiedCells kind rotation).card = 4)
    ∧ (∀ s : TetrisState, s.currentPiece < 7 → s.pieceRotation < 4 →
      checkCollision s s.pieceX s.pieceY s.pieceRotation = false →
      (turnedCells s).card = 4
      ∧ ∀ y x : Nat, (placePiece s).grid.cell y x ≠ s.grid.cell y x →
          (y, x) ∈ turnedCells s) := by
  refine ⟨occupiedCells_card, ?_⟩
  intro s hk hr hfree
  refine ⟨?_, ?_⟩
  · rw [turnedCells_eq_image s hfree, Finset.card_image_of_injOn (boardCell_injOn s hfree)]
    exact occupiedCells_card _ _ hk hr
  · intro y x hne
    have hcov : Covered s y x := by
      by_contra hn
      exact hne ((placePiece_cell_cases s y x).2 hn)
    obtain ⟨py, px, hpy, hpx, hm, hX, hY, hx, hy⟩ := hcov
    obtain ⟨h1, h2, h3, h4, h5⟩ :=
      free_of_no_collision s s.pieceX s.pieceY s.pieceRotation hfree px py hpx hpy hm
    rw [hX, hY] at h5
    simp only [Int.toNat_ofNat] at h5
    simp only [turnedCells, BOARD_HEIGHT, BOARD_WIDTH, Finset.mem_filter, Finset.mem_product,
      Finset.mem_range]
    refine ⟨⟨hy, hx⟩, h5, ?_⟩
    rw [h5] at hne
    exact hne

theorem piece_has_four_cells_witness :
    startWithT.currentPiece < 7 ∧ startWithT.pieceRotation < 4
    ∧ checkCollision startWithT startWithT.pieceX startWithT.pieceY
        startWithT.pieceRotation = false
    ∧ (turnedCells startWithT).card = 4 :=
  ⟨by decide, by decide, by decide,
   (piece_has_four_cells.2 startWithT (by decide) (by decide) (by decide)).1⟩

end Tetris
